import Mathlib

/-!
# goser: supervisor core

A shallow embedding of the process supervisor of `goser`
(`internal/manager/process.go`, `internal/manager/manager.go`,
`internal/manager/monitor.go`, `internal/config/service.go`,
`internal/config/loader.go`, `internal/logger/collector.go`,
`internal/daemon/handler.go`, `internal/client/client.go`, and the commands
`enable` and `disable` of `cmd/goser/main.go`) together with theorems about the lifecycle state machine,
the restart monitor, the dependency resolver, config validation, the config
store, the log ring and the status codes of the control API.

Conventions of the embedding

* Go `int` and `time.Duration` are `Int`; the one place where the code does
  arithmetic on a counter (`restartCount++`) wraps at 64 bits (`wrapInt64`).
* `time.Time` values are natural numbers handed in by the environment.
* A pointer is `Option`: `none` is `nil`.
* Channels and `exec.Cmd` handles are natural-number identifiers; which
  channels have been closed is part of the state of the concurrent model.
* Every locked section of the Go code (`p.mu.Lock() ... p.mu.Unlock()`) is one
  function here; a Go method that takes the lock several times is the
  composition of its sections, and the concurrent model interleaves sections.
* What the operating system decides (does the spawn succeed, which pid, what
  does `cmd.Wait()` return, does the stop timeout fire, does a file write or
  removal succeed) is an explicit argument.
* The path of a request is a string that the client builds from the service
  name; what `net/url` and the router make of it is described for the
  characters named at `routeService`, and left open (`unmodelled`) for the
  others.
* The files of the services directory are a map from path to content; the
  path of the file of a service, `filepath.Join(ServicesDir(), name+".yaml")`,
  is a parameter `servicePath` of the operations that use it.
-/

namespace Goser

/-! ## Data model (`internal/model/types.go`, `internal/config/service.go`) -/

/-- The lifecycle state of a service, `model.ServiceState`. -/
inductive ServiceState where
  | StateStopped
  | StateStarting
  | StateRunning
  | StateStopping
  | StateFailed
  deriving DecidableEq, Repr

/-- The string value of a `model.ServiceState` constant. -/
def ServiceState.toString : ServiceState → String
  | .StateStopped => "stopped"
  | .StateStarting => "starting"
  | .StateRunning => "running"
  | .StateStopping => "stopping"
  | .StateFailed => "failed"

/-- The event types of `model.EventType` that the manager emits. -/
inductive EventType where
  | EventServiceStarted
  | EventServiceStopped
  | EventServiceFailed
  | EventServiceRestarted
  | EventServiceAdded
  | EventServiceRemoved
  | EventServiceUpdated
  | EventServiceLog
  | EventDaemonStarted
  | EventDaemonStopping
  deriving DecidableEq, Repr

/-- An event as passed to `Manager.emitEvent` (`model.Event` without its
timestamp and payload). -/
structure Event where
  type : EventType
  Service : String
  Message : String
  deriving DecidableEq, Repr

/-- The health check section of a service config, `config.HealthCheckConfig`. -/
structure HealthCheckConfig where
  type : String
  Endpoint : String
  Command : String
  Interval : Int
  Timeout : Int
  deriving DecidableEq, Repr

/-- The static definition of a service, `config.ServiceConfig`. -/
structure ServiceConfig where
  Name : String
  Command : String
  Args : List String := []
  WorkingDir : String := ""
  Env : List (String × String) := []
  AutoStart : Bool := false
  AutoRestart : Bool := false
  MaxRestarts : Int := 0
  RestartDelay : Int := 0
  StopSignal : String := ""
  StopTimeout : Int := 0
  LogFile : String := ""
  DependsOn : List String := []
  HealthCheck : Option HealthCheckConfig := none
  deriving DecidableEq, Repr

/-- Two's complement wrap of a Go `int` (64 bits). -/
def wrapInt64 (x : Int) : Int :=
  (x + 9223372036854775808) % 18446744073709551616 - 9223372036854775808

/-! ## Validation of a service config (`internal/config/service.go`) -/

/-- A validation error, `config.ConfigError`. -/
structure ConfigError where
  Field : String
  Message : String
  deriving DecidableEq, Repr

/-- `(*ConfigError).Error`. -/
def ConfigError.Error (e : ConfigError) : String :=
  "config error: " ++ e.Field ++ ": " ++ e.Message

/-- The error value `config.ErrMissingName`. -/
def ErrMissingName : ConfigError :=
  { Field := "name", Message := "service name is required" }

/-- The error value `config.ErrMissingCommand`. -/
def ErrMissingCommand : ConfigError :=
  { Field := "command", Message := "command is required" }

/-- One second as a `time.Duration` (nanoseconds). -/
def Second : Int := 1000000000

/-- `(*ServiceConfig).Validate`, lines 24-48. The method works on the config
through a pointer: the first component is the config after the call, the
second the returned error (`none` is `nil`). -/
def ServiceConfig.Validate (c : ServiceConfig) : ServiceConfig × Option ConfigError :=
  if c.Name = "" then (c, some ErrMissingName)
  else if c.Command = "" then (c, some ErrMissingCommand)
  else
    let c1 := if c.MaxRestarts = 0 then { c with MaxRestarts := 5 } else c
    let c2 := if c1.RestartDelay = 0 then { c1 with RestartDelay := 5 * Second } else c1
    let c3 := if c2.StopSignal = "" then { c2 with StopSignal := "SIGTERM" } else c2
    let c4 := if c3.StopTimeout = 0 then { c3 with StopTimeout := 10 * Second } else c3
    let c5 := if c4.LogFile = "" then { c4 with LogFile := "auto" } else c4
    (c5, none)

/-- A config in which every field that has a default is zero. -/
def bareCfg : ServiceConfig := { Name := "web", Command := "serve" }

/-- A config in which every field that has a default is set. -/
def fullCfg : ServiceConfig :=
  { Name := "web", Command := "serve", AutoRestart := true, MaxRestarts := 2,
    RestartDelay := 7, StopSignal := "SIGINT", StopTimeout := 9, LogFile := "web.log" }

/-! ## The config store (`internal/config/loader.go`) -/

/-- The content of a file of the services directory as the loader sees it:
`yaml c` is what `yaml.Marshal` writes for the config `c` and what
`yaml.Unmarshal` reads back as `c`; `other` is any content that is not a
service document. -/
inductive FileData where
  | yaml (c : ServiceConfig)
  | other (bytes : String)
  deriving DecidableEq, Repr

/-- The store: `services` is the index `l.services` (name -> config, an
association list with distinct keys), `files` the regular files the loader
reads and writes, as a map from path to content. -/
structure Loader where
  services : List (String × ServiceConfig) := []
  files : List (String × FileData) := []
  deriving DecidableEq, Repr

/-- Lookup in a Go map kept as an association list: the value stored under
`name`, `none` when the key is absent. -/
def mapGet {β : Type} : List (String × β) → String → Option β
  | [], _ => none
  | (k, v) :: rest, name => if k = name then some v else mapGet rest name

/-- `m[name] = w` on a Go map kept as an association list: overwrite the
value under `name`, or add the key. -/
def mapSet {β : Type} : List (String × β) → String → β → List (String × β)
  | [], name, w => [(name, w)]
  | (k, v) :: rest, name, w =>
      if k = name then (k, w) :: rest else (k, v) :: mapSet rest name w

/-- `delete(m, name)` on a Go map kept as an association list. -/
def mapDel {β : Type} : List (String × β) → String → List (String × β)
  | [], _ => []
  | (k, v) :: rest, name =>
      if k = name then mapDel rest name else (k, v) :: mapDel rest name

/-- What `yaml.Marshal` and `os.WriteFile` do inside one `SaveService` call.
`writeErr msg left`: the write failed with `msg`; `left` is the content it
left at the path (`none`: the path is as it was). -/
inductive WriteResult where
  | marshalErr (msg : String)
  | writeErr (msg : String) (left : Option FileData)
  | written
  deriving DecidableEq, Repr

/-- `GetService`, lines 130-135: the stored config, `none` for `ok = false`. -/
def Loader.GetService (l : Loader) (name : String) : Option ServiceConfig :=
  mapGet l.services name

/-- `SaveService`, lines 138-158. `servicePath name` stands for
`filepath.Join(ServicesDir(), name+".yaml")`. The result holds the store
afterwards, the config behind the pointer `svc` afterwards, and the error text
(`none` is nil). -/
def Loader.SaveService (servicePath : String → String) (l : Loader) (svc : ServiceConfig)
    (w : WriteResult) : Loader × ServiceConfig × Option String :=
  match svc.Validate with
  | (svc1, some err) => (l, svc1, some err.Error)
  | (svc1, none) =>
      match w with
      | .marshalErr msg => (l, svc1, some ("marshal service config: " ++ msg))
      | .writeErr msg none => (l, svc1, some ("write service config: " ++ msg))
      | .writeErr msg (some d) =>
          ({ l with files := mapSet l.files (servicePath svc1.Name) d }, svc1,
            some ("write service config: " ++ msg))
      | .written =>
          ({ services := mapSet l.services svc1.Name svc1
             files := mapSet l.files (servicePath svc1.Name) (.yaml svc1) }, svc1, none)

/-- `RemoveService` of the loader, lines 161-172. `removeErr` is the error of
`os.Remove` when it fails for another reason than a missing file. -/
def Loader.RemoveService (servicePath : String → String) (l : Loader) (name : String)
    (removeErr : Option String) : Loader × Option String :=
  match removeErr with
  | some msg => (l, some ("remove service config: " ++ msg))
  | none =>
      ({ services := mapDel l.services name
         files := mapDel l.files (servicePath name) }, none)

/-- The path of the file of a service when the name has no path separator:
`<name>.yaml` inside the services directory. -/
def yamlPath (name : String) : String := "services/" ++ name ++ ".yaml"

/-! ## The log collector (`internal/logger/collector.go`) -/

/-- One collected line, `model.LogEntry`. -/
structure LogEntry where
  Service : String
  Line : String
  Stream : String
  Timestamp : Nat
  deriving DecidableEq, Repr

/-- A `logger.Collector`: the in-memory ring `lines`, and whether `Close` has
been called on it (the rotating log file behind `writer` is not modelled). -/
structure Collector where
  serviceName : String
  logDir : String
  lines : List LogEntry := []
  maxLines : Int := 1000
  closed : Bool := false
  deriving DecidableEq, Repr

/-- `NewCollector`, lines 30-48. -/
def NewCollector (serviceName logDir : String) : Collector :=
  { serviceName := serviceName, logDir := logDir }

/-- `Close`, lines 104-106. -/
def Collector.Close (c : Collector) : Collector := { c with closed := true }

/-! ## Process (`internal/manager/process.go`) -/

/-- The fields of `manager.Process` that the lock `mu` guards. `cmd`, `stopCh`
and `doneCh` hold identifiers of the `exec.Cmd` and of the channels. -/
structure Process where
  config : ServiceConfig
  cmd : Option Nat := none
  state : ServiceState
  pid : Int := 0
  exitCode : Option Int := none
  startedAt : Option Nat := none
  stoppedAt : Option Nat := none
  restartCount : Int := 0
  lastError : String := ""
  stopCh : Option Nat := none
  doneCh : Option Nat := none
  deriving DecidableEq, Repr

/-- `NewProcess`: a process is created in `StateStopped` with zero fields. -/
def NewProcess (cfg : ServiceConfig) : Process :=
  { config := cfg, state := .StateStopped }

/-- What the operating system answers to the spawn attempted by `Start`
(lines 70-85): one of the three early error returns, or a child with a pid. -/
inductive SpawnResult where
  | stdoutPipeErr (err : String)
  | stderrPipeErr (err : String)
  | startErr (err : String)
  | started (pid : Int)
  deriving DecidableEq, Repr

/-- Everything `Start` takes from its environment: the spawn result, the clock
at the moment it is read, and the fresh identifiers of the `exec.Cmd` and of the
two channels `make` returns. -/
structure StartEnv where
  spawn : SpawnResult
  now : Nat
  cmd : Nat
  stopCh : Nat
  doneCh : Nat
  deriving DecidableEq, Repr

/-- `Start`, lines 43-49: the first locked section. It refuses when the state
is `Running` or `Starting` and otherwise sets `Starting`. -/
def Process.startLock (p : Process) : Except String Process :=
  if p.state = .StateRunning ∨ p.state = .StateStarting then
    .error ("service " ++ p.config.Name ++ " is already " ++ p.state.toString)
  else
    .ok { p with state := .StateStarting }

/-- `setFailed`, lines 265-272. -/
def Process.setFailed (p : Process) (errMsg : String) (now : Nat) : Process :=
  { p with state := .StateFailed, lastError := errMsg, stoppedAt := some now }

/-- `Start`, lines 87-98: the second locked section, after a successful spawn. -/
def Process.startCommit (p : Process) (cmd : Nat) (pid : Int) (now : Nat)
    (stopCh doneCh : Nat) : Process :=
  { p with
    cmd := some cmd
    pid := pid
    startedAt := some now
    stoppedAt := none
    exitCode := none
    lastError := ""
    state := .StateRunning
    stopCh := some stopCh
    doneCh := some doneCh }

/-- `Start`, lines 51-98 once the first locked section has let the call
through: the spawn and what the process records of it, with the error returned. -/
def Process.startSpawn (p : Process) (env : StartEnv) : Process × Option String :=
  match env.spawn with
  | .stdoutPipeErr err => (p.setFailed ("stdout pipe: " ++ err) env.now, some err)
  | .stderrPipeErr err => (p.setFailed ("stderr pipe: " ++ err) env.now, some err)
  | .startErr err =>
      (p.setFailed ("start: " ++ err) env.now,
        some ("start " ++ p.config.Name ++ ": " ++ err))
  | .started pid => (p.startCommit env.cmd pid env.now env.stopCh env.doneCh, none)

/-- `Process.Start` run without interleaving: the process afterwards and the
error returned (`none` is `nil`). The goroutines it launches on success (two
log readers and the waiter) are part of the concurrent model below. -/
def Process.Start (p : Process) (env : StartEnv) : Process × Option String :=
  match p.startLock with
  | .error e => (p, some e)
  | .ok p1 => p1.startSpawn env

/-- A non-nil error returned by `cmd.Wait()`: its text, and its exit code when
it is an `*exec.ExitError`. -/
structure WaitError where
  msg : String
  exitCode : Option Int
  deriving DecidableEq, Repr

/-- `wait`, lines 119-143: the locked section the waiter runs once `cmd.Wait()`
has returned `err` (`none` is `nil`) at time `now`. The deferred
`close(p.doneCh)` happens afterwards, outside the lock. -/
def Process.wait (p : Process) (err : Option WaitError) (now : Nat) : Process :=
  let p1 := { p with stoppedAt := some now }
  let p2 :=
    match err with
    | some e =>
        let p3 :=
          match e.exitCode with
          | some code => { p1 with exitCode := some code }
          | none => p1
        if p3.state ≠ .StateStopping then
          { p3 with lastError := e.msg, state := .StateFailed }
        else
          { p3 with state := .StateStopped }
    | none =>
        let p3 := { p1 with exitCode := some 0 }
        if p3.state ≠ .StateStopping then
          { p3 with state := .StateStopped }
        else
          { p3 with state := .StateStopped }
  { p2 with pid := 0 }

/-- `Stop`, lines 151-158: the locked section. It refuses unless the state is
`Running` and otherwise sets `Stopping`. -/
def Process.stopLock (p : Process) : Except String Process :=
  if p.state ≠ .StateRunning then
    .error ("service " ++ p.config.Name ++ " is not running (state=" ++
      p.state.toString ++ ")")
  else
    .ok { p with state := .StateStopping }

/-- The arm of the `select` of lines 170-176 that a `Stop` call takes: the
receive from `doneCh` (line 171) or the timer of `stopTimeout` (line 173). -/
inductive StopArm where
  | done
  | timeout
  deriving DecidableEq, Repr

/-- What happens around one `Stop` call: the result of `cmd.Process.Kill()`;
whether the waiter has run its locked section by the time the `select` of lines
170-176 returns (`exited = some (err, t)`: it has, with wait result `err` at
time `t`; `none`: it has not); and, when the waiter has finished, whether the
timer is nevertheless the arm the `select` takes. -/
structure StopEnv where
  killErr : Option String
  exited : Option (Option WaitError × Nat)
  timerWon : Bool := false
  deriving DecidableEq, Repr

/-- The arm the `select` takes. The receive from `doneCh` is possible only once
the waiter has finished (it closes `doneCh` after its locked section); the
timer can fire in either case. -/
def StopEnv.arm (env : StopEnv) : StopArm :=
  match env.exited with
  | none => .timeout
  | some _ => if env.timerWon then .timeout else .done

/-- `Process.Stop` run with the waiter as its only concurrent actor: the
process at the moment `Stop` returns, and the error returned. Both arms of the
`select` lead to `return nil`; on the timer arm the second `Kill` is sent and
its result dropped. -/
def Process.Stop (p : Process) (env : StopEnv) : Process × Option String :=
  match p.stopLock with
  | .error e => (p, some e)
  | .ok p1 =>
      match env.killErr with
      | some e => (p1, some e)
      | none =>
          let p2 :=
            match env.exited with
            | some (err, t) => p1.wait err t
            | none => p1
          match env.arm with
          | .done => (p2, none)
          | .timeout => (p2, none)

/-- `UpdateConfig`, lines 226-230. -/
def Process.UpdateConfig (p : Process) (cfg : ServiceConfig) : Process :=
  { p with config := cfg }

/-- `IncrementRestartCount`, lines 245-249: `p.restartCount++` on a Go `int`. -/
def Process.IncrementRestartCount (p : Process) : Process :=
  { p with restartCount := wrapInt64 (p.restartCount + 1) }

/-- `ResetRestartCount`, lines 252-256. -/
def Process.ResetRestartCount (p : Process) : Process :=
  { p with restartCount := 0 }

/-! ## One process and its goroutines: the interleaving model

`Start`, `Stop` and `wait` take the lock of the process more than once, or
run concurrently with each other, so the states other goroutines can observe
are the states between locked sections. `ProcSys` holds the process together
with what the goroutines around it have pending; an action is one locked
section (or one channel operation) of one goroutine. -/

/-- The process and its pending goroutines. `closed` lists the channels that
have been closed, `next` is the next unused identifier, `starting` counts the
`Start` calls that are between their first locked section and the end of the
spawn, `waiting` lists the `doneCh` of every `wait` goroutine blocked in
`cmd.Wait()`, and `reaped` the `doneCh` of every `wait` goroutine that has run
its locked section and has its deferred `close` still to do. A `wait`
goroutine evaluates `p.doneCh` (for its deferred `close`) and `p.cmd` as soon as
`Start` launches it, so it closes the `doneCh` created by that `Start`. -/
structure ProcSys where
  proc : Process
  closed : List Nat := []
  next : Nat := 0
  starting : Nat := 0
  waiting : List Nat := []
  reaped : List Nat := []
  deriving DecidableEq, Repr

/-- One atomic action on a process. -/
inductive ProcAction where
  /-- Some caller of `Start` runs lines 43-49. -/
  | startLock
  /-- A `Start` call past line 49 gets the result `r` of its spawn at time `now`
  and runs `setFailed`, or lines 87-107. -/
  | spawn (r : SpawnResult) (now : Nat)
  /-- Some caller of `Stop` runs lines 151-158. -/
  | stopLock
  /-- The child of the waiter that owns channel `ch` has exited: `cmd.Wait()`
  returns `err` and the waiter runs lines 117-143. -/
  | waitReap (ch : Nat) (err : Option WaitError) (now : Nat)
  /-- The waiter that owns channel `ch` runs its deferred `close`. -/
  | waitClose (ch : Nat)
  /-- `IncrementRestartCount`. -/
  | incrementRestartCount
  /-- `ResetRestartCount`. -/
  | resetRestartCount
  /-- `UpdateConfig`. -/
  | updateConfig (cfg : ServiceConfig)
  deriving DecidableEq, Repr

/-- The effect of one action, `none` when the action cannot happen in this
state. A `Start` or `Stop` call that is refused returns its error and changes
nothing. -/
def ProcSys.step (s : ProcSys) : ProcAction → Option ProcSys
  | .startLock =>
      match s.proc.startLock with
      | .error _ => some s
      | .ok p => some { s with proc := p, starting := s.starting + 1 }
  | .spawn r now =>
      if s.starting = 0 then none
      else
        let env : StartEnv :=
          { spawn := r, now := now, cmd := s.next, stopCh := s.next + 1, doneCh := s.next + 2 }
        match r with
        | .started _ =>
            some { s with
              proc := (s.proc.startSpawn env).1
              starting := s.starting - 1
              next := s.next + 3
              waiting := s.waiting ++ [s.next + 2] }
        | _ => some { s with proc := (s.proc.startSpawn env).1, starting := s.starting - 1 }
  | .stopLock =>
      match s.proc.stopLock with
      | .error _ => some s
      | .ok p => some { s with proc := p }
  | .waitReap ch err now =>
      if ch ∈ s.waiting then
        some { s with
          proc := s.proc.wait err now
          waiting := s.waiting.erase ch
          reaped := s.reaped ++ [ch] }
      else none
  | .waitClose ch =>
      if ch ∈ s.reaped then
        some { s with closed := s.closed ++ [ch], reaped := s.reaped.erase ch }
      else none
  | .incrementRestartCount => some { s with proc := s.proc.IncrementRestartCount }
  | .resetRestartCount => some { s with proc := s.proc.ResetRestartCount }
  | .updateConfig cfg => some { s with proc := s.proc.UpdateConfig cfg }

/-- Run a sequence of actions; `none` when one of them cannot happen. -/
def ProcSys.run (s : ProcSys) : List ProcAction → Option ProcSys
  | [] => some s
  | a :: rest =>
      match s.step a with
      | none => none
      | some s1 => s1.run rest

/-- The system of a freshly registered service. -/
def ProcSys.init (cfg : ServiceConfig) : ProcSys := { proc := NewProcess cfg }

/-- The assumption that the operating system never hands out pid 0. -/
def ProcAction.pidNonZero : ProcAction → Prop
  | .spawn (.started pid) _ => pid ≠ 0
  | _ => True

/-- `DoneCh`, lines 233-242: the channel a caller gets. `none` stands for the
fresh channel that line 238 closes before returning it. -/
def Process.DoneCh (p : Process) : Option Nat :=
  match p.doneCh with
  | none => none
  | some ch => some ch

/-- Whether a channel obtained from `DoneCh` is closed in this state. -/
def ProcSys.chanClosed (s : ProcSys) : Option Nat → Bool
  | none => true
  | some ch => decide (ch ∈ s.closed)

/-! ## Manager: the sequential operations (`internal/manager/manager.go`) -/

/-- The registry and what the manager has emitted. `processes` is the map
`name -> *Process` as an association list with distinct keys; `events` lists
the arguments of `emitEvent` in call order; `monitors` lists the services for
which `go m.monitor(proc)` has been executed, in call order; `collectors` is
the map `name -> *Collector`; `loader` is the config store; `stopChClosed`
tells whether `m.stopCh` has been closed. -/
structure Manager where
  processes : List (String × Process) := []
  events : List Event := []
  monitors : List String := []
  collectors : List (String × Collector) := []
  loader : Loader := {}
  logDir : String := ""
  stopChClosed : Bool := false
  deriving DecidableEq, Repr

/-- Overwrite the value stored under an existing key `name` (a write through
the pointer the map holds); a map without the key is left as it is. -/
def mapPut {β : Type} : List (String × β) → String → β → List (String × β)
  | [], _, _ => []
  | (k, v) :: rest, name, w =>
      if k = name then (k, w) :: rest else (k, v) :: mapPut rest name w

/-- `getProcess`: `m.processes[name]`, `none` when the key is absent. -/
def Manager.getProcess (m : Manager) (name : String) : Option Process :=
  mapGet m.processes name

/-- Writes made through the pointer `m.processes[name]`: replace the value
stored under `name`. -/
def Manager.setProcess (m : Manager) (name : String) (p : Process) : Manager :=
  { m with processes := mapPut m.processes name p }

/-- `emitEvent`: record the event (the handlers run in goroutines of their own). -/
def Manager.emitEvent (m : Manager) (e : Event) : Manager :=
  { m with events := m.events ++ [e] }

/-- `StartService`, lines 101-124, run without interleaving. -/
def Manager.StartService (m : Manager) (name : String) (env : StartEnv) :
    Manager × Option String :=
  match m.getProcess name with
  | none => (m, some ("service " ++ name ++ " not found"))
  | some proc =>
      match proc.Start env with
      | (proc1, some err) => (m.setProcess name proc1, some err)
      | (proc1, none) =>
          let m1 := m.setProcess name proc1.ResetRestartCount
          let m2 := m1.emitEvent
            { type := .EventServiceStarted, Service := name, Message := "service started" }
          ({ m2 with monitors := m2.monitors ++ [name] }, none)

/-- `StopService`, lines 127-145, run with the waiter as the only concurrent
actor. -/
def Manager.StopService (m : Manager) (name : String) (env : StopEnv) :
    Manager × Option String :=
  match m.getProcess name with
  | none => (m, some ("service " ++ name ++ " not found"))
  | some proc =>
      match proc.Stop env with
      | (proc1, some err) => (m.setProcess name proc1, some err)
      | (proc1, none) =>
          let m1 := m.setProcess name proc1
          (m1.emitEvent
            { type := .EventServiceStopped, Service := name, Message := "service stopped" },
            none)

/-! ## Concrete inputs used by the closed statements -/

/-- A minimal valid service definition. -/
def demoCfg : ServiceConfig := { Name := "svc", Command := "run" }

/-- The environment of a first, successful `Start`: pid 4242. -/
def demoStartEnv : StartEnv :=
  { spawn := .started 4242, now := 10, cmd := 1, stopCh := 1, doneCh := 2 }

/-- The environment of a second, successful `Start`: pid 4243. -/
def demoStartEnv2 : StartEnv :=
  { spawn := .started 4243, now := 20, cmd := 2, stopCh := 3, doneCh := 4 }

/-- The process after `NewProcess` and one successful `Start`. -/
def demoRunning : Process := ((NewProcess demoCfg).Start demoStartEnv).1

/-- The process after `Stop` has taken the lock on `demoRunning` and released
it (line 158), the child not yet reaped. -/
def demoStopping : Process := { demoRunning with state := .StateStopping }

/-- A registry holding the never-started service `svc`. -/
def demoManager : Manager := { processes := [("svc", NewProcess demoCfg)] }

/-! ## Invariants of the interleaving model -/

/-- The pid invariant of one state: `Running` has a pid, `Stopped` has none. -/
def PidInv (s : ProcSys) : Prop :=
  (s.proc.state = .StateRunning → s.proc.pid ≠ 0) ∧
  (s.proc.state = .StateStopped → s.proc.pid = 0)

/-- No child is recorded: the pid is 0 and the state is neither `Running` nor
`Stopping`. -/
def Process.quiet (p : Process) : Prop :=
  p.pid = 0 ∧ p.state ≠ .StateRunning ∧ p.state ≠ .StateStopping

/-- The invariant behind `DoneCh`: identifiers in use are below `next`, and
whenever the current `doneCh` is nil, closed, or owned by a waiter that has
already run its locked section, no child is recorded. -/
def DoneInv (s : ProcSys) : Prop :=
  (∀ c ∈ s.closed, c < s.next) ∧
  (∀ c ∈ s.waiting, c < s.next) ∧
  (∀ c ∈ s.reaped, c < s.next) ∧
  (∀ c ∈ s.reaped, s.proc.doneCh = some c → s.proc.quiet) ∧
  (∀ c ∈ s.closed, s.proc.doneCh = some c → s.proc.quiet) ∧
  (s.proc.doneCh = none → s.proc.quiet)

/-! ## One service under supervision: monitors and external commands

`SupSys` adds to `ProcSys` the restart monitors watching the process
(`internal/manager/monitor.go`), the external `StartService` and `StopService`
calls in progress, the supervisor-wide stop broadcast and the emitted events.
An action is again one locked section, one channel operation or one
`emitEvent` of one goroutine. -/

/-- Where a restart monitor stands in `Manager.monitor`. -/
inductive MonitorPc where
  /-- Launched by `go m.monitor(proc)`, line 13 not yet run. -/
  | born
  /-- Line 17, about to call `proc.DoneCh()`. -/
  | loopTop
  /-- Line 17, blocked receiving from the channel `DoneCh` returned. -/
  | waitDone (ch : Option Nat)
  /-- Line 19, about to read the state. -/
  | readState
  /-- Line 37, about to read the restart count. -/
  | checkCount
  /-- Line 48, about to increment the restart count. -/
  | increment
  /-- Line 54, in the `select` between the delay and the stop broadcast. -/
  | sleeping
  /-- Line 61, about to enter `proc.Start()`. -/
  | startLock
  /-- Line 61, inside `proc.Start()` past its first locked section. -/
  | spawning
  /-- Returned; `failed` tells whether it emitted `service.failed` on the way. -/
  | done (failed : Bool)
  deriving DecidableEq, Repr

/-- A restart monitor: the config it read at line 13 and where it stands. -/
structure Monitor where
  cfg : ServiceConfig
  pc : MonitorPc
  deriving DecidableEq, Repr

/-- The supervised service. `extStarting` counts external `StartService` calls
inside `proc.Start()` past its first locked section, `extStarted` those whose
`proc.Start()` has returned nil and that have lines 111-121 still to run,
`extStopping` the `StopService` calls whose `proc.Stop()` is past its locked
section, `stopBroadcast` whether `m.stopCh` has been closed. -/
structure SupSys where
  ps : ProcSys
  monitors : List Monitor := []
  extStarting : Nat := 0
  extStarted : Nat := 0
  extStopping : Nat := 0
  stopBroadcast : Bool := false
  events : List Event := []
  deriving DecidableEq, Repr

/-- One step of a monitor. -/
inductive MonAction where
  /-- Line 13: `cfg := proc.Config()`. -/
  | readConfig
  /-- Line 17: `proc.DoneCh()`. -/
  | getDoneCh
  /-- Line 17: the receive returns because the channel is closed. -/
  | wake
  /-- Lines 19-35: read the state, return on `Stopped` or when `AutoRestart` is off. -/
  | readState
  /-- Lines 37-46: compare the restart count with `MaxRestarts`. -/
  | checkCount
  /-- Line 48: `proc.IncrementRestartCount()`. -/
  | increment
  /-- Line 55: the restart delay has elapsed. -/
  | timer
  /-- Lines 56-57: the stop broadcast wins the `select`. -/
  | stopSignal
  /-- Line 61: the first locked section of `proc.Start()`. -/
  | startLock
  /-- Lines 61-77: the spawn of `proc.Start()` and the event that follows. -/
  | spawn (r : SpawnResult) (now : Nat)
  deriving DecidableEq, Repr

/-- One atomic action on the supervised service. -/
inductive SupAction where
  /-- Monitor number `i` takes a step. -/
  | mon (i : Nat) (a : MonAction)
  /-- An external `StartService` runs the first locked section of `proc.Start()`. -/
  | extStartLock
  /-- An external `StartService` gets the result of its spawn. -/
  | extSpawn (r : SpawnResult) (now : Nat)
  /-- An external `StartService` whose `Start` returned nil runs lines 111-121:
  reset the restart count, emit `service.started`, launch a monitor. -/
  | extFinishStart
  /-- A `Stop` call (from `StopService`, `RestartService`, `RemoveService` or
  `StopAll`) runs its locked section; `emits` says whether the caller is
  `StopService`, which emits `service.stopped` when `Stop` returns nil. -/
  | extStopLock (emits : Bool)
  /-- `StopService` line 137, after `Stop` returned nil. -/
  | extStopEmit
  /-- A child exits and its waiter runs its locked section. -/
  | waitReap (ch : Nat) (err : Option WaitError) (now : Nat)
  /-- A waiter runs its deferred `close`. -/
  | waitClose (ch : Nat)
  /-- `UpdateService` replaces the config of the process. -/
  | updateConfig (cfg : ServiceConfig)
  /-- `StopAll` line 285: `close(m.stopCh)`. -/
  | stopAll
  deriving DecidableEq, Repr

/-- `emitEvent` on the supervised service. -/
def SupSys.emit (s : SupSys) (e : Event) : SupSys :=
  { s with events := s.events ++ [e] }

/-- Replace monitor number `i`. -/
def SupSys.setMon (s : SupSys) (i : Nat) (m : Monitor) : SupSys :=
  { s with monitors := s.monitors.set i m }

/-- The `service.failed` event a monitor emits. -/
def failedEvent (cfg : ServiceConfig) (msg : String) : Event :=
  { type := .EventServiceFailed, Service := cfg.Name, Message := msg }

/-- The error `proc.Start()` returns for a spawn result (`none` is nil). -/
def Process.spawnError (p : Process) (r : SpawnResult) : Option String :=
  (p.startSpawn { spawn := r, now := 0, cmd := 0, stopCh := 0, doneCh := 0 }).2

/-- The step of monitor `i`, currently `m`; `none` when the action is not the
one the monitor can take where it stands. -/
def SupSys.monStep (s : SupSys) (i : Nat) (m : Monitor) (a : MonAction) : Option SupSys :=
  match m.pc, a with
  | .born, .readConfig =>
      some (s.setMon i { cfg := s.ps.proc.config, pc := .loopTop })
  | .loopTop, .getDoneCh =>
      some (s.setMon i { m with pc := .waitDone s.ps.proc.DoneCh })
  | .waitDone ch, .wake =>
      if s.ps.chanClosed ch then some (s.setMon i { m with pc := .readState }) else none
  | .readState, .readState =>
      if s.ps.proc.state = .StateStopped then
        some (s.setMon i { m with pc := .done false })
      else if m.cfg.AutoRestart = false then
        some ((s.setMon i { m with pc := .done true }).emit
          (failedEvent m.cfg "service exited and auto_restart is disabled"))
      else
        some (s.setMon i { m with pc := .checkCount })
  | .checkCount, .checkCount =>
      if s.ps.proc.restartCount ≥ m.cfg.MaxRestarts then
        some ((s.setMon i { m with pc := .done true }).emit
          (failedEvent m.cfg "exceeded max restarts"))
      else
        some (s.setMon i { m with pc := .increment })
  | .increment, .increment =>
      match s.ps.step .incrementRestartCount with
      | none => none
      | some ps => some ({ s with ps := ps }.setMon i { m with pc := .sleeping })
  | .sleeping, .timer =>
      some (s.setMon i { m with pc := .startLock })
  | .sleeping, .stopSignal =>
      if s.stopBroadcast then some (s.setMon i { m with pc := .done false }) else none
  | .startLock, .startLock =>
      match s.ps.proc.startLock with
      | .error e =>
          some ((s.setMon i { m with pc := .done true }).emit
            (failedEvent m.cfg ("restart failed: " ++ e)))
      | .ok _ =>
          match s.ps.step .startLock with
          | none => none
          | some ps => some ({ s with ps := ps }.setMon i { m with pc := .spawning })
  | .spawning, .spawn r now =>
      match s.ps.step (.spawn r now) with
      | none => none
      | some ps =>
          match s.ps.proc.spawnError r with
          | some e =>
              some (({ s with ps := ps }.setMon i { m with pc := .done true }).emit
                (failedEvent m.cfg ("restart failed: " ++ e)))
          | none =>
              some (({ s with ps := ps }.setMon i { m with pc := .loopTop }).emit
                { type := .EventServiceRestarted, Service := m.cfg.Name,
                  Message := "service restarted" })
  | _, _ => none

/-- The effect of one action on the supervised service, `none` when it cannot
happen in this state. -/
def SupSys.step (s : SupSys) : SupAction → Option SupSys
  | .mon i a =>
      match s.monitors[i]? with
      | none => none
      | some m => s.monStep i m a
  | .extStartLock =>
      match s.ps.proc.startLock with
      | .error _ => some s
      | .ok _ =>
          match s.ps.step .startLock with
          | none => none
          | some ps => some { s with ps := ps, extStarting := s.extStarting + 1 }
  | .extSpawn r now =>
      if s.extStarting = 0 then none
      else
        match s.ps.step (.spawn r now) with
        | none => none
        | some ps =>
            match s.ps.proc.spawnError r with
            | some _ => some { s with ps := ps, extStarting := s.extStarting - 1 }
            | none =>
                some { s with
                  ps := ps
                  extStarting := s.extStarting - 1
                  extStarted := s.extStarted + 1 }
  | .extFinishStart =>
      if s.extStarted = 0 then none
      else
        match s.ps.step .resetRestartCount with
        | none => none
        | some ps =>
            some { s with
              ps := ps
              extStarted := s.extStarted - 1
              events := s.events ++
                [{ type := .EventServiceStarted, Service := ps.proc.config.Name,
                   Message := "service started" }]
              monitors := s.monitors ++ [{ cfg := ps.proc.config, pc := .born }] }
  | .extStopLock emits =>
      match s.ps.proc.stopLock with
      | .error _ => some s
      | .ok _ =>
          match s.ps.step .stopLock with
          | none => none
          | some ps =>
              some { s with
                ps := ps
                extStopping := if emits then s.extStopping + 1 else s.extStopping }
  | .extStopEmit =>
      if s.extStopping = 0 then none
      else
        some { s with
          extStopping := s.extStopping - 1
          events := s.events ++
            [{ type := .EventServiceStopped, Service := s.ps.proc.config.Name,
               Message := "service stopped" }] }
  | .waitReap ch err now =>
      match s.ps.step (.waitReap ch err now) with
      | none => none
      | some ps => some { s with ps := ps }
  | .waitClose ch =>
      match s.ps.step (.waitClose ch) with
      | none => none
      | some ps => some { s with ps := ps }
  | .updateConfig cfg =>
      match s.ps.step (.updateConfig cfg) with
      | none => none
      | some ps => some { s with ps := ps }
  | .stopAll => some { s with stopBroadcast := true }

/-- Run a sequence of actions; `none` when one of them cannot happen. -/
def SupSys.run (s : SupSys) : List SupAction → Option SupSys
  | [] => some s
  | a :: rest =>
      match s.step a with
      | none => none
      | some s1 => s1.run rest

/-- A freshly registered service: no child, no monitor. -/
def SupSys.init (cfg : ServiceConfig) : SupSys := { ps := ProcSys.init cfg }

/-- The three actions of one external `StartService` that succeeds. -/
def startServiceOk (pid : Int) (now : Nat) : List SupAction :=
  [.extStartLock, .extSpawn (.started pid) now, .extFinishStart]

/-- The largest Go `int`. -/
def maxInt64 : Int := 9223372036854775807

/-- A service that restarts up to three times. -/
def restartCfg : ServiceConfig :=
  { Name := "svc", Command := "run", AutoRestart := true, MaxRestarts := 3, RestartDelay := 50 }

/-- A service whose `max_restarts` is negative (`Validate` only replaces 0). -/
def negativeCfg : ServiceConfig :=
  { Name := "svc", Command := "run", AutoRestart := true, MaxRestarts := -1 }

/-- After a `StartService`: the monitor reads its config and blocks on
`doneCh`, the child exits with status 1, the monitor wakes, counts its first
restart and sleeps in the restart delay. -/
def firstRestartActs : List SupAction :=
  [.mon 0 .readConfig, .mon 0 .getDoneCh,
   .waitReap 2 (some { msg := "exit status 1", exitCode := some 1 }) 11, .waitClose 2,
   .mon 0 .wake, .mon 0 .readState, .mon 0 .checkCount, .mon 0 .increment]

/-- The monitor's own restart after the delay: timer, `proc.Start()`. -/
def monitorRestartActs : List SupAction :=
  [.mon 0 .timer, .mon 0 .startLock, .mon 0 (.spawn (.started 4243) 12)]

/-- The restarted child fails again; the monitor counts its second restart and
sleeps in the restart delay. -/
def secondRestartActs : List SupAction :=
  [.mon 0 .getDoneCh,
   .waitReap 5 (some { msg := "exit status 1", exitCode := some 1 }) 13, .waitClose 5,
   .mon 0 .wake, .mon 0 .readState, .mon 0 .checkCount, .mon 0 .increment]

/-- The config `restartCfg` with `max_restarts` lowered to 1. -/
def loweredCfg : ServiceConfig := { restartCfg with MaxRestarts := 1 }

/-! ## Dependency resolution (`Manager.resolveDependencies`, `Manager.LoadAndStart`)

A Go map is iterated in an unspecified order, and each `range` over the same
map may take another order. The map `services` is the list of its entries
(distinct keys); every `range` takes the order it iterates in as an argument,
and the theorems quantify over all orders that are permutations of the
entries. The counters in `inDegree` are `Int`: they are bounded by the number
of `dependsOn` entries held in memory, far below the range of a Go `int`. -/

/-- A Go map with string keys that is written key by key: the keys present, in
insertion order, and the lookup `m[k]`, which gives the zero value for an
absent key. -/
structure GoMap (β : Type) where
  keys : List String
  get : String → β

/-- `make(map[string]T)`. -/
def GoMap.empty {β : Type} (zero : β) : GoMap β := { keys := [], get := fun _ => zero }

/-- `m[k] = v`. -/
def GoMap.set {β : Type} (m : GoMap β) (k : String) (v : β) : GoMap β :=
  { keys := if k ∈ m.keys then m.keys else m.keys ++ [k]
    get := fun x => if x = k then v else m.get x }

/-- `_, ok := m[k]`. -/
def GoMap.has {β : Type} (m : GoMap β) (k : String) : Bool := decide (k ∈ m.keys)

/-- `resolveDependencies`, lines 348-355: the first loop, over the keys of
`services` in the order `it1`. -/
def initMaps : List String → GoMap (List String) × GoMap Int →
    GoMap (List String) × GoMap Int
  | [], gd => gd
  | name :: rest, (graph, inDegree) =>
      let graph1 := if graph.has name then graph else graph.set name []
      let inDegree1 := if inDegree.has name then inDegree else inDegree.set name 0
      initMaps rest (graph1, inDegree1)

/-- `resolveDependencies`, lines 357-360: the inner loop over `svc.DependsOn`
for the service stored under `name`. -/
def addDeps (name : String) : List String → GoMap (List String) × GoMap Int →
    GoMap (List String) × GoMap Int
  | [], gd => gd
  | dep :: rest, (graph, inDegree) =>
      addDeps name rest
        (graph.set dep (graph.get dep ++ [name]), inDegree.set name (inDegree.get name + 1))

/-- `resolveDependencies`, lines 356-361: the second loop, over the entries of
`services` in the order `it2`. -/
def addEdges : List (String × ServiceConfig) → GoMap (List String) × GoMap Int →
    GoMap (List String) × GoMap Int
  | [], gd => gd
  | (name, svc) :: rest, gd => addEdges rest (addDeps name svc.DependsOn gd)

/-- The maps `graph` and `inDegree` at line 362. -/
def buildMaps (it1 it2 : List (String × ServiceConfig)) :
    GoMap (List String) × GoMap Int :=
  addEdges it2 (initMaps (it1.map Prod.fst) (GoMap.empty [], GoMap.empty 0))

/-- `resolveDependencies`, lines 364-369: the initial queue, from a `range`
over `inDegree` in the order `it3`. -/
def initialQueue (inDegree : GoMap Int) : List String → List String
  | [] => []
  | name :: rest =>
      if inDegree.get name = 0 then name :: initialQueue inDegree rest
      else initialQueue inDegree rest

/-- `resolveDependencies`, lines 377-382: the loop over `graph[node]`. -/
def relax : List String → GoMap Int → List String → GoMap Int × List String
  | [], inDegree, queue => (inDegree, queue)
  | neighbor :: rest, inDegree, queue =>
      let inDegree1 := inDegree.set neighbor (inDegree.get neighbor - 1)
      if inDegree1.get neighbor = 0 then relax rest inDegree1 (queue ++ [neighbor])
      else relax rest inDegree1 queue

/-- `resolveDependencies`, lines 371-383: the loop `for len(queue) > 0`, with a
bound on the number of iterations; `none` when the bound is used up while the
queue is not empty. -/
def kahnLoop (graph : GoMap (List String)) :
    Nat → List String → GoMap Int → List String → Option (List String)
  | _, [], _, order => some order
  | 0, _ :: _, _, _ => none
  | fuel + 1, node :: queue, inDegree, order =>
      let r := relax (graph.get node) inDegree queue
      kahnLoop graph fuel r.2 r.1 (order ++ [node])

/-- `resolveDependencies`. `it1` and `it2` are the orders of the two `range`
loops over `services`, `it3` the order of the `range` over `inDegree`. The main
loop is given one iteration per key of `inDegree`, which always suffices
(`resolveDependencies_returns`). -/
def resolveDependencies (it1 it2 : List (String × ServiceConfig)) (it3 : List String) :
    Option (List String) :=
  let gd := buildMaps it1 it2
  kahnLoop gd.1 it3.length (initialQueue gd.2 it3) gd.2 []

/-- What it means for the three iteration orders to be iterations of the maps
of one call of `resolveDependencies` over `services`: `it1` and `it2` are
permutations of the entries, `it3` is a permutation of the keys of `inDegree`. -/
def IterationOrders (services it1 it2 : List (String × ServiceConfig)) (it3 : List String) :
    Prop :=
  it1.Perm services ∧ it2.Perm services ∧ it3.Perm (buildMaps it1 it2).2.keys

/-- Service `b` lists `a` in its `dependsOn`. -/
def Depends (services : List (String × ServiceConfig)) (b a : String) : Prop :=
  ∃ svc, (b, svc) ∈ services ∧ a ∈ svc.DependsOn

/-- The services A, B (depends on A) and C (depends on B) of the spec's
dependency scenario. -/
def abcServices : List (String × ServiceConfig) :=
  [("A", { Name := "A", Command := "a", AutoStart := true }),
   ("B", { Name := "B", Command := "b", AutoStart := true, DependsOn := ["A"] }),
   ("C", { Name := "C", Command := "c", AutoStart := true, DependsOn := ["B"] })]

/-- The edges the second loop of `resolveDependencies` records, in the order
it records them: `(dep, name)` for every entry `dep` of the `dependsOn` of the
service stored under `name`. -/
def edgesOf (it2 : List (String × ServiceConfig)) : List (String × String) :=
  it2.flatMap (fun e => e.2.DependsOn.map (fun dep => (dep, e.1)))

/-- Lines 358-359 for a list of edges: what the second loop does, one edge at
a time. -/
def addEdgeList : List (String × String) → GoMap (List String) × GoMap Int →
    GoMap (List String) × GoMap Int
  | [], gd => gd
  | (dep, name) :: rest, (graph, inDegree) =>
      addEdgeList rest
        (graph.set dep (graph.get dep ++ [name]), inDegree.set name (inDegree.get name + 1))

/-- The invariant of the main loop of `resolveDependencies` at the top of an
iteration: `names` are the loaded services, `edges` the recorded edges
`(dep, name)`. No name is twice in `order ++ queue`; everything there is a
loaded service; `inDegree[b]` counts the edges into `b` whose source has not
been output; a loaded service is in `order ++ queue` exactly when that count is
0; and every edge into an output service comes from a service output earlier. -/
structure KahnInv (names : List String) (edges : List (String × String))
    (queue : List String) (inDegree : GoMap Int) (order : List String) : Prop where
  nodup : (order ++ queue).Nodup
  sub : ∀ x ∈ order ++ queue, x ∈ names
  deg : ∀ b, inDegree.get b =
    ((edges.countP (fun e => decide (e.2 = b) && !decide (e.1 ∈ order)) : Nat) : Int)
  zero : ∀ b ∈ names, (b ∈ order ++ queue ↔ inDegree.get b = 0)
  before : ∀ e ∈ edges, e.2 ∈ order →
    e.1 ∈ order ∧ order.indexOf e.1 < order.indexOf e.2

/-- `registerService`, lines 81-98: a new collector and a new `Process` in
`Stopped` are stored under `svc.Name`. -/
def Manager.registerService (m : Manager) (svc : ServiceConfig) : Manager :=
  { m with
    processes := mapSet m.processes svc.Name (NewProcess svc)
    collectors := mapSet m.collectors svc.Name (NewCollector svc.Name m.logDir) }

/-- `LoadAndStart`, lines 60-62: register every loaded service, in the order
`it0` of the `range` over `services`. -/
def Manager.registerAll (m : Manager) : List (String × ServiceConfig) → Manager
  | [] => m
  | (_, svc) :: rest => (m.registerService svc).registerAll rest

/-- `LoadAndStart`, lines 66-76: the loop over `order`. The second component
lists the names `StartService` was called with, in call order; `env` gives the
outcome of the spawn for each name; an error of `StartService` is logged and
the loop goes on. -/
def Manager.autoStartLoop (m : Manager) (env : String → StartEnv) :
    List String → Manager × List String
  | [] => (m, [])
  | name :: rest =>
      match m.getProcess name with
      | none => m.autoStartLoop env rest
      | some proc =>
          if proc.config.AutoStart then
            let r := (m.StartService name (env name)).1.autoStartLoop env rest
            (r.1, name :: r.2)
          else m.autoStartLoop env rest

/-- `LoadAndStart`: `it0` is the order of the registration loop, `it1`, `it2`
and `it3` are the orders inside `resolveDependencies`. The result holds the
manager afterwards and the names `StartService` was called with, in order. -/
def Manager.LoadAndStart (m : Manager) (it0 it1 it2 : List (String × ServiceConfig))
    (it3 : List String) (env : String → StartEnv) : Option (Manager × List String) :=
  let m1 := m.registerAll it0
  match resolveDependencies it1 it2 it3 with
  | none => none
  | some order => some (m1.autoStartLoop env order)

/-- A loaded service all of whose `dependsOn` entries are, recursively, of the
same kind: every dependency chain from it stays inside the loaded services and
ends. -/
inductive Resolvable (services : List (String × ServiceConfig)) : String → Prop where
  | mk (b : String) : b ∈ services.map Prod.fst →
      (∀ a, Depends services b a → Resolvable services a) → Resolvable services b

/-- One service, B, that depends on a service X that is not loaded. -/
def missingDepServices : List (String × ServiceConfig) :=
  [("B", { Name := "B", Command := "b", AutoStart := true, DependsOn := ["X"] })]

/-- The spawn outcome used for every service in the closed statements. -/
def demoEnv : String → StartEnv := fun _ => demoStartEnv

/-- Whether `LoadAndStart` finds a process under `name` whose config has
`AutoStart` set (lines 67-71). -/
def Manager.autoFlag (m : Manager) (name : String) : Bool :=
  match m.getProcess name with
  | some proc => proc.config.AutoStart
  | none => false

/-- Three services: A stands alone, B and C depend on each other. -/
def cycleServices : List (String × ServiceConfig) :=
  [("A", { Name := "A", Command := "a", AutoStart := true }),
   ("B", { Name := "B", Command := "b", AutoStart := true, DependsOn := ["C"] }),
   ("C", { Name := "C", Command := "c", AutoStart := true, DependsOn := ["B"] })]

/-- Whether a monitor has not returned yet. -/
def Monitor.alive (m : Monitor) : Bool :=
  match m.pc with
  | .done _ => false
  | _ => true

/-- The restriction under which the lifetimes of monitors do not overlap: the
spawn of an external `StartService` succeeds only while no monitor is alive
and no other successful `StartService` is still before its line 111. A config
handed to `UpdateService` holds a Go `int` in `MaxRestarts`. -/
def SupSys.allows (s : SupSys) : SupAction → Bool
  | .extSpawn (.started _) _ =>
      s.monitors.all (fun m => !m.alive) && decide (s.extStarted = 0)
  | .updateConfig cfg => decide (cfg.MaxRestarts ≤ maxInt64)
  | _ => true

/-- Run a sequence of actions each of which `allows` admits in the state it is
taken in; `none` when one of them is not admitted or cannot happen. -/
def SupSys.runSolo (s : SupSys) : List SupAction → Option SupSys
  | [] => some s
  | a :: rest =>
      if s.allows a then
        match s.step a with
        | none => none
        | some s1 => s1.runSolo rest
      else none

/-- What holds of the latest monitor `m` of a service: its `MaxRestarts` is a
Go `int`, the restart count is at most the larger of 0 and that `MaxRestarts`,
it is 0 while the monitor has not read its config, and it is below
`MaxRestarts` when the monitor is about to increment it. -/
def MonOK (s : SupSys) (m : Monitor) : Prop :=
  m.cfg.MaxRestarts ≤ maxInt64 ∧
  (s.ps.proc.restartCount ≤ 0 ∨ s.ps.proc.restartCount ≤ m.cfg.MaxRestarts) ∧
  (m.pc = .born → s.ps.proc.restartCount = 0) ∧
  (m.pc = .increment → s.ps.proc.restartCount < m.cfg.MaxRestarts)

/-- The invariant of the runs in which monitor lifetimes do not overlap: the
restart count is not negative, at most one successful `StartService` is before
its line 111 and then no monitor is alive, and all monitors but the latest
have returned while the latest satisfies `MonOK`. -/
def SoloInv (s : SupSys) : Prop :=
  0 ≤ s.ps.proc.restartCount ∧
  s.ps.proc.config.MaxRestarts ≤ maxInt64 ∧
  s.extStarted ≤ 1 ∧
  (s.extStarted = 1 → ∀ m ∈ s.monitors, m.alive = false) ∧
  (s.monitors = [] ∨
    ∃ dones m, s.monitors = dones ++ [m] ∧ (∀ d ∈ dones, d.alive = false) ∧ MonOK s m)

/-! ## Manager: adding, removing, updating services and `StopAll` -/

/-- `AddService`, lines 167-188, run without interleaving; `w` is what the
write of the service file does. -/
def Manager.AddService (servicePath : String → String) (m : Manager) (svc : ServiceConfig)
    (w : WriteResult) : Manager × Option String :=
  match svc.Validate with
  | (_, some err) => (m, some err.Error)
  | (svc1, none) =>
      match m.loader.SaveService servicePath svc1 w with
      | (l1, _, some err) => ({ m with loader := l1 }, some err)
      | (l1, svc2, none) =>
          let m1 := { m with loader := l1 }.registerService svc2
          (m1.emitEvent
            { type := .EventServiceAdded, Service := svc2.Name, Message := "service added" },
            none)

/-- `RemoveService`, lines 191-221, run with the waiter as the only concurrent
actor; `stop` is what happens around the `Stop` of a running process,
`removeErr` the failure of `os.Remove`, if any. The collector stored under
the name is closed and dropped together with the process. -/
def Manager.RemoveService (servicePath : String → String) (m : Manager) (name : String)
    (stop : StopEnv) (removeErr : Option String) : Manager × Option String :=
  let stopped : Manager × Option String :=
    match m.getProcess name with
    | none => (m, none)
    | some proc =>
        if proc.state = .StateRunning then
          match proc.Stop stop with
          | (proc1, some err) => (m.setProcess name proc1, some ("stop before remove: " ++ err))
          | (proc1, none) => (m.setProcess name proc1, none)
        else (m, none)
  match stopped with
  | (m1, some err) => (m1, some err)
  | (m1, none) =>
      match m1.loader.RemoveService servicePath name removeErr with
      | (l1, some err) => ({ m1 with loader := l1 }, some err)
      | (l1, none) =>
          let m2 := { m1 with
            loader := l1
            collectors := mapDel m1.collectors name
            processes := mapDel m1.processes name }
          (m2.emitEvent
            { type := .EventServiceRemoved, Service := name, Message := "service removed" },
            none)

/-- `UpdateService`, lines 224-246, run without interleaving. -/
def Manager.UpdateService (servicePath : String → String) (m : Manager) (svc : ServiceConfig)
    (w : WriteResult) : Manager × Option String :=
  match svc.Validate with
  | (_, some err) => (m, some err.Error)
  | (svc1, none) =>
      let m1 :=
        match m.getProcess svc1.Name with
        | some proc => m.setProcess svc1.Name (proc.UpdateConfig svc1)
        | none => m
      match m1.loader.SaveService servicePath svc1 w with
      | (l1, _, some err) => ({ m1 with loader := l1 }, some err)
      | (l1, svc2, none) =>
          ({ m1 with loader := l1 }.emitEvent
            { type := .EventServiceUpdated, Service := svc2.Name,
              Message := "service configuration updated" }, none)

/-- `StopAll`, lines 295-304: `Stop` is called on every process whose state
reads `Running`; `env name` is what happens around the `Stop` of `name`. Each
`Stop` works on its own process, so the goroutines are run one after the
other. -/
def stopRunning (env : String → StopEnv) : List (String × Process) → List (String × Process)
  | [] => []
  | (name, p) :: rest =>
      (name, if p.state = .StateRunning then (p.Stop (env name)).1 else p) ::
        stopRunning env rest

/-- `StopAll`, lines 307-311: `Close` on every collector. -/
def closeAll : List (String × Collector) → List (String × Collector)
  | [] => []
  | (name, c) :: rest => (name, c.Close) :: closeAll rest

/-- `StopAll`, lines 284-312, with the waiters as the only concurrent actors:
the manager at the moment `StopAll` returns. `none` is the panic of
`close(m.stopCh)` on a channel that is already closed. -/
def Manager.StopAll (m : Manager) (env : String → StopEnv) : Option Manager :=
  if m.stopChClosed then none
  else
    some { m with
      stopChClosed := true
      processes := stopRunning env m.processes
      collectors := closeAll m.collectors }

/-- A store that holds nothing. -/
def emptyLoader : Loader := {}

/-- A config without a command. -/
def noCommandCfg : ServiceConfig := { Name := "web", Command := "" }

/-! ## Loading the services directory (`Loader.LoadServices`) -/

/-- One entry returned by `os.ReadDir(svcDir)`: its name, whether it is a
directory, and `path = filepath.Join(svcDir, name)`. -/
structure DirEntry where
  name : String
  isDir : Bool
  path : String
  deriving DecidableEq, Repr

/-- The result of `os.ReadDir(svcDir)`. -/
inductive ReadDirResult where
  | notExist
  | failed (msg : String)
  | entries (es : List DirEntry)
  deriving DecidableEq, Repr

/-- Lines 78-79: `filepath.Ext(name)` is `.yaml` or `.yml`. The extension is
the suffix that starts at the last dot, so it is `.yaml` exactly when the
name ends in `.yaml`. -/
def hasServiceExt (file : String) : Bool :=
  ".yaml".data.isSuffixOf file.data || ".yml".data.isSuffixOf file.data

/-- `loadServiceFile`, lines 94-108: read, unmarshal, validate. A path without
a file is the error of `os.ReadFile`. -/
def Loader.loadServiceFile (l : Loader) (path : String) : Except String ServiceConfig :=
  match mapGet l.files path with
  | none => .error ("open " ++ path ++ ": no such file or directory")
  | some (.other _) => .error ("parse " ++ path ++ ": cannot unmarshal")
  | some (.yaml c) =>
      match c.Validate with
      | (_, some err) => .error ("validate " ++ path ++ ": " ++ err.Error)
      | (c1, none) => .ok c1

/-- `LoadServices`, lines 74-88: the loop over the directory entries, filling
the new map `services`. -/
def Loader.loadEntries (l : Loader) :
    List DirEntry → List (String × ServiceConfig) → Except String (List (String × ServiceConfig))
  | [], services => .ok services
  | e :: rest, services =>
      if e.isDir then l.loadEntries rest services
      else if !hasServiceExt e.name then l.loadEntries rest services
      else
        match l.loadServiceFile e.path with
        | .error err => .error ("load service " ++ e.name ++ ": " ++ err)
        | .ok svc => l.loadEntries rest (mapSet services svc.Name svc)

/-- `LoadServices`, lines 60-92. -/
def Loader.LoadServices (l : Loader) (dir : ReadDirResult) : Loader × Option String :=
  match dir with
  | .notExist => (l, none)
  | .failed msg => (l, some ("read services dir: " ++ msg))
  | .entries es =>
      match l.loadEntries es [] with
      | .error err => (l, some err)
      | .ok services => ({ l with services := services }, none)

/-- A registry whose service `svc` has been started and is running. -/
def runningManager : Manager := (demoManager.registerService demoCfg |>.StartService "svc" demoStartEnv).1

/-- A services directory with the one file `x.yaml`, which defines a service
named `y`, after `LoadServices` and the registration loop of `LoadAndStart`. -/
def misnamedManager : Manager :=
  let disk : Loader := { files := [(yamlPath "x", .yaml { Name := "y", Command := "run" })] }
  let l := (disk.LoadServices
    (.entries [{ name := "x.yaml", isDir := false, path := yamlPath "x" }])).1
  ({ loader := l } : Manager).registerAll l.services

/-- A valid config named `x`. -/
def xCfg : ServiceConfig := { Name := "x", Command := "run" }

/-- A `Stop` that ends on the graceful branch: the kill succeeds and the waiter
finishes at time 9. -/
def gracefulStop : StopEnv := { killErr := none, exited := some (none, 9) }

/-- A `Stop` whose kill succeeds and whose `stopTimeout` fires before the
waiter has finished. -/
def timedOutStop : StopEnv := { killErr := none, exited := none }

/-- A `Stop` whose kill succeeds and whose waiter finishes at time 9, while the
`select` takes the timer arm all the same. -/
def lateTimeoutStop : StopEnv := { killErr := none, exited := some (none, 9), timerWon := true }

/-- The process between the two locked sections of its first `Start`. -/
def demoStarting : Process := { NewProcess demoCfg with state := .StateStarting }

/-- The first restart of `restartCfg` up to the point where the monitor has
left its restart delay, then `StopAll` closes the stop channel, then the
monitor goes on with `proc.Start()`. -/
def lateStopAllActs : List SupAction :=
  startServiceOk 4242 10 ++ firstRestartActs ++ [.mon 0 .timer, .stopAll] ++
    [.mon 0 .startLock, .mon 0 (.spawn (.started 4243) 12)]

/-- Line 49: `delay := cfg.RestartDelay`, the duration the monitor hands to
`time.After`. -/
def Monitor.delay (m : Monitor) : Int := m.cfg.RestartDelay

/-- The config `restartCfg` with `auto_restart` switched off. -/
def noRestartCfg : ServiceConfig := { restartCfg with AutoRestart := false, MaxRestarts := 0 }

/-- After a `StartService` of `restartCfg` and the monitor's line 13, the
config is replaced by `noRestartCfg` while the child runs; the child exits with
status 1 and the monitor handles the exit. -/
def updateThenExitActs : List SupAction :=
  startServiceOk 4242 10 ++
  [.mon 0 .readConfig, .mon 0 .getDoneCh, .updateConfig noRestartCfg,
   .waitReap 2 (some { msg := "exit status 1", exitCode := some 1 }) 11, .waitClose 2,
   .mon 0 .wake, .mon 0 .readState, .mon 0 .checkCount, .mon 0 .increment,
   .mon 0 .timer, .mon 0 .startLock, .mon 0 (.spawn (.started 4243) 12)]

/-- The service `restartCfg` started, its monitor past line 13. -/
def watchedSys : SupSys :=
  ((SupSys.init restartCfg).run (startServiceOk 4242 10 ++ [.mon 0 .readConfig])).getD
    (SupSys.init restartCfg)

/-- The system `watchedSys` after `UpdateConfig noRestartCfg`. -/
def updatedSys : SupSys := (watchedSys.run [.updateConfig noRestartCfg]).getD watchedSys

/-! ## Runs in which nothing acts but the monitor and the waiters -/

/-- An action that is neither an external command nor the shutdown: a step of
a monitor or of a waiter. -/
def SupAction.unattended : SupAction → Bool
  | .mon _ _ => true
  | .waitReap _ _ _ => true
  | .waitClose _ => true
  | _ => false

/-- Every child exit in the action is an exit with code 0: `cmd.Wait()`
returns nil. -/
def SupAction.exitsClean : SupAction → Bool
  | .waitReap _ err _ => err.isNone
  | _ => true

/-- Every child exit in the action is an exit with a non-zero code
(`cmd.Wait()` returns an `*exec.ExitError`), and every spawn in it succeeds. -/
def SupAction.crashes : SupAction → Bool
  | .waitReap _ (some e) _ =>
      match e.exitCode with
      | some code => decide (code ≠ 0)
      | none => false
  | .waitReap _ none _ => false
  | .mon _ (.spawn (.started _) _) => true
  | .mon _ (.spawn _ _) => false
  | _ => true

/-- The `service.started` event of `StartService`. -/
def startedEvent (cfg : ServiceConfig) : Event :=
  { type := .EventServiceStarted, Service := cfg.Name, Message := "service started" }

/-- The `service.restarted` event of the monitor. -/
def restartedEvent (cfg : ServiceConfig) : Event :=
  { type := .EventServiceRestarted, Service := cfg.Name, Message := "service restarted" }

/-- After a `StartService`: the monitor reads its config and blocks on
`doneCh`, the child exits with code 0 at time `t`, the monitor wakes and reads
the state. -/
def cleanExitActs (t : Nat) : List SupAction :=
  [.mon 0 .readConfig, .mon 0 .getDoneCh, .waitReap 2 none t, .waitClose 2,
   .mon 0 .wake, .mon 0 .readState]

/-- What holds after one `StartService` of a fresh service while only its
monitor and its waiter act and the child exits with code 0: the one event is
`service.started`, the restart count is 0, the child is running or has left
the state `Stopped` with exit code 0, and the monitor reads the state only
once `doneCh` is closed. -/
structure CleanInv (cfg : ServiceConfig) (s : SupSys) : Prop where
  events : s.events = [startedEvent cfg]
  count : s.ps.proc.restartCount = 0
  config : s.ps.proc.config = cfg
  doneCh : s.ps.proc.doneCh = some 2
  mon : ∃ pc, s.monitors = [{ cfg := cfg, pc := pc }] ∧
    (pc = .born ∨ pc = .loopTop ∨ pc = .waitDone (some 2) ∨
      ((pc = .readState ∨ pc = .done false) ∧ s.ps.closed = [2]))
  child :
    (s.ps.proc.state = .StateRunning ∧ s.ps.waiting = [2] ∧ s.ps.reaped = [] ∧
      s.ps.closed = []) ∨
    (s.ps.proc.state = .StateStopped ∧ s.ps.proc.exitCode = some 0 ∧ s.ps.waiting = [] ∧
      ((s.ps.reaped = [2] ∧ s.ps.closed = []) ∨ (s.ps.reaped = [] ∧ s.ps.closed = [2])))

/-! ## A service that crashes on every run -/

/-- No child runs and none is being started: the last child has failed and
its `doneCh` is closed. -/
def SupSys.Dead (s : SupSys) : Prop :=
  s.ps.proc.state = .StateFailed ∧ s.ps.waiting = [] ∧ s.ps.reaped = [] ∧ s.ps.starting = 0

/-- The child whose `doneCh` is `d` is the current one: it runs, or its waiter
has set `Failed` and not yet closed `d`, or `d` is closed. -/
def SupSys.Watched (s : SupSys) (d : Nat) : Prop :=
  s.ps.proc.doneCh = some d ∧ d < s.ps.next ∧ s.ps.starting = 0 ∧
  ((s.ps.proc.state = .StateRunning ∧ s.ps.waiting = [d] ∧ s.ps.reaped = [] ∧
      d ∉ s.ps.closed) ∨
    (s.ps.proc.state = .StateFailed ∧ s.ps.waiting = [] ∧ s.ps.reaped = [d] ∧
      d ∉ s.ps.closed) ∨
    (s.ps.proc.state = .StateFailed ∧ s.ps.waiting = [] ∧ s.ps.reaped = [] ∧
      d ∈ s.ps.closed))

/-- What holds of the process while the monitor stands at `pc` and has emitted
`r` times `service.restarted`; `k` is `MaxRestarts`. -/
def CrashPhase (k : Int) (s : SupSys) (r : Nat) : MonitorPc → Prop
  | .born => s.ps.proc.restartCount = r ∧ (r : Int) ≤ k ∧ ∃ d, s.Watched d
  | .loopTop => s.ps.proc.restartCount = r ∧ (r : Int) ≤ k ∧ ∃ d, s.Watched d
  | .waitDone ch => s.ps.proc.restartCount = r ∧ (r : Int) ≤ k ∧ ∃ d, ch = some d ∧ s.Watched d
  | .readState => s.ps.proc.restartCount = r ∧ (r : Int) ≤ k ∧ s.Dead
  | .checkCount => s.ps.proc.restartCount = r ∧ (r : Int) ≤ k ∧ s.Dead
  | .increment => s.ps.proc.restartCount = r ∧ (r : Int) < k ∧ s.Dead
  | .sleeping => s.ps.proc.restartCount = (r : Int) + 1 ∧ (r : Int) < k ∧ s.Dead
  | .startLock => s.ps.proc.restartCount = (r : Int) + 1 ∧ (r : Int) < k ∧ s.Dead
  | .spawning =>
      s.ps.proc.restartCount = (r : Int) + 1 ∧ (r : Int) < k ∧
      s.ps.proc.state = .StateStarting ∧ s.ps.waiting = [] ∧ s.ps.reaped = [] ∧
      s.ps.starting = 1
  | .done true => s.ps.proc.restartCount = r ∧ (r : Int) = k ∧ s.Dead
  | .done false => False

/-- The events emitted so far when the monitor stands at `pc` after `r`
restarts: `service.started`, `r` times `service.restarted`, and the one
`service.failed` once the monitor has returned. -/
def crashEvents (cfg : ServiceConfig) (r : Nat) (pc : MonitorPc) : List Event :=
  startedEvent cfg :: (List.replicate r (restartedEvent cfg) ++
    if pc = .done true then [failedEvent cfg "exceeded max restarts"] else [])

/-- What holds after one `StartService` of a fresh service while only its
monitor and its waiters act, every spawn succeeds and every child exits with
a non-zero code. -/
structure CrashInv (cfg : ServiceConfig) (s : SupSys) : Prop where
  config : s.ps.proc.config = cfg
  stop : s.stopBroadcast = false
  fresh : ∀ c ∈ s.ps.closed, c < s.ps.next
  mon : ∃ pc r, s.monitors = [{ cfg := cfg, pc := pc }] ∧ s.events = crashEvents cfg r pc ∧
    CrashPhase cfg.MaxRestarts s r pc

/-- How many steps the monitor standing at `pc` has left in its current round,
counted without the steps of the waiter. -/
def pcRank : MonitorPc → Nat
  | .born => 13
  | .loopTop => 10
  | .waitDone _ => 7
  | .readState => 6
  | .checkCount => 5
  | .increment => 4
  | .sleeping => 3
  | .startLock => 2
  | .spawning => 1
  | .done _ => 0

/-- A bound on the number of steps the monitor and the waiters can still take:
16 for each restart that `K = MaxRestarts` still allows, the rank of the
monitor, two for a child that has not exited and one for a `doneCh` that is
about to be closed. -/
def crashMeasure (K : Nat) (s : SupSys) : Nat :=
  16 * (K - (s.events.length - 1)) +
    (match s.monitors with
      | [m] => pcRank m.pc
      | _ => 0) +
    2 * s.ps.waiting.length + s.ps.reaped.length

/-- An exit with status 1. -/
def exitStatus1 : WaitError := { msg := "exit status 1", exitCode := some 1 }

/-- One round of the monitor of a crashing service: it blocks on `doneCh`
number `d`, the child exits with status 1, the monitor wakes, reads the state
and compares the restart count with `MaxRestarts`. -/
def crashRound (d : Nat) : List SupAction :=
  [.mon 0 .getDoneCh, .waitReap d (some exitStatus1) 11, .waitClose d,
   .mon 0 .wake, .mon 0 .readState, .mon 0 .checkCount]

/-- The monitor counts a restart, waits the restart delay and starts the
child again. -/
def restartActs : List SupAction :=
  [.mon 0 .increment, .mon 0 .timer, .mon 0 .startLock, .mon 0 (.spawn (.started 4243) 12)]

/-- What the monitor and the waiters of `restartCfg` do when every run
crashes: three restarts, and a fourth crash. -/
def threeCrashActs : List SupAction :=
  [.mon 0 .readConfig] ++ crashRound 2 ++ restartActs ++ crashRound 5 ++ restartActs ++
    crashRound 8 ++ restartActs ++ crashRound 11

/-- The service `restartCfg` after a `StartService` and `threeCrashActs`. -/
def crashedSys : SupSys :=
  ((SupSys.init restartCfg).run (startServiceOk 4242 10 ++ threeCrashActs)).getD
    (SupSys.init restartCfg)

/-! ## The ring of the collector, the log query and `Stats` -/

/-- The entry `Collect` builds for one scanned line (lines 64-69). -/
def Collector.entry (c : Collector) (line stream : String) (now : Nat) : LogEntry :=
  { Service := c.serviceName, Line := line, Stream := stream, Timestamp := now }

/-- `Collect`, lines 74-80: the locked section run for one scanned line. The
entry is appended, and when the ring is longer than `maxLines` it is resliced
to `lines[len(lines)-maxLines:]`. (The write to the log file is not modelled;
the callback is part of `LogSys.step`. `maxLines` is 1000 in every collector
the code creates; with a negative `maxLines` the Go slice expression would
panic.) -/
def Collector.collectLine (c : Collector) (line stream : String) (now : Nat) : Collector :=
  let lines := c.lines ++ [c.entry line stream now]
  if (lines.length : Int) > c.maxLines then
    { c with lines := lines.drop ((lines.length : Int) - c.maxLines).toNat }
  else
    { c with lines := lines }

/-- The lines that arrive at a collector, in the order in which the two
`Collect` goroutines (stdout and stderr) take the ring lock: text, stream
label, time. -/
abbrev Arrivals := List (String × String × Nat)

/-- `Collect` over all arriving lines. -/
def Collector.collectAll (c : Collector) : Arrivals → Collector
  | [] => c
  | (line, stream, now) :: rest => (c.collectLine line stream now).collectAll rest

/-- `GetLines`, lines 90-101: a copy of the last `n` entries of the ring, all
of them when `n <= 0` or `n` exceeds the length. The ring is only read. -/
def Collector.GetLines (c : Collector) (n : Int) : List LogEntry :=
  let n1 : Int := if n ≤ 0 ∨ n > (c.lines.length : Int) then (c.lines.length : Int) else n
  let start : Int := (c.lines.length : Int) - n1
  (c.lines.drop start.toNat).take n1.toNat

/-- `GetServiceLogs`, lines 271-281. -/
def Manager.GetServiceLogs (m : Manager) (name : String) (n : Int) :
    Except String (List LogEntry) :=
  match mapGet m.collectors name with
  | none => .error ("service " ++ name ++ " not found")
  | some collector => .ok (collector.GetLines n)

/-- The four counters of `Stats`. -/
structure StatsResult where
  total : Int
  running : Int
  stopped : Int
  failed : Int
  deriving DecidableEq, Repr

/-- `Stats`, lines 319-331: the body of the loop for one process. -/
def StatsResult.count (r : StatsResult) (p : Process) : StatsResult :=
  let r1 := { r with total := r.total + 1 }
  match p.state with
  | .StateRunning => { r1 with running := r1.running + 1 }
  | .StateStopped => { r1 with stopped := r1.stopped + 1 }
  | .StateFailed => { r1 with failed := r1.failed + 1 }
  | _ => { r1 with stopped := r1.stopped + 1 }

/-- `Stats`, lines 315-333; `it` is the order in which the `range` visits the
entries of `m.processes`. (The counters are Go `int`s; they count map entries
and cannot overflow.) -/
def Manager.Stats (it : List (String × Process)) : StatsResult :=
  it.foldl (fun r e => r.count e.2) { total := 0, running := 0, stopped := 0, failed := 0 }

/-- Three lines of a child on stdout. -/
def threeLines : Arrivals := [("one", "stdout", 1), ("two", "stdout", 2), ("three", "stdout", 3)]

/-- 1002 lines of a child on stderr, the line at time `i` for `i` from 0 to
1001. -/
def tickLines : Arrivals := (List.range 1002).map (fun i => ("tick", "stderr", i))

/-- A collector that has collected `threeLines`. -/
def threeLineCollector : Collector := (NewCollector "svc" "logs").collectAll threeLines

/-- A registry with a running, a starting and a failed process. -/
def mixedProcesses : List (String × Process) :=
  [("a", demoRunning), ("b", { NewProcess demoCfg with state := .StateStarting }),
   ("c", { NewProcess demoCfg with state := .StateFailed })]

/-- The environment of a `Start` whose `cmd.Start()` fails. -/
def failedStartEnv : StartEnv :=
  { spawn := .startErr "executable file not found", now := 30, cmd := 3, stopCh := 5,
    doneCh := 6 }

/-- The service `svc` is started (pid 4242), a `StopService` times out, so the
process stays `Stopping` with its pid, and a `StartService` whose spawn fails
leaves it `Failed`, still with pid 4242. -/
def failedWithPid : Manager :=
  (((runningManager.StopService "svc" timedOutStop).1).StartService "svc" failedStartEnv).1

/-- The service `restartCfg` after a `StartService`, a crash of the child and
the restart by the monitor. -/
def restartedSys : SupSys :=
  ((SupSys.init restartCfg).runSolo
    (startServiceOk 4242 10 ++ firstRestartActs ++ monitorRestartActs)).getD
    (SupSys.init restartCfg)

/-- Three services with `auto_start`: A stands alone, B depends on X, which is
not loaded, and C depends on B. -/
def brokenChainServices : List (String × ServiceConfig) :=
  [("A", { Name := "A", Command := "a", AutoStart := true }),
   ("B", { Name := "B", Command := "b", AutoStart := true, DependsOn := ["X"] }),
   ("C", { Name := "C", Command := "c", AutoStart := true, DependsOn := ["B"] })]

/-! ## A watched child that exits with code 0 -/

/-- A child runs and one monitor watches it: the process is `Running` with
`doneCh` number `d`, its waiter has not run, no `Start` is in progress, and
the one monitor stands before or in its receive from `d`. -/
def SupSys.Watching (s : SupSys) (d : Nat) : Prop :=
  s.ps.proc.state = .StateRunning ∧ s.ps.proc.doneCh = some d ∧ s.ps.waiting = [d] ∧
  s.ps.reaped = [] ∧ s.ps.starting = 0 ∧ d ∉ s.ps.closed ∧
  ∃ mcfg pc, s.monitors = [{ cfg := mcfg, pc := pc }] ∧
    (pc = .born ∨ pc = .loopTop ∨ pc = .waitDone (some d))

/-- What holds from a `Watching` state on while only the monitor and the
waiter act and the child exits with code 0: events `E`, restart count `n` and
the channel counter `next` stay as they were, no `Start` is in progress, the
child runs or has left the state `Stopped` with exit code 0, and the monitor
reads the state only once `d` is closed. -/
structure QuietInv (E : List Event) (n : Int) (next d : Nat) (s : SupSys) : Prop where
  events : s.events = E
  count : s.ps.proc.restartCount = n
  next : s.ps.next = next
  doneCh : s.ps.proc.doneCh = some d
  starting : s.ps.starting = 0
  mon : ∃ mcfg pc, s.monitors = [{ cfg := mcfg, pc := pc }] ∧
    (pc = .born ∨ pc = .loopTop ∨ pc = .waitDone (some d) ∨
      ((pc = .readState ∨ pc = .done false) ∧ d ∈ s.ps.closed))
  child :
    (s.ps.proc.state = .StateRunning ∧ s.ps.waiting = [d] ∧ s.ps.reaped = [] ∧
      d ∉ s.ps.closed) ∨
    (s.ps.proc.state = .StateStopped ∧ s.ps.proc.exitCode = some 0 ∧ s.ps.waiting = [] ∧
      ((s.ps.reaped = [d] ∧ d ∉ s.ps.closed) ∨ (s.ps.reaped = [] ∧ d ∈ s.ps.closed)))

/-- The restarted child of `restartedSys` (its `doneCh` is number 5) exits
with code 0 at time 20; the waiter and the monitor run to their end. -/
def cleanExitAfterRestart : List SupAction :=
  [.mon 0 .getDoneCh, .waitReap 5 none 20, .waitClose 5, .mon 0 .wake, .mon 0 .readState]

/-- The system `restartedSys` after `cleanExitAfterRestart`. -/
def quietSys : SupSys := (restartedSys.run cleanExitAfterRestart).getD restartedSys

/-- The runtime information `Process.Info` returns, `model.ServiceInfo`
(without `Uptime`, `CPU` and `Memory`). -/
structure ServiceInfo where
  Name : String
  State : ServiceState
  PID : Int
  Command : String
  Args : List String
  WorkingDir : String
  Env : List (String × String)
  AutoStart : Bool
  AutoRestart : Bool
  RestartCount : Int
  StartedAt : Option Nat
  StoppedAt : Option Nat
  ExitCode : Option Int
  Error : String
  deriving DecidableEq, Repr

/-- `Info`, lines 182-209. -/
def Process.Info (p : Process) : ServiceInfo :=
  { Name := p.config.Name, State := p.state, PID := p.pid, Command := p.config.Command,
    Args := p.config.Args, WorkingDir := p.config.WorkingDir, Env := p.config.Env,
    AutoStart := p.config.AutoStart, AutoRestart := p.config.AutoRestart,
    RestartCount := p.restartCount, StartedAt := p.startedAt, StoppedAt := p.stoppedAt,
    ExitCode := p.exitCode, Error := p.lastError }

/-- `GetServiceInfo`, lines 249-256. -/
def Manager.GetServiceInfo (m : Manager) (name : String) : Except String ServiceInfo :=
  match m.getProcess name with
  | none => .error ("service " ++ name ++ " not found")
  | some proc => .ok proc.Info

/-- `RestartService`, lines 148-164, run with the waiter as the only concurrent
actor. -/
def Manager.RestartService (m : Manager) (name : String) (stop : StopEnv) (start : StartEnv) :
    Manager × Option String :=
  match m.getProcess name with
  | none => (m, some ("service " ++ name ++ " not found"))
  | some proc =>
      if proc.state = .StateRunning then
        match proc.Stop stop with
        | (proc1, some err) => (m.setProcess name proc1, some ("stop before restart: " ++ err))
        | (proc1, none) => (m.setProcess name proc1).StartService name start
      else m.StartService name start

/-- `http.StatusOK`. -/
def StatusOK : Nat := 200

/-- `http.StatusBadRequest`. -/
def StatusBadRequest : Nat := 400

/-- `http.StatusNotFound`. -/
def StatusNotFound : Nat := 404

/-- What a handler hands to `c.JSON`: the status and the `model.APIResponse`
(its `Data` is returned beside it where there is one). -/
structure Response where
  Status : Nat
  Success : Bool
  Message : String := ""
  Error : String := ""
  deriving DecidableEq, Repr

/-- The response of the handlers that answer `StatusBadRequest` on every error
of the manager and `StatusOK` with `msg` otherwise. -/
def respond (err : Option String) (msg : String) : Response :=
  match err with
  | some e => { Status := StatusBadRequest, Success := false, Error := e }
  | none => { Status := StatusOK, Success := true, Message := msg }

/-- `handleGetService`, lines 92-106. -/
def handleGetService (m : Manager) (name : String) : Response × Option ServiceInfo :=
  match m.GetServiceInfo name with
  | .error err => ({ Status := StatusNotFound, Success := false, Error := err }, none)
  | .ok info => ({ Status := StatusOK, Success := true }, some info)

/-- `handleUpdateService`, lines 132-156; `body` is what `ShouldBindJSON` makes
of the request body: a config, or an error. -/
def handleUpdateService (servicePath : String → String) (m : Manager) (name : String)
    (body : Except String ServiceConfig) (w : WriteResult) : Manager × Response :=
  match body with
  | .error err =>
      (m, { Status := StatusBadRequest, Success := false,
            Error := "invalid request body: " ++ err })
  | .ok svc =>
      let r := m.UpdateService servicePath { svc with Name := name } w
      (r.1, respond r.2 "service updated")

/-- `handleDeleteService`, lines 158-172. -/
def handleDeleteService (servicePath : String → String) (m : Manager) (name : String)
    (stop : StopEnv) (removeErr : Option String) : Manager × Response :=
  let r := m.RemoveService servicePath name stop removeErr
  (r.1, respond r.2 "service removed")

/-- `handleStartService`, lines 176-190. -/
def handleStartService (m : Manager) (name : String) (env : StartEnv) : Manager × Response :=
  let r := m.StartService name env
  (r.1, respond r.2 "service started")

/-- `handleStopService`, lines 192-206. -/
def handleStopService (m : Manager) (name : String) (env : StopEnv) : Manager × Response :=
  let r := m.StopService name env
  (r.1, respond r.2 "service stopped")

/-- `handleRestartService`, lines 208-222. -/
def handleRestartService (m : Manager) (name : String) (stop : StopEnv) (start : StartEnv) :
    Manager × Response :=
  let r := m.RestartService name stop start
  (r.1, respond r.2 "service restarted")

/-- `handleGetLogs`, lines 226-247; `n` is what `strconv.Atoi` makes of the
query parameter (0 when it is not a number). -/
def handleGetLogs (m : Manager) (name : String) (n : Int) : Response × List LogEntry :=
  let n1 := if n ≤ 0 then 100 else n
  match m.GetServiceLogs name n1 with
  | .error err => ({ Status := StatusNotFound, Success := false, Error := err }, [])
  | .ok logs => ({ Status := StatusOK, Success := true }, logs)

/-- The path of the requests `GetService` and `UpdateService` of the client
send for a service, client.go lines 76 and 104: `"/api/services/"+name`. The
name is put in as it is, without escaping. -/
def servicesPath (name : String) : String := "/api/services/" ++ name

/-- A character that a path segment carries unchanged from the client to the
`:name` parameter of the router: not a control character (`net/url` refuses
those), not `%` (an escape is decoded), not `/` (it ends the segment), not `?`
and not `#` (they end the path). Every other byte is sent, escaped where
needed, and decoded to itself by the server. -/
def pathChar (c : Char) : Bool :=
  decide (32 ≤ c.toNat) && !(c.toNat == 127) && !(c == '%') && !(c == '/') && !(c == '?') &&
    !(c == '#')

/-- A character that can stand after the first `?` or `#` of a request target
without making the request fail: an unreserved character, or one of `= & ? #`. -/
def queryChar (c : Char) : Bool :=
  c.isAlphanum || c == '-' || c == '.' || c == '_' || c == '~' || c == '=' || c == '&' ||
    c == '?' || c == '#'

/-- What the daemon makes of a request path. -/
inductive Routed where
  /-- The request reaches the handler registered for `/api/services/:name`
  (handler.go lines 43-46), with this value of the parameter `:name`. -/
  | service (name : String)
  /-- The path is outside the part of `net/url` and of the router that this
  development describes (a control character, `%`, `/`, an empty segment); no
  statement is made about such a request. -/
  | unmodelled
  deriving DecidableEq, Repr

/-- The route of a request path: `net/url` cuts the target at the first `#`
(the fragment is never sent) and at the first `?` (the query), and the router
matches what is left against `/api/services/:name`. -/
def routeService (path : String) : Routed :=
  if path.data.take 14 = "/api/services/".data then
    let rest := path.data.drop 14
    let seg := rest.takeWhile (fun c => !(c == '?') && !(c == '#'))
    let tail := rest.dropWhile (fun c => !(c == '?') && !(c == '#'))
    if seg ≠ [] ∧ seg.all pathChar = true ∧ tail.all queryChar = true then
      .service (String.mk seg)
    else .unmodelled
  else .unmodelled

/-- `Client.GetService`, client.go lines 74-87, against the daemon `m`: the
info, or the error the client returns; `none` when the request is outside the
model. -/
def Client.GetService (m : Manager) (name : String) : Option (Except String ServiceInfo) :=
  match routeService (servicesPath name) with
  | .unmodelled => none
  | .service routed =>
      match handleGetService m routed with
      | (resp, none) => some (.error ("error: " ++ resp.Error))
      | (_, some info) => some (.ok info)

/-- `Client.UpdateService`, client.go lines 102-111, against the daemon `m`: the
daemon afterwards and the error the client returns; `none` when the request is
outside the model. -/
def Client.UpdateService (servicePath : String → String) (m : Manager) (name : String)
    (svc : ServiceConfig) (w : WriteResult) : Option (Manager × Option String) :=
  match routeService (servicesPath name) with
  | .unmodelled => none
  | .service routed =>
      let r := handleUpdateService servicePath m routed (.ok svc) w
      if r.2.Success then some (r.1, none) else some (r.1, some ("error: " ++ r.2.Error))

/-- Where the goroutine that `StopAll` launches for a process (lines 298-301)
stands in its `proc.Stop()`. -/
inductive StopperPc where
  /-- No goroutine: the loop has not visited the process, or its state did not
  read `Running`. -/
  | absent
  /-- Launched, about to run the locked section of `Stop` (process.go lines
  151-158). -/
  | launched
  /-- Past the locked section, about to send the kill (line 164). -/
  | locked
  /-- In the `select` of lines 170-176, receiving from the channel that
  `p.doneCh` held when the `select` was entered (`none` is a nil channel). -/
  | selecting (ch : Option Nat)
  /-- `Stop` has returned and the goroutine has called `wg.Done()`. -/
  | returned
  deriving DecidableEq, Repr

/-- A registered process with its goroutines, whether the loop of lines 295-303
has visited it, and the goroutine `StopAll` launched for it. -/
structure Supervised where
  name : String
  sys : SupSys
  scanned : Bool := false
  stopper : StopperPc := .absent
  deriving DecidableEq, Repr

/-- Where `StopAll` stands. -/
inductive StopAllPc where
  /-- Called, line 285 not yet run. -/
  | start
  /-- In the loop of lines 295-303, or in `wg.Wait()` (line 304). -/
  | looping
  /-- `wg.Wait()` has returned; lines 307-311 not yet run. -/
  | closing
  /-- Returned. -/
  | returned
  deriving DecidableEq, Repr

/-- The registry during `StopAll`. `stopChClosed` tells whether `m.stopCh` has
been closed. -/
structure StopAllSys where
  entries : List Supervised
  collectors : List (String × Collector)
  stopChClosed : Bool := false
  pc : StopAllPc := .start
  deriving DecidableEq, Repr

/-- One atomic action during `StopAll`. -/
inductive StopAllAction where
  /-- Line 285: `close(m.stopCh)`. -/
  | closeStopCh
  /-- Lines 295-303 for process number `i`: read its state, and launch the
  goroutine when it reads `Running`. -/
  | scan (i : Nat)
  /-- The goroutine of process `i` runs the locked section of `Stop`. -/
  | stopLock (i : Nat)
  /-- The goroutine of process `i` gets the result of `cmd.Process.Kill()`
  (line 164) and, on success, enters the `select`. -/
  | stopKill (i : Nat) (err : Option String)
  /-- The `select` of the goroutine of process `i` receives from `doneCh`. -/
  | stopDone (i : Nat)
  /-- The `select` of the goroutine of process `i` takes the timer arm. -/
  | stopTimeout (i : Nat)
  /-- Line 304: `wg.Wait()` returns. -/
  | waitGroup
  /-- Lines 307-311, the locked section that closes every collector, and the
  return. -/
  | closeCollectors
  /-- A goroutine of process `i` (its waiter, one of its monitors, or a command
  on it) takes a step. -/
  | sys (i : Nat) (a : SupAction)
  deriving DecidableEq, Repr

/-- Replace entry number `i`. -/
def StopAllSys.setEntry (s : StopAllSys) (i : Nat) (e : Supervised) : StopAllSys :=
  { s with entries := s.entries.set i e }

/-- The entry with the process replaced (a write under the lock of the
process). -/
def Supervised.setProc (e : Supervised) (p : Process) : Supervised :=
  { e with sys := { e.sys with ps := { e.sys.ps with proc := p } } }

/-- Whether a channel read from `p.doneCh` is closed: a nil channel never is. -/
def ProcSys.doneClosed (s : ProcSys) : Option Nat → Bool
  | none => false
  | some ch => decide (ch ∈ s.closed)

/-- The effect of one action, `none` when it cannot happen in this state
(also for the panic of closing a closed channel). -/
def StopAllSys.step (s : StopAllSys) : StopAllAction → Option StopAllSys
  | .closeStopCh =>
      if s.pc = .start ∧ s.stopChClosed = false then
        some { s with
          pc := .looping
          stopChClosed := true
          entries := s.entries.map
            (fun e => { e with sys := { e.sys with stopBroadcast := true } }) }
      else none
  | .scan i =>
      match s.entries[i]? with
      | none => none
      | some e =>
          if s.pc = .looping ∧ e.scanned = false then
            if e.sys.ps.proc.state = .StateRunning then
              some (s.setEntry i { e with scanned := true, stopper := .launched })
            else some (s.setEntry i { e with scanned := true })
          else none
  | .stopLock i =>
      match s.entries[i]? with
      | none => none
      | some e =>
          if e.stopper = .launched then
            match e.sys.ps.proc.stopLock with
            | .error _ => some (s.setEntry i { e with stopper := .returned })
            | .ok p => some (s.setEntry i { e.setProc p with stopper := .locked })
          else none
  | .stopKill i err =>
      match s.entries[i]? with
      | none => none
      | some e =>
          if e.stopper = .locked then
            match err with
            | some _ => some (s.setEntry i { e with stopper := .returned })
            | none =>
                some (s.setEntry i { e with stopper := .selecting e.sys.ps.proc.doneCh })
          else none
  | .stopDone i =>
      match s.entries[i]? with
      | none => none
      | some e =>
          match e.stopper with
          | .selecting ch =>
              if e.sys.ps.doneClosed ch then
                some (s.setEntry i { e with stopper := .returned })
              else none
          | _ => none
  | .stopTimeout i =>
      match s.entries[i]? with
      | none => none
      | some e =>
          match e.stopper with
          | .selecting _ => some (s.setEntry i { e with stopper := .returned })
          | _ => none
  | .waitGroup =>
      if s.pc = .looping ∧
          s.entries.all (fun e =>
            e.scanned && (e.stopper == .absent || e.stopper == .returned)) = true then
        some { s with pc := .closing }
      else none
  | .closeCollectors =>
      if s.pc = .closing then
        some { s with collectors := closeAll s.collectors, pc := .returned }
      else none
  | .sys i a =>
      match s.entries[i]? with
      | none => none
      | some e =>
          match e.sys.step a with
          | none => none
          | some t => some (s.setEntry i { e with sys := t })

/-- Whether no waiter of process `i` is still blocked in `cmd.Wait()`: the
waiter of every child has run its locked section. -/
def StopAllSys.waiterRan (s : StopAllSys) (i : Nat) : Bool :=
  match s.entries[i]? with
  | none => true
  | some e => e.sys.ps.waiting.isEmpty

/-- The runs considered for `StopAll`: besides `StopAll` and its goroutines
only waiters and monitors act; no restart timer of a monitor fires; and a
`Stop` issued by `StopAll` leaves early (its kill fails, or its `stopTimeout`
fires) only once the waiter of the child has run. -/
def StopAllSys.admits (s : StopAllSys) : StopAllAction → Bool
  | .sys _ (.mon _ .timer) => false
  | .sys _ a => a.unattended
  | .stopKill i (some _) => s.waiterRan i
  | .stopTimeout i => s.waiterRan i
  | _ => true

/-- Run a sequence of actions each of which `admits` admits in the state it is
taken in; `none` when one of them is not admitted or cannot happen. -/
def StopAllSys.runCalm (s : StopAllSys) : List StopAllAction → Option StopAllSys
  | [] => some s
  | a :: rest =>
      if s.admits a then
        match s.step a with
        | none => none
        | some s1 => s1.runCalm rest
      else none

/-- The registry at the call of `StopAll`: the processes with their goroutines
and the collectors. -/
def StopAllSys.begin (procs : List (String × SupSys)) (collectors : List (String × Collector)) :
    StopAllSys :=
  { entries := procs.map (fun p => { name := p.1, sys := p.2 }), collectors := collectors }

/-- A state of a supervised service that is reached from its registration by
some sequence of actions. -/
def SupSys.Reachable (s : SupSys) : Prop :=
  ∃ cfg acts, (SupSys.init cfg).run acts = some s

/-- What `StopAll` needs of a process at its call: the state is `Running`,
`Stopped` or `Failed` (no `Start` has set `Starting`, no earlier `Stop` has
left `Stopping`), and no monitor has left its restart delay for the
`proc.Start()` of line 61. -/
def SupSys.Settled (s : SupSys) : Prop :=
  (s.ps.proc.state = .StateRunning ∨ s.ps.proc.state = .StateStopped ∨
    s.ps.proc.state = .StateFailed) ∧
  ∀ m ∈ s.monitors, m.pc ≠ .startLock ∧ m.pc ≠ .spawning

/-- While no waiter is blocked in `cmd.Wait()`, the state is neither `Running`
nor `Stopping`. -/
def WaitInv (s : ProcSys) : Prop :=
  s.waiting = [] → s.proc.state ≠ .StateRunning ∧ s.proc.state ≠ .StateStopping

/-- The state a process may have for a given stage of the goroutine of
`StopAll`. -/
def Supervised.stateOK (e : Supervised) : Prop :=
  match e.stopper with
  | .absent =>
      if e.scanned then
        e.sys.ps.proc.state = .StateStopped ∨ e.sys.ps.proc.state = .StateFailed
      else e.sys.ps.proc.state ≠ .StateStopping
  | .launched => e.scanned = true ∧ e.sys.ps.proc.state ≠ .StateStopping
  | .locked => e.scanned = true ∧ e.sys.ps.proc.state ≠ .StateRunning
  | .selecting ch =>
      e.scanned = true ∧ e.sys.ps.proc.state ≠ .StateRunning ∧ ch = e.sys.ps.proc.doneCh
  | .returned =>
      e.scanned = true ∧
        (e.sys.ps.proc.state = .StateStopped ∨ e.sys.ps.proc.state = .StateFailed)

/-- The invariant of one registered process during `StopAll`. -/
def Supervised.Inv (e : Supervised) : Prop :=
  DoneInv e.sys.ps ∧ WaitInv e.sys.ps ∧ e.sys.ps.proc.state ≠ .StateStarting ∧
  (∀ m ∈ e.sys.monitors, m.pc ≠ .startLock ∧ m.pc ≠ .spawning) ∧ e.stateOK

/-- The invariant of the registry during `StopAll`. -/
def StopAllInv (s : StopAllSys) : Prop :=
  (∀ e ∈ s.entries, e.Inv) ∧
  ((s.pc = .closing ∨ s.pc = .returned) →
    ∀ e ∈ s.entries, e.scanned = true ∧ (e.stopper = .absent ∨ e.stopper = .returned)) ∧
  (s.pc = .returned → ∀ c ∈ s.collectors, c.2.closed = true)

/-- The service `web`, restarted up to three times. -/
def webCfg : ServiceConfig := { restartCfg with Name := "web" }

/-- The service `job`, restarted up to three times. -/
def jobCfg : ServiceConfig := { restartCfg with Name := "job" }

/-- The service `web` started, its child running, its monitor blocked in the
receive from `doneCh`. -/
def webSys : SupSys :=
  ((SupSys.init webCfg).run
    (startServiceOk 4242 10 ++ [.mon 0 .readConfig, .mon 0 .getDoneCh])).getD (SupSys.init webCfg)

/-- The service `job` started, its child exited with status 1, its monitor
sleeping in the restart delay. -/
def jobSys : SupSys :=
  ((SupSys.init jobCfg).run (startServiceOk 4300 10 ++ firstRestartActs)).getD
    (SupSys.init jobCfg)

/-- A registry with the running service `web` and the failed service `job`. -/
def twoServices : List (String × SupSys) := [("web", webSys), ("job", jobSys)]

/-- The collectors of `twoServices`. -/
def twoCollectors : List (String × Collector) :=
  [("web", NewCollector "web" "logs"), ("job", NewCollector "job" "logs")]

/-- A `StopAll` on `twoServices`: the stop channel is closed, `web` reads
`Running` and gets a goroutine, `job` reads `Failed`; the monitor of `job`
leaves its restart delay through the stop channel; `web` is killed, its waiter
runs, `Stop` returns on `doneCh`; `StopAll` closes the collectors and returns;
then the monitor of `web` wakes and returns. -/
def stopAllActs : List StopAllAction :=
  [.closeStopCh, .scan 0, .scan 1, .sys 1 (.mon 0 .stopSignal), .stopLock 0, .stopKill 0 none,
   .sys 0 (.waitReap 2 (some { msg := "signal: killed", exitCode := some (-1) }) 12),
   .sys 0 (.waitClose 2), .stopDone 0, .waitGroup, .closeCollectors,
   .sys 0 (.mon 0 .wake), .sys 0 (.mon 0 .readState)]

/-- The registry `twoServices` after `stopAllActs`. -/
def twoServicesStopped : StopAllSys :=
  ((StopAllSys.begin twoServices twoCollectors).runCalm stopAllActs).getD
    (StopAllSys.begin twoServices twoCollectors)

/-- Run a sequence of actions, admitted or not; `none` when one of them cannot
happen. -/
def StopAllSys.run (s : StopAllSys) : List StopAllAction → Option StopAllSys
  | [] => some s
  | a :: rest =>
      match s.step a with
      | none => none
      | some s1 => s1.run rest

/-- A `StopAll` on `twoServices` during which the restart timer of the monitor
of `job` fires: `job` reads `Failed` and is passed over, `web` is stopped,
`StopAll` returns, and the monitor of `job` starts a new child. -/
def timerStopAllActs : List StopAllAction :=
  [.closeStopCh, .sys 1 (.mon 0 .timer), .scan 0, .scan 1, .stopLock 0, .stopKill 0 none,
   .sys 0 (.waitReap 2 (some { msg := "signal: killed", exitCode := some (-1) }) 12),
   .sys 0 (.waitClose 2), .stopDone 0, .waitGroup, .closeCollectors,
   .sys 1 (.mon 0 .startLock), .sys 1 (.mon 0 (.spawn (.started 4301) 13))]

/-- A `StopAll` on `twoServices` in which the `stopTimeout` of the `Stop` of
`web` fires before the waiter has run. -/
def earlyTimeoutActs : List StopAllAction :=
  [.closeStopCh, .scan 0, .scan 1, .stopLock 0, .stopKill 0 none, .stopTimeout 0, .waitGroup,
   .closeCollectors]

/-- A `StopAll` on `twoServices` in which the kill of `web` fails while its
child runs. -/
def killFailsActs : List StopAllAction :=
  [.closeStopCh, .scan 0, .scan 1, .stopLock 0, .stopKill 0 (some "operation not permitted"),
   .waitGroup, .closeCollectors]

/-- The service `web` while a `StopService` issued before `StopAll` is past its
locked section and the waiter has not run: the state is `Stopping`. -/
def webStopping : SupSys := (webSys.run [.extStopLock true]).getD webSys

/-- The service `web` while its first `StartService` is between the two locked
sections of `Start`: the state is `Starting`. -/
def webStarting : SupSys := ((SupSys.init webCfg).run [.extStartLock]).getD (SupSys.init webCfg)

/-- A `StopAll` on a registry of one process that does not read `Running`. -/
def passOverActs : List StopAllAction := [.closeStopCh, .scan 0, .waitGroup, .closeCollectors]

/-! ## The supervised service and its log readers

`Start` launches two `Collect` goroutines (process.go lines 103-104) that read
the lines the child prints. For every line, `Collect` appends an entry to the
ring of the collector and then calls the callback that `registerService` gave
the collector (manager.go lines 85-93), which emits a `service.log` event. -/

/-- The event the callback of `registerService` emits for an entry (manager.go
lines 86-92); `name` is the `svc.Name` of the registered config. -/
def logEvent (name : String) (entry : LogEntry) : Event :=
  { type := .EventServiceLog, Service := name, Message := entry.Line }

/-- The supervised service together with the collector `registerService`
created for it. -/
structure LogSys where
  sup : SupSys
  collector : Collector
  deriving DecidableEq, Repr

/-- One atomic action of the supervised service or of its log readers. -/
inductive LogAction where
  /-- An action of the process, a monitor or a command. -/
  | sup (a : SupAction)
  /-- A `Collect` goroutine has scanned the line `text` on `stream` at time
  `now` (collector.go lines 62-85): ring, then callback. -/
  | line (text stream : String) (now : Nat)
  deriving DecidableEq, Repr

/-- The effect of one action, `none` when it cannot happen in this state. A
line can be read once a child has been spawned (`cmd` is set together with the
launch of the two readers). The callback is the one of `registerService` for
the name the collector was created with. -/
def LogSys.step (s : LogSys) : LogAction → Option LogSys
  | .sup a =>
      match s.sup.step a with
      | none => none
      | some s1 => some { s with sup := s1 }
  | .line text stream now =>
      if s.sup.ps.proc.cmd.isSome then
        some
          { sup := s.sup.emit
              (logEvent s.collector.serviceName (s.collector.entry text stream now))
            collector := s.collector.collectLine text stream now }
      else none

/-- Run a sequence of actions; `none` when one of them cannot happen. -/
def LogSys.run (s : LogSys) : List LogAction → Option LogSys
  | [] => some s
  | a :: rest =>
      match s.step a with
      | none => none
      | some s1 => s1.run rest

/-- A freshly registered service (`registerService`, lines 81-98): a new
process and a new collector named after it. -/
def LogSys.init (cfg : ServiceConfig) (logDir : String) : LogSys :=
  { sup := SupSys.init cfg, collector := NewCollector cfg.Name logDir }

/-- A step of a monitor, of a waiter or of a log reader. -/
def LogAction.unattended : LogAction → Bool
  | .sup a => a.unattended
  | .line _ _ _ => true

/-- Every child exit in the action is an exit with code 0. -/
def LogAction.exitsClean : LogAction → Bool
  | .sup a => a.exitsClean
  | .line _ _ _ => true

/-- The `service.log` events of the lines read in a sequence of actions, in
the order of the lines, for the service `name`. -/
def lineEvents (name : String) : List LogAction → List Event
  | [] => []
  | .line text _ _ :: rest =>
      { type := .EventServiceLog, Service := name, Message := text } :: lineEvents name rest
  | .sup _ :: rest => lineEvents name rest

/-- The action is the reading of a line. -/
def LogAction.isLine : LogAction → Bool
  | .line _ _ _ => true
  | .sup _ => false

/-- What holds of the service and its log readers after one `StartService`
while the child prints and exits with code 0: the events are `early` (the
events of the lines read before `StartService` emitted), `service.started`,
and then `logs` (the events of the lines read since); apart from the events
the service is as `CleanInv` says. -/
def LogInv (cfg : ServiceConfig) (early logs : List Event) (s : LogSys) : Prop :=
  CleanInv cfg { s.sup with events := [startedEvent cfg] } ∧
  s.sup.events = early ++ startedEvent cfg :: logs ∧
  s.collector.serviceName = cfg.Name

/-- A `StartService` and what follows: the child prints `early` on stdout as
soon as it is spawned, before `StartService` has emitted its event; then the
monitor starts, the child prints `hello` on stdout and `bye` on stderr and
exits with code 0 at time `t`; the waiter and the monitor run to their end, and
the last line is read after the exit. -/
def printAndExitActs (pid : Int) (now t : Nat) : List LogAction :=
  [.sup .extStartLock, .sup (.extSpawn (.started pid) now), .line "early" "stdout" now,
   .sup .extFinishStart,
   .sup (.mon 0 .readConfig), .line "hello" "stdout" t, .sup (.mon 0 .getDoneCh),
   .sup (.waitReap 2 none t), .line "bye" "stderr" t, .sup (.waitClose 2),
   .sup (.mon 0 .wake), .sup (.mon 0 .readState)]

/-! ## Theorems -/

theorem mapGet_mapPut_self {β : Type} (l : List (String × β)) (name : String) (w v : β)
    (h : mapGet l name = some v) : mapGet (mapPut l name w) name = some w := by
  induction l with
  | nil => simp [mapGet] at h
  | cons e rest ih =>
      obtain ⟨k, u⟩ := e
      by_cases hk : k = name
      · simp [mapGet, mapPut, hk]
      · simp only [mapGet, mapPut, hk, if_false] at h ⊢
        exact ih h

theorem mapGet_mapPut_other {β : Type} (l : List (String × β)) (name other : String) (w : β)
    (h : other ≠ name) : mapGet (mapPut l name w) other = mapGet l other := by
  induction l with
  | nil => simp [mapGet, mapPut]
  | cons e rest ih =>
      obtain ⟨k, u⟩ := e
      by_cases hk : k = name
      · have hko : ¬ k = other := fun h2 => h (h2.symm.trans hk)
        subst hk
        simp [mapGet, mapPut, hko]
      · by_cases ho : k = other
        · subst ho
          simp [mapGet, mapPut, hk]
        · simp only [mapGet, mapPut, hk, ho, if_false]
          exact ih

theorem getProcess_setProcess_self (m : Manager) (name : String) (p q : Process)
    (h : m.getProcess name = some q) : (m.setProcess name p).getProcess name = some p :=
  mapGet_mapPut_self m.processes name p q h

theorem getProcess_setProcess_other (m : Manager) (name other : String) (p : Process)
    (h : other ≠ name) : (m.setProcess name p).getProcess other = m.getProcess other :=
  mapGet_mapPut_other m.processes name other p h

theorem getProcess_setProcess_same_value (m : Manager) (name other : String) (p : Process)
    (h : m.getProcess name = some p) :
    (m.setProcess name p).getProcess other = m.getProcess other := by
  by_cases ho : other = name
  · subst ho
    rw [getProcess_setProcess_self m other p p h, h]
  · exact getProcess_setProcess_other m name other p ho

/-! ### C1: the guard of `Process.Start` -/

/-- C1, as stated, fails: a process in `Stopping` (reached by `NewProcess`, a
successful `Start` and the locked section of `Stop`) is neither `Stopped` nor
`Failed`, yet `Start` returns no error there, moves the state to `Starting` in
its first locked section and ends in `Running` with the new pid. -/
theorem C1_counterexample :
    demoRunning.stopLock = .ok demoStopping ∧
    demoStopping.state = .StateStopping ∧
    demoStopping.startLock = .ok { demoStopping with state := .StateStarting } ∧
    (demoStopping.Start demoStartEnv2).2 = none ∧
    (demoStopping.Start demoStartEnv2).1.state = .StateRunning ∧
    (demoStopping.Start demoStartEnv2).1.pid = 4243 := by
  refine ⟨rfl, rfl, rfl, ?_, ?_, ?_⟩ <;> decide

/-- C1, amended: when the state is `Running` or `Starting`, `Start` returns an
error and leaves every field as it was; from `Stopped`, `Failed` or `Stopping`
its first locked section moves the state to `Starting`, and the call goes on
to the spawn from there. -/
theorem C1_start_guard (p : Process) (env : StartEnv) :
    ((p.state = .StateRunning ∨ p.state = .StateStarting) →
      (p.Start env).1 = p ∧ (p.Start env).2 ≠ none ∧
        ∀ q, p.startLock ≠ .ok q) ∧
    ((p.state = .StateStopped ∨ p.state = .StateFailed ∨ p.state = .StateStopping) →
      p.startLock = .ok { p with state := .StateStarting } ∧
        p.Start env = ({ p with state := .StateStarting } : Process).startSpawn env) := by
  constructor
  · intro h
    simp [Process.Start, Process.startLock, h]
  · intro h
    have hn : ¬ (p.state = .StateRunning ∨ p.state = .StateStarting) := by
      rcases h with h | h | h <;> simp [h]
    simp [Process.Start, Process.startLock, hn]

/-! ### C2: `StopService` on a service that is not running -/

/-- C2: for a registered service whose process is not `Running`, `StopService`
returns an error, leaves the process (all its fields) and every other registry
entry as they were, and emits no event. -/
theorem C2_stopService_not_running (m : Manager) (name : String) (env : StopEnv)
    (p : Process) (hreg : m.getProcess name = some p) (hst : p.state ≠ .StateRunning) :
    (m.StopService name env).2 ≠ none ∧
    (m.StopService name env).1.getProcess name = some p ∧
    (∀ other, (m.StopService name env).1.getProcess other = m.getProcess other) ∧
    (m.StopService name env).1.events = m.events ∧
    (m.StopService name env).1.monitors = m.monitors := by
  have hstop : p.Stop env =
      (p, some ("service " ++ p.config.Name ++ " is not running (state=" ++
        p.state.toString ++ ")")) := by
    simp [Process.Stop, Process.stopLock, hst]
  have hrun : m.StopService name env =
      (m.setProcess name p, some ("service " ++ p.config.Name ++
        " is not running (state=" ++ p.state.toString ++ ")")) := by
    simp [Manager.StopService, hreg, hstop]
  rw [hrun]
  refine ⟨by simp, ?_, ?_, rfl, rfl⟩
  · exact getProcess_setProcess_self m name p p hreg
  · intro other
    exact getProcess_setProcess_same_value m name other p hreg

/-- C2 at a concrete input: stopping the never-started service `svc`. -/
theorem C2_stopService_not_running_witness :
    (demoManager.StopService "svc" { killErr := none, exited := none }).2 ≠ none ∧
    (demoManager.StopService "svc" { killErr := none, exited := none }).1.getProcess "svc"
      = some (NewProcess demoCfg) ∧
    (∀ other, (demoManager.StopService "svc" { killErr := none, exited := none }).1.getProcess
      other = demoManager.getProcess other) ∧
    (demoManager.StopService "svc" { killErr := none, exited := none }).1.events
      = demoManager.events ∧
    (demoManager.StopService "svc" { killErr := none, exited := none }).1.monitors
      = demoManager.monitors :=
  C2_stopService_not_running demoManager "svc" { killErr := none, exited := none }
    (NewProcess demoCfg) (by decide) (by decide)

/-! ### C3: the final state set by the waiter -/

/-- C3: the locked section of `wait` sets `pid` to 0 and `stoppedAt` to the
current time, and sets the state to `Stopped` when the prior state was
`Stopping`, otherwise to `Failed` when `cmd.Wait()` returned an error and to
`Stopped` when it returned nil. In the `Failed` case `lastError` is the error
text; an exit code carried by the error is recorded; a nil error records exit
code 0. -/
theorem C3_wait_final_state (p : Process) (err : Option WaitError) (now : Nat) :
    (p.wait err now).pid = 0 ∧
    (p.wait err now).stoppedAt = some now ∧
    (p.wait err now).state =
      (if p.state = .StateStopping then ServiceState.StateStopped
       else match err with
         | some _ => ServiceState.StateFailed
         | none => ServiceState.StateStopped) ∧
    (∀ e, err = some e → p.state ≠ .StateStopping → (p.wait err now).lastError = e.msg) ∧
    (∀ e code, err = some e → e.exitCode = some code →
      (p.wait err now).exitCode = some code) ∧
    (err = none → (p.wait err now).exitCode = some 0) := by
  refine ⟨?_, ?_, ?_, ?_, ?_, ?_⟩
  · simp [Process.wait]
  · cases err with
    | none => simp [Process.wait]
    | some e =>
        cases hc : e.exitCode <;> by_cases hs : p.state = .StateStopping <;>
          simp [Process.wait, hc, hs]
  · cases err with
    | none => by_cases hs : p.state = .StateStopping <;> simp [Process.wait, hs]
    | some e =>
        cases hc : e.exitCode <;> by_cases hs : p.state = .StateStopping <;>
          simp [Process.wait, hc, hs]
  · intro e he hs
    subst he
    cases hc : e.exitCode <;> simp [Process.wait, hc, hs]
  · intro e code he hc
    subst he
    by_cases hs : p.state = .StateStopping <;> simp [Process.wait, hc, hs]
  · intro he
    subst he
    simp [Process.wait]

/-! ### C7: who resets `restartCount` -/

/-- C7: a `StartService` call that returns nil leaves the `restartCount` of the
started process at 0 (and the process `Running`), whereas `Process.Start`, the
call the restart monitor makes, leaves `restartCount` as it was for every
process and every outcome of the spawn. -/
theorem C7_restartCount_reset (m m1 : Manager) (name : String) (env : StartEnv)
    (h : m.StartService name env = (m1, none)) :
    (∃ p, m1.getProcess name = some p ∧ p.restartCount = 0 ∧ p.state = .StateRunning) ∧
    (∀ (q : Process) (env2 : StartEnv), (q.Start env2).1.restartCount = q.restartCount) := by
  constructor
  · unfold Manager.StartService at h
    cases hg : m.getProcess name with
    | none => simp [hg] at h
    | some proc =>
        simp only [hg] at h
        cases hs : proc.Start env with
        | mk proc1 e =>
            cases e with
            | some err => simp [hs] at h
            | none =>
                simp only [hs, Prod.mk.injEq, and_true] at h
                subst h
                refine ⟨proc1.ResetRestartCount, ?_, rfl, ?_⟩
                · exact getProcess_setProcess_self m name _ proc hg
                · unfold Process.Start at hs
                  cases hl : proc.startLock with
                  | error e => simp [hl] at hs
                  | ok p1 =>
                      simp only [hl] at hs
                      unfold Process.startSpawn at hs
                      cases hsp : env.spawn <;> simp [hsp] at hs
                      rw [← hs]
                      simp [Process.ResetRestartCount, Process.startCommit]
  · intro q env2
    unfold Process.Start Process.startLock
    by_cases hq : q.state = .StateRunning ∨ q.state = .StateStarting
    · simp [hq]
    · simp only [hq, if_false]
      unfold Process.startSpawn
      cases env2.spawn <;> simp [Process.setFailed, Process.startCommit]

/-- C7 at a concrete input: starting the never-started service `svc`. -/
theorem C7_restartCount_reset_witness :
    (∃ p, (demoManager.StartService "svc" demoStartEnv).1.getProcess "svc" = some p ∧
      p.restartCount = 0 ∧ p.state = .StateRunning) ∧
    (∀ (q : Process) (env2 : StartEnv), (q.Start env2).1.restartCount = q.restartCount) :=
  C7_restartCount_reset demoManager (demoManager.StartService "svc" demoStartEnv).1 "svc"
    demoStartEnv (by decide)

/-! ### C4 and C5: invariants of the process under interleaving -/

theorem ProcSys.run_invariant (Inv : ProcSys → Prop) (ok : ProcAction → Prop)
    (hstep : ∀ s a s1, Inv s → ok a → s.step a = some s1 → Inv s1) :
    ∀ (acts : List ProcAction) (s s1 : ProcSys), Inv s → (∀ a ∈ acts, ok a) →
      s.run acts = some s1 → Inv s1 := by
  intro acts
  induction acts with
  | nil =>
      intro s s1 hs _ hrun
      simp [ProcSys.run] at hrun
      exact hrun ▸ hs
  | cons a rest ih =>
      intro s s1 hs hok hrun
      unfold ProcSys.run at hrun
      cases hst : s.step a with
      | none => simp [hst] at hrun
      | some s2 =>
          simp only [hst] at hrun
          exact ih s2 s1 (hstep s a s2 hs (hok a (List.mem_cons_self _ _)) hst)
            (fun b hb => hok b (List.mem_cons_of_mem _ hb)) hrun

theorem wait_state (p : Process) (err : Option WaitError) (now : Nat) :
    ((p.wait err now).state = .StateStopped ∨ (p.wait err now).state = .StateFailed) ∧
    (p.wait err now).pid = 0 ∧ (p.wait err now).doneCh = p.doneCh := by
  cases err with
  | none => by_cases hs : p.state = .StateStopping <;> simp [Process.wait, hs]
  | some e =>
      cases hc : e.exitCode <;> by_cases hs : p.state = .StateStopping <;>
        simp [Process.wait, hc, hs]

theorem PidInv_step (s : ProcSys) (a : ProcAction) (s1 : ProcSys)
    (hs : PidInv s) (ha : a.pidNonZero) (hst : s.step a = some s1) : PidInv s1 := by
  obtain ⟨h1, h2⟩ := hs
  cases a with
  | startLock =>
      by_cases hg : s.proc.state = .StateRunning ∨ s.proc.state = .StateStarting
      · simp [ProcSys.step, Process.startLock, hg] at hst
        subst hst; exact ⟨h1, h2⟩
      · simp [ProcSys.step, Process.startLock, hg] at hst
        subst hst; simp [PidInv]
  | spawn r now =>
      by_cases h0 : s.starting = 0
      · simp [ProcSys.step, h0] at hst
      · cases r with
        | started pid =>
            simp [ProcSys.step, h0, Process.startSpawn, Process.startCommit] at hst
            subst hst
            simp only [ProcAction.pidNonZero] at ha
            simp [PidInv, ha]
        | _ =>
            simp [ProcSys.step, h0, Process.startSpawn, Process.setFailed] at hst
            subst hst; simp [PidInv]
  | stopLock =>
      by_cases hg : s.proc.state = .StateRunning
      · simp [ProcSys.step, Process.stopLock, hg] at hst
        subst hst; simp [PidInv]
      · simp [ProcSys.step, Process.stopLock, hg] at hst
        subst hst; exact ⟨h1, h2⟩
  | waitReap ch err now =>
      by_cases hm : ch ∈ s.waiting
      · simp [ProcSys.step, hm] at hst
        subst hst
        have hw := wait_state s.proc err now
        refine ⟨?_, fun _ => hw.2.1⟩
        intro hr
        rcases hw.1 with h | h <;> simp [h] at hr
      · simp [ProcSys.step, hm] at hst
  | waitClose ch =>
      by_cases hm : ch ∈ s.reaped
      · simp [ProcSys.step, hm] at hst
        subst hst; exact ⟨h1, h2⟩
      · simp [ProcSys.step, hm] at hst
  | incrementRestartCount =>
      simp [ProcSys.step, Process.IncrementRestartCount] at hst
      subst hst; exact ⟨h1, h2⟩
  | resetRestartCount =>
      simp [ProcSys.step, Process.ResetRestartCount] at hst
      subst hst; exact ⟨h1, h2⟩
  | updateConfig cfg =>
      simp [ProcSys.step, Process.UpdateConfig] at hst
      subst hst; exact ⟨h1, h2⟩

/-- C4, as stated, fails: after `NewProcess`, a successful `Start` (pid 4242)
and the locked section of `Stop`, the state is `Stopping` while the recorded
pid is still 4242; `Stop` itself returns nil in that state when its timeout
fires before the waiter has run. A `Start` issued then (the guard lets
`Stopping` through) whose spawn fails leaves the state `Failed` with pid 4242,
so a non-zero pid is not confined to `Running` and `Stopping` either. -/
theorem C4_counterexample :
    (∃ s, (ProcSys.init demoCfg).run [.startLock, .spawn (.started 4242) 10, .stopLock] = some s ∧
      s.proc.state = .StateStopping ∧ s.proc.pid = 4242 ∧
      ¬ (s.proc.state = .StateRunning ↔ s.proc.pid ≠ 0)) ∧
    (demoRunning.Stop { killErr := none, exited := none }).2 = none ∧
    (demoRunning.Stop { killErr := none, exited := none }).1.state = .StateStopping ∧
    (demoRunning.Stop { killErr := none, exited := none }).1.pid = 4242 ∧
    (∃ s, (ProcSys.init demoCfg).run
        [.startLock, .spawn (.started 4242) 10, .stopLock, .startLock,
          .spawn (.startErr "exec: not found") 12] = some s ∧
      s.proc.state = .StateFailed ∧ s.proc.pid = 4242) := by
  refine ⟨⟨_, rfl, ?_, ?_, ?_⟩, ?_, ?_, ?_, ⟨_, rfl, ?_, ?_⟩⟩ <;> decide

/-- C4, amended: in every state reachable from `NewProcess` through the locked
sections of `Start`, `Stop` and the waiter (and the counter and config
setters), in any interleaving, with the operating system never assigning pid
0: if the state is `Running` the recorded pid is non-zero, and if the state is
`Stopped` the recorded pid is 0. -/
theorem C4_running_has_pid (cfg : ServiceConfig) (acts : List ProcAction) (s : ProcSys)
    (hpid : ∀ a ∈ acts, a.pidNonZero) (hrun : (ProcSys.init cfg).run acts = some s) :
    (s.proc.state = .StateRunning → s.proc.pid ≠ 0) ∧
    (s.proc.state = .StateStopped → s.proc.pid = 0) :=
  ProcSys.run_invariant PidInv ProcAction.pidNonZero PidInv_step acts (ProcSys.init cfg) s
    (by simp [PidInv, ProcSys.init, NewProcess]) hpid hrun

/-- C4 at a concrete run: start, child exits with an error, start again. -/
theorem C4_running_has_pid_witness :
    ∃ s, (ProcSys.init demoCfg).run
        [.startLock, .spawn (.started 4242) 10,
          .waitReap 2 (some { msg := "exit status 1", exitCode := some 1 }) 11,
          .waitClose 2, .startLock, .spawn (.started 4243) 20] = some s ∧
      s.proc.state = .StateRunning ∧
      (s.proc.state = .StateRunning → s.proc.pid ≠ 0) ∧
      (s.proc.state = .StateStopped → s.proc.pid = 0) :=
  ⟨_, rfl, by decide,
    C4_running_has_pid demoCfg
      [.startLock, .spawn (.started 4242) 10,
        .waitReap 2 (some { msg := "exit status 1", exitCode := some 1 }) 11,
        .waitClose 2, .startLock, .spawn (.started 4243) 20] _
      (by simp [ProcAction.pidNonZero]) rfl⟩

theorem DoneInv_step (s : ProcSys) (a : ProcAction) (s1 : ProcSys)
    (hs : DoneInv s) (_ha : True) (hst : s.step a = some s1) : DoneInv s1 := by
  obtain ⟨hc, hw, hr, hrq, hcq, hnq⟩ := hs
  cases a with
  | startLock =>
      by_cases hg : s.proc.state = .StateRunning ∨ s.proc.state = .StateStarting
      · simp [ProcSys.step, Process.startLock, hg] at hst
        subst hst; exact ⟨hc, hw, hr, hrq, hcq, hnq⟩
      · simp [ProcSys.step, Process.startLock, hg] at hst
        subst hst
        refine ⟨hc, hw, hr, ?_, ?_, ?_⟩
        · intro c hcm hd
          have := hrq c hcm hd
          exact ⟨this.1, by simp, by simp⟩
        · intro c hcm hd
          have := hcq c hcm hd
          exact ⟨this.1, by simp, by simp⟩
        · intro hd
          have := hnq hd
          exact ⟨this.1, by simp, by simp⟩
  | spawn r now =>
      by_cases h0 : s.starting = 0
      · simp [ProcSys.step, h0] at hst
      · cases r with
        | started pid =>
            simp [ProcSys.step, h0, Process.startSpawn, Process.startCommit] at hst
            subst hst
            refine ⟨?_, ?_, ?_, ?_, ?_, ?_⟩
            · intro c hcm; have := hc c hcm; simp only; omega
            · intro c hcm
              simp only [List.mem_append, List.mem_singleton] at hcm
              rcases hcm with h | h
              · have := hw c h; simp only; omega
              · simp only; omega
            · intro c hcm; have := hr c hcm; simp only; omega
            · intro c hcm hd
              simp only [Option.some.injEq] at hd
              have := hr c hcm; omega
            · intro c hcm hd
              simp only [Option.some.injEq] at hd
              have := hc c hcm; omega
            · intro hd; simp at hd
        | _ =>
            simp [ProcSys.step, h0, Process.startSpawn, Process.setFailed] at hst
            subst hst
            refine ⟨hc, hw, hr, ?_, ?_, ?_⟩
            · intro c hcm hd
              have := hrq c hcm hd
              exact ⟨this.1, by simp, by simp⟩
            · intro c hcm hd
              have := hcq c hcm hd
              exact ⟨this.1, by simp, by simp⟩
            · intro hd
              have := hnq hd
              exact ⟨this.1, by simp, by simp⟩
  | stopLock =>
      by_cases hg : s.proc.state = .StateRunning
      · simp [ProcSys.step, Process.stopLock, hg] at hst
        subst hst
        refine ⟨hc, hw, hr, ?_, ?_, ?_⟩
        · intro c hcm hd
          exact absurd hg (hrq c hcm hd).2.1
        · intro c hcm hd
          exact absurd hg (hcq c hcm hd).2.1
        · intro hd
          exact absurd hg (hnq hd).2.1
      · simp [ProcSys.step, Process.stopLock, hg] at hst
        subst hst; exact ⟨hc, hw, hr, hrq, hcq, hnq⟩
  | waitReap ch err now =>
      by_cases hm : ch ∈ s.waiting
      · simp [ProcSys.step, hm] at hst
        subst hst
        have hq : (s.proc.wait err now).quiet := by
          have hws := wait_state s.proc err now
          refine ⟨hws.2.1, ?_, ?_⟩ <;> rcases hws.1 with h | h <;> simp [h]
        refine ⟨hc, ?_, ?_, fun _ _ _ => hq, fun _ _ _ => hq, fun _ => hq⟩
        · intro c hcm; exact hw c (List.mem_of_mem_erase hcm)
        · intro c hcm
          simp only [List.mem_append, List.mem_singleton] at hcm
          rcases hcm with h | h
          · exact hr c h
          · subst h; exact hw c hm
      · simp [ProcSys.step, hm] at hst
  | waitClose ch =>
      by_cases hm : ch ∈ s.reaped
      · simp [ProcSys.step, hm] at hst
        subst hst
        refine ⟨?_, hw, ?_, ?_, ?_, hnq⟩
        · intro c hcm
          simp only [List.mem_append, List.mem_singleton] at hcm
          rcases hcm with h | h
          · exact hc c h
          · subst h; exact hr c hm
        · intro c hcm; exact hr c (List.mem_of_mem_erase hcm)
        · intro c hcm hd; exact hrq c (List.mem_of_mem_erase hcm) hd
        · intro c hcm hd
          simp only [List.mem_append, List.mem_singleton] at hcm
          rcases hcm with h | h
          · exact hcq c h hd
          · subst h; exact hrq c hm hd
      · simp [ProcSys.step, hm] at hst
  | incrementRestartCount =>
      simp [ProcSys.step, Process.IncrementRestartCount] at hst
      subst hst; exact ⟨hc, hw, hr, hrq, hcq, hnq⟩
  | resetRestartCount =>
      simp [ProcSys.step, Process.ResetRestartCount] at hst
      subst hst; exact ⟨hc, hw, hr, hrq, hcq, hnq⟩
  | updateConfig cfg =>
      simp [ProcSys.step, Process.UpdateConfig] at hst
      subst hst; exact ⟨hc, hw, hr, hrq, hcq, hnq⟩

/-- C5, as stated, fails: after a full run (start, clean exit, the waiter
closes `doneCh`) the first locked section of the next `Start` sets the state
to `Starting` while `DoneCh` still returns the closed channel of the finished
run; the same holds during the very first `Start`, where `DoneCh` returns a
fresh closed channel. -/
theorem C5_counterexample :
    (∃ s, (ProcSys.init demoCfg).run
        [.startLock, .spawn (.started 4242) 10, .waitReap 2 none 11, .waitClose 2,
          .startLock] = some s ∧
      s.chanClosed s.proc.DoneCh = true ∧ s.proc.state = .StateStarting ∧
      ¬ (s.proc.state = .StateStopped ∨ s.proc.state = .StateFailed)) ∧
    (∃ s, (ProcSys.init demoCfg).run [.startLock] = some s ∧
      s.chanClosed s.proc.DoneCh = true ∧ s.proc.state = .StateStarting) := by
  refine ⟨⟨_, rfl, ?_, ?_, ?_⟩, ⟨_, rfl, ?_, ?_⟩⟩ <;> decide

/-- C5, amended: in every state reachable from `NewProcess` through the locked
sections of `Start`, `Stop` and the waiter (and the counter and config
setters), in any interleaving, if the channel returned by `DoneCh` is closed
then the pid is 0 and the state is `Stopped`, `Failed` or `Starting`. -/
theorem C5_done_closed (cfg : ServiceConfig) (acts : List ProcAction) (s : ProcSys)
    (hrun : (ProcSys.init cfg).run acts = some s)
    (hclosed : s.chanClosed s.proc.DoneCh = true) :
    s.proc.pid = 0 ∧
    (s.proc.state = .StateStopped ∨ s.proc.state = .StateFailed ∨
      s.proc.state = .StateStarting) := by
  have hinv : DoneInv s :=
    ProcSys.run_invariant DoneInv (fun _ => True) DoneInv_step acts (ProcSys.init cfg) s
      (by simp [DoneInv, ProcSys.init, NewProcess, Process.quiet]) (fun _ _ => trivial) hrun
  obtain ⟨_, _, _, _, hcq, hnq⟩ := hinv
  have hq : s.proc.quiet := by
    cases hd : s.proc.doneCh with
    | none => exact hnq hd
    | some c =>
        simp [Process.DoneCh, hd, ProcSys.chanClosed] at hclosed
        exact hcq c hclosed hd
  refine ⟨hq.1, ?_⟩
  have h1 := hq.2.1
  have h2 := hq.2.2
  cases hst : s.proc.state <;> simp [hst] at h1 h2 ⊢

/-- C5 at a concrete run: start, the child exits with an error, the waiter
closes `doneCh`. -/
theorem C5_done_closed_witness :
    ∃ s, (ProcSys.init demoCfg).run
        [.startLock, .spawn (.started 4242) 10,
          .waitReap 2 (some { msg := "exit status 1", exitCode := some 1 }) 11,
          .waitClose 2] = some s ∧
      s.chanClosed s.proc.DoneCh = true ∧ s.proc.pid = 0 ∧
      (s.proc.state = .StateStopped ∨ s.proc.state = .StateFailed ∨
        s.proc.state = .StateStarting) :=
  ⟨_, rfl, by decide,
    C5_done_closed demoCfg
      [.startLock, .spawn (.started 4242) 10,
        .waitReap 2 (some { msg := "exit status 1", exitCode := some 1 }) 11,
        .waitClose 2] _ rfl (by decide)⟩

/-! ### C6: the restart count during the lifetime of a monitor -/

theorem ProcSys.step_frame (s : ProcSys) (a : ProcAction) (s1 : ProcSys)
    (hst : s.step a = some s1) :
    s1.proc.restartCount =
      (match a with
        | .incrementRestartCount => wrapInt64 (s.proc.restartCount + 1)
        | .resetRestartCount => 0
        | _ => s.proc.restartCount) ∧
    s1.proc.config =
      (match a with
        | .updateConfig c => c
        | _ => s.proc.config) := by
  cases a with
  | startLock =>
      by_cases hg : s.proc.state = .StateRunning ∨ s.proc.state = .StateStarting
      · simp [ProcSys.step, Process.startLock, hg] at hst
        subst hst; simp
      · simp [ProcSys.step, Process.startLock, hg] at hst
        subst hst; simp
  | spawn r now =>
      by_cases h0 : s.starting = 0
      · simp [ProcSys.step, h0] at hst
      · cases r with
        | started pid =>
            simp [ProcSys.step, h0, Process.startSpawn, Process.startCommit] at hst
            subst hst; simp
        | _ =>
            simp [ProcSys.step, h0, Process.startSpawn, Process.setFailed] at hst
            subst hst; simp
  | stopLock =>
      by_cases hg : s.proc.state = .StateRunning
      · simp [ProcSys.step, Process.stopLock, hg] at hst
        subst hst; simp
      · simp [ProcSys.step, Process.stopLock, hg] at hst
        subst hst; simp
  | waitReap ch err now =>
      by_cases hm : ch ∈ s.waiting
      · simp [ProcSys.step, hm] at hst
        subst hst
        cases err with
        | none => by_cases hs : s.proc.state = .StateStopping <;> simp [Process.wait, hs]
        | some e =>
            cases hc : e.exitCode <;> by_cases hs : s.proc.state = .StateStopping <;>
              simp [Process.wait, hc, hs]
      · simp [ProcSys.step, hm] at hst
  | waitClose ch =>
      by_cases hm : ch ∈ s.reaped
      · simp [ProcSys.step, hm] at hst
        subst hst; simp
      · simp [ProcSys.step, hm] at hst
  | incrementRestartCount =>
      simp [ProcSys.step, Process.IncrementRestartCount] at hst
      subst hst; simp
  | resetRestartCount =>
      simp [ProcSys.step, Process.ResetRestartCount] at hst
      subst hst; simp
  | updateConfig cfg =>
      simp [ProcSys.step, Process.UpdateConfig] at hst
      subst hst; simp

theorem wrapInt64_succ (x : Int) (h0 : 0 ≤ x) (h1 : x < maxInt64) : wrapInt64 (x + 1) = x + 1 := by
  unfold wrapInt64
  unfold maxInt64 at h1
  omega

theorem spawnError_of_failed (p : Process) (r : SpawnResult) (h : ∀ pid, r ≠ .started pid) :
    ∃ e, p.spawnError r = some e := by
  cases r with
  | started pid => exact absurd rfl (h pid)
  | _ => simp [Process.spawnError, Process.startSpawn]

theorem monStep_dead (s : SupSys) (i : Nat) (m : Monitor) (a : MonAction)
    (h : m.alive = false) : s.monStep i m a = none := by
  obtain ⟨mcfg, pc⟩ := m
  cases pc <;> simp [Monitor.alive] at h
  cases a <;> rfl

theorem monStep_effect (s : SupSys) (i : Nat) (m : Monitor) (a : MonAction) (s1 : SupSys)
    (h0 : 0 ≤ s.ps.proc.restartCount)
    (hcfg : s.ps.proc.config.MaxRestarts ≤ maxInt64)
    (hok : MonOK s m)
    (hst : s.monStep i m a = some s1) :
    ∃ m1, s1.monitors = s.monitors.set i m1 ∧ s1.extStarted = s.extStarted ∧
      0 ≤ s1.ps.proc.restartCount ∧ s1.ps.proc.config.MaxRestarts ≤ maxInt64 ∧
      s.ps.proc.restartCount ≤ s1.ps.proc.restartCount ∧ MonOK s1 m1 := by
  obtain ⟨hmc, hb, hborn, hinc⟩ := hok
  obtain ⟨mcfg, pc⟩ := m
  simp only at hmc hb hborn hinc
  cases pc <;> cases a <;> simp only [SupSys.monStep] at hst <;> try (simp at hst; done)
  case born.readConfig =>
    simp only [Option.some.injEq] at hst
    subst hst
    have hz := hborn rfl
    exact ⟨{ cfg := s.ps.proc.config, pc := .loopTop }, rfl, rfl, h0, hcfg, le_refl _,
      hcfg, Or.inl (le_of_eq hz), by simp, by simp⟩
  case loopTop.getDoneCh =>
    simp only [Option.some.injEq] at hst
    subst hst
    exact ⟨{ cfg := mcfg, pc := .waitDone s.ps.proc.DoneCh }, rfl, rfl, h0, hcfg, le_refl _,
      hmc, hb, by simp, by simp⟩
  case waitDone.wake ch =>
    by_cases hc : s.ps.chanClosed ch = true
    · simp only [hc, if_true, Option.some.injEq] at hst
      subst hst
      exact ⟨{ cfg := mcfg, pc := .readState }, rfl, rfl, h0, hcfg, le_refl _,
        hmc, hb, by simp, by simp⟩
    · simp [hc] at hst
  case readState.readState =>
    by_cases h1 : s.ps.proc.state = .StateStopped
    · simp only [h1, if_true, Option.some.injEq] at hst
      subst hst
      exact ⟨{ cfg := mcfg, pc := .done false }, rfl, rfl, h0, hcfg, le_refl _,
        hmc, hb, by simp, by simp⟩
    · cases h2 : mcfg.AutoRestart
      · simp only [h1, h2, if_true, if_false, Option.some.injEq] at hst
        subst hst
        exact ⟨{ cfg := mcfg, pc := .done true }, rfl, rfl, h0, hcfg, le_refl _,
          hmc, hb, by simp, by simp⟩
      · simp only [h1, h2, if_false, Option.some.injEq, Bool.true_eq_false] at hst
        subst hst
        exact ⟨{ cfg := mcfg, pc := .checkCount }, rfl, rfl, h0, hcfg, le_refl _,
          hmc, hb, by simp, by simp⟩
  case checkCount.checkCount =>
    by_cases h1 : s.ps.proc.restartCount ≥ mcfg.MaxRestarts
    · simp only [h1, if_true, Option.some.injEq] at hst
      subst hst
      exact ⟨{ cfg := mcfg, pc := .done true }, rfl, rfl, h0, hcfg, le_refl _,
        hmc, hb, by simp, by simp⟩
    · simp only [h1, if_false, Option.some.injEq] at hst
      subst hst
      exact ⟨{ cfg := mcfg, pc := .increment }, rfl, rfl, h0, hcfg, le_refl _,
        hmc, hb, by simp, fun _ => by simpa using h1⟩
  case increment.increment =>
    have hlt := hinc rfl
    cases hps : s.ps.step .incrementRestartCount with
    | none => simp [hps] at hst
    | some ps =>
        simp only [hps, Option.some.injEq] at hst
        subst hst
        have hf := ProcSys.step_frame s.ps _ ps hps
        simp only at hf
        have hw := wrapInt64_succ s.ps.proc.restartCount h0 (by omega)
        have hrc : ps.proc.restartCount = s.ps.proc.restartCount + 1 := by rw [hf.1, hw]
        refine ⟨{ cfg := mcfg, pc := .sleeping }, rfl, rfl, ?_, ?_, ?_, hmc, ?_, by simp,
          by simp⟩
        · show 0 ≤ ps.proc.restartCount
          omega
        · show ps.proc.config.MaxRestarts ≤ maxInt64
          rw [hf.2]; exact hcfg
        · show s.ps.proc.restartCount ≤ ps.proc.restartCount
          omega
        · right
          show ps.proc.restartCount ≤ mcfg.MaxRestarts
          omega
  case sleeping.timer =>
    simp only [Option.some.injEq] at hst
    subst hst
    exact ⟨{ cfg := mcfg, pc := .startLock }, rfl, rfl, h0, hcfg, le_refl _,
      hmc, hb, by simp, by simp⟩
  case sleeping.stopSignal =>
    by_cases hc : s.stopBroadcast = true
    · simp only [hc, if_true, Option.some.injEq] at hst
      subst hst
      exact ⟨{ cfg := mcfg, pc := .done false }, rfl, rfl, h0, hcfg, le_refl _,
        hmc, hb, by simp, by simp⟩
    · simp [hc] at hst
  case startLock.startLock =>
    cases hl : s.ps.proc.startLock with
    | error e =>
        simp only [hl, Option.some.injEq] at hst
        subst hst
        exact ⟨{ cfg := mcfg, pc := .done true }, rfl, rfl, h0, hcfg, le_refl _,
          hmc, hb, by simp, by simp⟩
    | ok p1 =>
        simp only [hl] at hst
        cases hps : s.ps.step .startLock with
        | none => simp [hps] at hst
        | some ps =>
            simp only [hps, Option.some.injEq] at hst
            subst hst
            have hf := ProcSys.step_frame s.ps _ ps hps
            simp only at hf
            refine ⟨{ cfg := mcfg, pc := .spawning }, rfl, rfl, ?_, ?_, ?_, hmc, ?_, by simp,
              by simp⟩
            · show 0 ≤ ps.proc.restartCount
              rw [hf.1]; exact h0
            · show ps.proc.config.MaxRestarts ≤ maxInt64
              rw [hf.2]; exact hcfg
            · show s.ps.proc.restartCount ≤ ps.proc.restartCount
              rw [hf.1]
            · show ps.proc.restartCount ≤ 0 ∨ ps.proc.restartCount ≤ mcfg.MaxRestarts
              rw [hf.1]; exact hb
  case spawning.spawn r now =>
    cases hps : s.ps.step (.spawn r now) with
    | none => simp [hps] at hst
    | some ps =>
        simp only [hps] at hst
        have hf := ProcSys.step_frame s.ps _ ps hps
        simp only at hf
        cases he : s.ps.proc.spawnError r with
        | some e =>
            simp only [he, Option.some.injEq] at hst
            subst hst
            refine ⟨{ cfg := mcfg, pc := .done true }, rfl, rfl, ?_, ?_, ?_, hmc, ?_, by simp,
              by simp⟩
            · show 0 ≤ ps.proc.restartCount
              rw [hf.1]; exact h0
            · show ps.proc.config.MaxRestarts ≤ maxInt64
              rw [hf.2]; exact hcfg
            · show s.ps.proc.restartCount ≤ ps.proc.restartCount
              rw [hf.1]
            · show ps.proc.restartCount ≤ 0 ∨ ps.proc.restartCount ≤ mcfg.MaxRestarts
              rw [hf.1]; exact hb
        | none =>
            simp only [he, Option.some.injEq] at hst
            subst hst
            refine ⟨{ cfg := mcfg, pc := .loopTop }, rfl, rfl, ?_, ?_, ?_, hmc, ?_, by simp,
              by simp⟩
            · show 0 ≤ ps.proc.restartCount
              rw [hf.1]; exact h0
            · show ps.proc.config.MaxRestarts ≤ maxInt64
              rw [hf.2]; exact hcfg
            · show s.ps.proc.restartCount ≤ ps.proc.restartCount
              rw [hf.1]
            · show ps.proc.restartCount ≤ 0 ∨ ps.proc.restartCount ≤ mcfg.MaxRestarts
              rw [hf.1]; exact hb

theorem SoloInv_of_frame (s s1 : SupSys) (hs : SoloInv s)
    (hm : s1.monitors = s.monitors) (hext : s1.extStarted = s.extStarted)
    (hrc : s1.ps.proc.restartCount = s.ps.proc.restartCount)
    (hc : s1.ps.proc.config.MaxRestarts ≤ maxInt64) :
    SoloInv s1 ∧ (s.ps.proc.restartCount ≤ s1.ps.proc.restartCount ∨
      ∀ m ∈ s.monitors, m.alive = false) := by
  obtain ⟨h0, _, h3, h4, h5⟩ := hs
  refine ⟨⟨hrc ▸ h0, hc, hext ▸ h3, ?_, ?_⟩, Or.inl (le_of_eq hrc.symm)⟩
  · rw [hext, hm]; exact h4
  · rw [hm]
    rcases h5 with h5 | ⟨dones, m, hmon, hd, hok⟩
    · exact Or.inl h5
    · refine Or.inr ⟨dones, m, hmon, hd, ?_⟩
      unfold MonOK at hok ⊢
      rw [hrc]; exact hok

theorem spawnError_started (p : Process) (pid : Int) : p.spawnError (.started pid) = none := by
  simp [Process.spawnError, Process.startSpawn]

theorem SoloInv_step (s : SupSys) (a : SupAction) (s1 : SupSys)
    (hs : SoloInv s) (ha : s.allows a = true) (hst : s.step a = some s1) :
    SoloInv s1 ∧ (s.ps.proc.restartCount ≤ s1.ps.proc.restartCount ∨
      ∀ m ∈ s.monitors, m.alive = false) := by
  have hs0 := hs
  obtain ⟨h0, hcfg, h3, h4, h5⟩ := hs
  cases a with
  | mon i a =>
      simp only [SupSys.step] at hst
      cases hmi : s.monitors[i]? with
      | none => simp [hmi] at hst
      | some mi =>
          simp only [hmi] at hst
          have hlive : mi.alive = true := by
            by_contra hdead
            rw [monStep_dead s i mi a (by simpa using hdead)] at hst
            simp at hst
          rcases h5 with h5 | ⟨dones, m, hmon, hd, hok⟩
          · rw [h5] at hmi; simp at hmi
          · have hi : i = dones.length := by
              by_contra hne
              have hlt : i < (dones ++ [m]).length := by
                rw [← hmon]
                exact (List.getElem?_eq_some_iff.mp hmi).1
              simp only [List.length_append, List.length_singleton] at hlt
              have hlt2 : i < dones.length := by omega
              rw [hmon, List.getElem?_append_left hlt2] at hmi
              have hmem : mi ∈ dones := List.getElem?_mem hmi
              rw [hd mi hmem] at hlive
              exact absurd hlive (by decide)
            have hmm : mi = m := by
              rw [hmon, hi, List.getElem?_append_right (le_refl _)] at hmi
              simpa using hmi.symm
            subst hmm
            obtain ⟨m1, e1, e2, e3, e4, e5, e6⟩ := monStep_effect s i mi a s1 h0 hcfg hok hst
            have hmon1 : s1.monitors = dones ++ [m1] := by
              rw [e1, hmon, hi]
              simp
            have hext : s.extStarted ≠ 1 := by
              intro h1
              have hdd := h4 h1 mi (by rw [hmon]; simp)
              rw [hdd] at hlive
              exact absurd hlive (by decide)
            refine ⟨⟨e3, e4, e2 ▸ h3, ?_, Or.inr ⟨dones, m1, hmon1, hd, e6⟩⟩, Or.inl e5⟩
            intro h1
            rw [e2] at h1
            exact absurd h1 hext
  | extStartLock =>
      simp only [SupSys.step] at hst
      cases hl : s.ps.proc.startLock with
      | error e =>
          simp only [hl, Option.some.injEq] at hst
          subst hst
          exact ⟨hs0, Or.inl (le_refl _)⟩
      | ok p1 =>
          simp only [hl] at hst
          cases hps : s.ps.step .startLock with
          | none => simp [hps] at hst
          | some ps =>
              simp only [hps, Option.some.injEq] at hst
              subst hst
              have hf := ProcSys.step_frame s.ps _ ps hps
              simp only at hf
              exact SoloInv_of_frame s _ hs0 rfl rfl hf.1 (by simp only [hf.2]; exact hcfg)
  | extSpawn r now =>
      simp only [SupSys.step] at hst
      by_cases hz : s.extStarting = 0
      · simp [hz] at hst
      · simp only [hz, if_false] at hst
        cases hps : s.ps.step (.spawn r now) with
        | none => simp [hps] at hst
        | some ps =>
            simp only [hps] at hst
            have hf := ProcSys.step_frame s.ps _ ps hps
            simp only at hf
            cases r with
            | started pid =>
                simp only [spawnError_started, Option.some.injEq] at hst
                subst hst
                simp only [SupSys.allows, Bool.and_eq_true, List.all_eq_true,
                  Bool.not_eq_true', decide_eq_true_eq] at ha
                obtain ⟨hdead, hext0⟩ := ha
                refine ⟨⟨?_, ?_, ?_, fun _ => hdead, ?_⟩, Or.inl (le_of_eq hf.1.symm)⟩
                · show 0 ≤ ps.proc.restartCount
                  rw [hf.1]; exact h0
                · show ps.proc.config.MaxRestarts ≤ maxInt64
                  rw [hf.2]; exact hcfg
                · show s.extStarted + 1 ≤ 1
                  omega
                · rcases h5 with h5 | ⟨dones, m, hmon, hd, hok⟩
                  · exact Or.inl h5
                  · refine Or.inr ⟨dones, m, hmon, hd, ?_⟩
                    unfold MonOK at hok ⊢
                    show _ ∧ (ps.proc.restartCount ≤ 0 ∨ ps.proc.restartCount ≤ _) ∧
                      (_ → ps.proc.restartCount = 0) ∧ (_ → ps.proc.restartCount < _)
                    rw [hf.1]; exact hok
            | stdoutPipeErr e =>
                obtain ⟨e1, he⟩ := spawnError_of_failed s.ps.proc (.stdoutPipeErr e)
                  (fun pid h => by cases h)
                simp only [he, Option.some.injEq] at hst
                subst hst
                exact SoloInv_of_frame s _ hs0 rfl rfl hf.1 (by simp only [hf.2]; exact hcfg)
            | stderrPipeErr e =>
                obtain ⟨e1, he⟩ := spawnError_of_failed s.ps.proc (.stderrPipeErr e)
                  (fun pid h => by cases h)
                simp only [he, Option.some.injEq] at hst
                subst hst
                exact SoloInv_of_frame s _ hs0 rfl rfl hf.1 (by simp only [hf.2]; exact hcfg)
            | startErr e =>
                obtain ⟨e1, he⟩ := spawnError_of_failed s.ps.proc (.startErr e)
                  (fun pid h => by cases h)
                simp only [he, Option.some.injEq] at hst
                subst hst
                exact SoloInv_of_frame s _ hs0 rfl rfl hf.1 (by simp only [hf.2]; exact hcfg)
  | extFinishStart =>
      simp only [SupSys.step] at hst
      by_cases hz : s.extStarted = 0
      · simp [hz] at hst
      · simp only [hz, if_false] at hst
        have h1 : s.extStarted = 1 := by omega
        have hdead := h4 h1
        cases hps : s.ps.step .resetRestartCount with
        | none => simp [hps] at hst
        | some ps =>
            simp only [hps, Option.some.injEq] at hst
            subst hst
            have hf := ProcSys.step_frame s.ps _ ps hps
            simp only at hf
            have hc1 : ps.proc.config.MaxRestarts ≤ maxInt64 := by rw [hf.2]; exact hcfg
            refine ⟨⟨?_, hc1, ?_, ?_, Or.inr ⟨s.monitors, { cfg := ps.proc.config, pc := .born },
              rfl, hdead, ?_⟩⟩, Or.inr hdead⟩
            · show 0 ≤ ps.proc.restartCount
              rw [hf.1]
            · show s.extStarted - 1 ≤ 1
              omega
            · intro h
              have : s.extStarted - 1 = 1 := h
              omega
            · refine ⟨hc1, Or.inl ?_, fun _ => ?_, fun h => by simp at h⟩
              · show ps.proc.restartCount ≤ 0
                rw [hf.1]
              · show ps.proc.restartCount = 0
                exact hf.1
  | extStopLock emits =>
      simp only [SupSys.step] at hst
      cases hl : s.ps.proc.stopLock with
      | error e =>
          simp only [hl, Option.some.injEq] at hst
          subst hst
          exact ⟨hs0, Or.inl (le_refl _)⟩
      | ok p1 =>
          simp only [hl] at hst
          cases hps : s.ps.step .stopLock with
          | none => simp [hps] at hst
          | some ps =>
              simp only [hps, Option.some.injEq] at hst
              subst hst
              have hf := ProcSys.step_frame s.ps _ ps hps
              simp only at hf
              exact SoloInv_of_frame s _ hs0 rfl rfl hf.1 (by simp only [hf.2]; exact hcfg)
  | extStopEmit =>
      simp only [SupSys.step] at hst
      by_cases hz : s.extStopping = 0
      · simp [hz] at hst
      · simp only [hz, if_false, Option.some.injEq] at hst
        subst hst
        exact SoloInv_of_frame s _ hs0 rfl rfl rfl hcfg
  | waitReap ch err now =>
      simp only [SupSys.step] at hst
      cases hps : s.ps.step (.waitReap ch err now) with
      | none => simp [hps] at hst
      | some ps =>
          simp only [hps, Option.some.injEq] at hst
          subst hst
          have hf := ProcSys.step_frame s.ps _ ps hps
          simp only at hf
          exact SoloInv_of_frame s _ hs0 rfl rfl hf.1 (by simp only [hf.2]; exact hcfg)
  | waitClose ch =>
      simp only [SupSys.step] at hst
      cases hps : s.ps.step (.waitClose ch) with
      | none => simp [hps] at hst
      | some ps =>
          simp only [hps, Option.some.injEq] at hst
          subst hst
          have hf := ProcSys.step_frame s.ps _ ps hps
          simp only at hf
          exact SoloInv_of_frame s _ hs0 rfl rfl hf.1 (by simp only [hf.2]; exact hcfg)
  | updateConfig cfg =>
      simp only [SupSys.step] at hst
      cases hps : s.ps.step (.updateConfig cfg) with
      | none => simp [hps] at hst
      | some ps =>
          simp only [hps, Option.some.injEq] at hst
          subst hst
          have hf := ProcSys.step_frame s.ps _ ps hps
          simp only at hf
          simp only [SupSys.allows, decide_eq_true_eq] at ha
          exact SoloInv_of_frame s _ hs0 rfl rfl hf.1 (by simp only [hf.2]; exact ha)
  | stopAll =>
      simp only [SupSys.step, Option.some.injEq] at hst
      subst hst
      exact SoloInv_of_frame s _ hs0 rfl rfl rfl hcfg

theorem monStep_monitors (s : SupSys) (j : Nat) (mj : Monitor) (a : MonAction) (s1 : SupSys)
    (hst : s.monStep j mj a = some s1) : ∃ m1, s1.monitors = s.monitors.set j m1 := by
  obtain ⟨mcfg, pc⟩ := mj
  cases pc <;> cases a <;> simp only [SupSys.monStep] at hst <;> try (simp at hst; done)
  all_goals (repeat' split at hst)
  all_goals first
    | (simp at hst; done)
    | (simp only [Option.some.injEq] at hst; subst hst; exact ⟨_, rfl⟩)

theorem step_monitors (s : SupSys) (a : SupAction) (s1 : SupSys) (hst : s.step a = some s1) :
    (∃ j mj m1, s.monitors[j]? = some mj ∧ mj.alive = true ∧
      s1.monitors = s.monitors.set j m1) ∨
    (∃ mnew, s1.monitors = s.monitors ++ [mnew]) ∨ s1.monitors = s.monitors := by
  cases a with
  | mon j a =>
      simp only [SupSys.step] at hst
      cases hmj : s.monitors[j]? with
      | none => simp [hmj] at hst
      | some mj =>
          simp only [hmj] at hst
          left
          obtain ⟨m1, h1⟩ := monStep_monitors s j mj a s1 hst
          refine ⟨j, mj, m1, hmj, ?_, h1⟩
          by_contra hdead
          rw [monStep_dead s j mj a (by simpa using hdead)] at hst
          simp at hst
  | extFinishStart =>
      simp only [SupSys.step] at hst
      repeat' split at hst
      all_goals first
        | (simp at hst; done)
        | (simp only [Option.some.injEq] at hst; subst hst; exact Or.inr (Or.inl ⟨_, rfl⟩))
  | _ =>
      simp only [SupSys.step] at hst
      repeat' split at hst
      all_goals first
        | (simp at hst; done)
        | (simp only [Option.some.injEq] at hst; subst hst; exact Or.inr (Or.inr rfl))

theorem step_monitor_persists (s : SupSys) (a : SupAction) (s1 : SupSys) (i : Nat) (m : Monitor)
    (hst : s.step a = some s1) (hm : s.monitors[i]? = some m) :
    ∃ m1, s1.monitors[i]? = some m1 ∧ (m.alive = false → m1.alive = false) := by
  have hlt : i < s.monitors.length := (List.getElem?_eq_some_iff.mp hm).1
  rcases step_monitors s a s1 hst with ⟨j, mj, m1, hj, hlive, hset⟩ | ⟨mnew, happ⟩ | hsame
  · by_cases hij : j = i
    · subst hij
      rw [hj] at hm
      cases hm
      refine ⟨m1, ?_, ?_⟩
      · rw [hset]
        simp [List.getElem?_set, hlt]
      · intro hdead
        rw [hdead] at hlive
        exact absurd hlive (by decide)
    · refine ⟨m, ?_, fun h => h⟩
      rw [hset, List.getElem?_set_ne hij]
      exact hm
  · refine ⟨m, ?_, fun h => h⟩
    rw [happ, List.getElem?_append_left hlt]
    exact hm
  · exact ⟨m, by rw [hsame]; exact hm, fun h => h⟩

theorem runSolo_dead_persists (acts : List SupAction) :
    ∀ (s s2 : SupSys) (i : Nat) (m : Monitor), s.runSolo acts = some s2 →
      s.monitors[i]? = some m → m.alive = false →
      ∃ m2, s2.monitors[i]? = some m2 ∧ m2.alive = false := by
  induction acts with
  | nil =>
      intro s s2 i m hrun hm hdead
      simp only [SupSys.runSolo, Option.some.injEq] at hrun
      subst hrun
      exact ⟨m, hm, hdead⟩
  | cons a rest ih =>
      intro s s2 i m hrun hm hdead
      unfold SupSys.runSolo at hrun
      by_cases ha : s.allows a = true
      · simp only [ha, if_true] at hrun
        cases hst : s.step a with
        | none => simp [hst] at hrun
        | some s1 =>
            simp only [hst] at hrun
            obtain ⟨m1, hm1, hd1⟩ := step_monitor_persists s a s1 i m hst hm
            exact ih s1 s2 i m1 hrun hm1 (hd1 hdead)
      · simp [ha] at hrun

theorem SoloInv_runSolo (acts : List SupAction) :
    ∀ (s s2 : SupSys), SoloInv s → s.runSolo acts = some s2 → SoloInv s2 := by
  induction acts with
  | nil =>
      intro s s2 hs hrun
      simp only [SupSys.runSolo, Option.some.injEq] at hrun
      subst hrun
      exact hs
  | cons a rest ih =>
      intro s s2 hs hrun
      unfold SupSys.runSolo at hrun
      by_cases ha : s.allows a = true
      · simp only [ha, if_true] at hrun
        cases hst : s.step a with
        | none => simp [hst] at hrun
        | some s1 =>
            simp only [hst] at hrun
            exact ih s1 s2 (SoloInv_step s a s1 hs ha hst).1 hrun
      · simp [ha] at hrun

theorem runSolo_monotone (acts : List SupAction) :
    ∀ (s s2 : SupSys) (i : Nat) (m m2 : Monitor), SoloInv s → s.runSolo acts = some s2 →
      s.monitors[i]? = some m → s2.monitors[i]? = some m2 → m2.alive = true →
      s.ps.proc.restartCount ≤ s2.ps.proc.restartCount := by
  induction acts with
  | nil =>
      intro s s2 i m m2 _ hrun _ _ _
      simp only [SupSys.runSolo, Option.some.injEq] at hrun
      subst hrun
      exact le_refl _
  | cons a rest ih =>
      intro s s2 i m m2 hs hrun hm hm2 hlive
      have hrun0 := hrun
      unfold SupSys.runSolo at hrun
      by_cases ha : s.allows a = true
      · simp only [ha, if_true] at hrun
        cases hst : s.step a with
        | none => simp [hst] at hrun
        | some s1 =>
            simp only [hst] at hrun
            have hmlive : m.alive = true := by
              by_contra hdead
              obtain ⟨m3, hm3, hd3⟩ := runSolo_dead_persists (a :: rest) s s2 i m hrun0 hm
                (by simpa using hdead)
              rw [hm2] at hm3
              cases hm3
              rw [hd3] at hlive
              exact absurd hlive (by decide)
            obtain ⟨hinv1, hmono⟩ := SoloInv_step s a s1 hs ha hst
            obtain ⟨m1, hm1, _⟩ := step_monitor_persists s a s1 i m hst hm
            have hle1 : s.ps.proc.restartCount ≤ s1.ps.proc.restartCount := by
              rcases hmono with h | h
              · exact h
              · have := h m (List.getElem?_mem hm)
                rw [this] at hmlive
                exact absurd hmlive (by decide)
            exact le_trans hle1 (ih s1 s2 i m1 m2 hinv1 hrun hm1 hm2 hlive)
      · simp [ha] at hrun

theorem SoloInv_init (cfg : ServiceConfig) (hint : cfg.MaxRestarts ≤ maxInt64) :
    SoloInv (SupSys.init cfg) :=
  ⟨le_refl _, hint, Nat.zero_le _, fun h => by simp [SupSys.init] at h, Or.inl rfl⟩

theorem SoloInv_bound (s : SupSys) (i : Nat) (m : Monitor) (hs : SoloInv s)
    (hm : s.monitors[i]? = some m) (hlive : m.alive = true) :
    s.ps.proc.restartCount ≤ 0 ∨ s.ps.proc.restartCount ≤ m.cfg.MaxRestarts := by
  obtain ⟨_, _, _, _, h5⟩ := hs
  rcases h5 with h5 | ⟨dones, ml, hmon, hd, hok⟩
  · rw [h5] at hm; simp at hm
  · have hlt : i < (dones ++ [ml]).length := by
      rw [← hmon]
      exact (List.getElem?_eq_some_iff.mp hm).1
    simp only [List.length_append, List.length_singleton] at hlt
    by_cases hi : i < dones.length
    · rw [hmon, List.getElem?_append_left hi] at hm
      rw [hd m (List.getElem?_mem hm)] at hlive
      exact absurd hlive (by decide)
    · have hie : i = dones.length := by omega
      rw [hmon, hie, List.getElem?_append_right (le_refl _)] at hm
      have hmm : ml = m := by simpa using hm
      subst hmm
      exact hok.2.1

/-- C6, as stated, fails in three ways. (1) With `maxRestarts = 3`: the monitor
has counted one restart and sleeps in the restart delay (state `Failed`); an
external `StartService` succeeds and resets `restartCount` from 1 to 0 while
that monitor is still alive and has emitted no `service.failed`. (2) With
`max_restarts: -1`, which `Validate` accepts: right after `StartService` the
monitor is alive, nothing has been emitted but `service.started`, and
`restartCount = 0` exceeds `maxRestarts = -1`. (3) With `maxRestarts = 3`: the
monitor has counted two restarts; `UpdateService` installs a config with
`maxRestarts = 1`; the monitor is alive, has emitted no `service.failed`, and
`restartCount = 2` exceeds the `maxRestarts` now configured. -/
theorem C6_counterexample :
    (∃ s1 s2, (SupSys.init restartCfg).run (startServiceOk 4242 10 ++ firstRestartActs) = some s1 ∧
      s1.run (startServiceOk 4243 12) = some s2 ∧
      s1.monitors = [{ cfg := restartCfg, pc := .sleeping }] ∧
      s2.monitors = [{ cfg := restartCfg, pc := .sleeping }, { cfg := restartCfg, pc := .born }] ∧
      s2.events.map (fun e => e.type) = [.EventServiceStarted, .EventServiceStarted] ∧
      s1.ps.proc.restartCount = 1 ∧ s2.ps.proc.restartCount = 0 ∧
      ¬ s1.ps.proc.restartCount ≤ s2.ps.proc.restartCount) ∧
    (∃ s, (SupSys.init negativeCfg).run (startServiceOk 4242 10 ++ [.mon 0 .readConfig]) = some s ∧
      s.monitors = [{ cfg := negativeCfg, pc := .loopTop }] ∧
      s.events.map (fun e => e.type) = [.EventServiceStarted] ∧
      ¬ s.ps.proc.restartCount ≤ negativeCfg.MaxRestarts) ∧
    (∃ s, (SupSys.init restartCfg).run
        (startServiceOk 4242 10 ++ firstRestartActs ++ monitorRestartActs ++
          secondRestartActs ++ [.updateConfig loweredCfg]) = some s ∧
      s.monitors = [{ cfg := restartCfg, pc := .sleeping }] ∧
      s.events.map (fun e => e.type) = [.EventServiceStarted, .EventServiceRestarted] ∧
      s.ps.proc.restartCount = 2 ∧ s.ps.proc.config.MaxRestarts = 1 ∧
      ¬ s.ps.proc.restartCount ≤ s.ps.proc.config.MaxRestarts) := by
  refine ⟨⟨_, _, rfl, rfl, ?_, ?_, ?_, ?_, ?_, ?_⟩, ⟨_, rfl, ?_, ?_, ?_⟩,
    ⟨_, rfl, ?_, ?_, ?_, ?_, ?_⟩⟩ <;> decide

/-- C6, amended: take any run from the registration of a service through
monitor steps, child exits, `Stop` calls, config updates, the stop broadcast
and external `StartService` calls, in any interleaving, in which an external
`StartService` succeeds only while no monitor is alive (`runSolo`). If monitor
number `i` exists in a state `s1` of the run and is still alive in a later
state `s2`, then `restartCount` has not decreased from `s1` to `s2`, and in
`s2` it does not exceed the larger of 0 and the `MaxRestarts` of the config
that monitor read when it started (so it does not exceed that `MaxRestarts`
when it is not negative). -/
theorem C6_restartCount_monitor_lifetime (cfg : ServiceConfig) (acts1 acts2 : List SupAction)
    (s1 s2 : SupSys) (i : Nat) (m1 m2 : Monitor)
    (hint : cfg.MaxRestarts ≤ maxInt64)
    (h1 : (SupSys.init cfg).runSolo acts1 = some s1)
    (h2 : s1.runSolo acts2 = some s2)
    (hm1 : s1.monitors[i]? = some m1)
    (hm2 : s2.monitors[i]? = some m2) (hlive : m2.alive = true) :
    s1.ps.proc.restartCount ≤ s2.ps.proc.restartCount ∧
    s2.ps.proc.restartCount ≤ max 0 m2.cfg.MaxRestarts ∧
    (0 ≤ m2.cfg.MaxRestarts → s2.ps.proc.restartCount ≤ m2.cfg.MaxRestarts) := by
  have hinv1 := SoloInv_runSolo acts1 _ s1 (SoloInv_init cfg hint) h1
  have hinv2 := SoloInv_runSolo acts2 s1 s2 hinv1 h2
  have hb := SoloInv_bound s2 i m2 hinv2 hm2 hlive
  refine ⟨runSolo_monotone acts2 s1 s2 i m1 m2 hinv1 h2 hm1 hm2 hlive, ?_, ?_⟩
  · rcases hb with hb | hb
    · exact le_trans hb (le_max_left _ _)
    · exact le_trans hb (le_max_right _ _)
  · intro hpos
    rcases hb with hb | hb
    · exact le_trans hb hpos
    · exact hb

/-- C6 at a concrete run: `StartService`, the child fails, the monitor counts
its first restart (state `s1`), then restarts the child itself (state `s2`). -/
theorem C6_restartCount_monitor_lifetime_witness :
    ∃ s1 s2, (SupSys.init restartCfg).runSolo (startServiceOk 4242 10 ++ firstRestartActs) =
        some s1 ∧
      s1.runSolo monitorRestartActs = some s2 ∧
      s2.ps.proc.state = .StateRunning ∧ s2.ps.proc.restartCount = 1 ∧
      s1.ps.proc.restartCount ≤ s2.ps.proc.restartCount ∧
      s2.ps.proc.restartCount ≤ max 0 restartCfg.MaxRestarts ∧
      (0 ≤ restartCfg.MaxRestarts → s2.ps.proc.restartCount ≤ restartCfg.MaxRestarts) :=
  ⟨_, _, rfl, rfl, by decide, by decide,
    C6_restartCount_monitor_lifetime restartCfg (startServiceOk 4242 10 ++ firstRestartActs)
      monitorRestartActs _ _ 0 { cfg := restartCfg, pc := .sleeping }
      { cfg := restartCfg, pc := .loopTop } (by decide) rfl rfl rfl rfl rfl⟩

/-! ### C8, C9, C10: the dependency resolver -/

theorem addEdgeList_append (E1 E2 : List (String × String)) :
    ∀ gd, addEdgeList (E1 ++ E2) gd = addEdgeList E2 (addEdgeList E1 gd) := by
  induction E1 with
  | nil => intro gd; rfl
  | cons e rest ih =>
      intro gd
      obtain ⟨dep, name⟩ := e
      obtain ⟨g, d⟩ := gd
      simp only [List.cons_append, addEdgeList]
      exact ih _

theorem addDeps_eq (name : String) (deps : List String) :
    ∀ gd, addDeps name deps gd = addEdgeList (deps.map (fun dep => (dep, name))) gd := by
  induction deps with
  | nil => intro gd; rfl
  | cons dep rest ih =>
      intro gd
      obtain ⟨g, d⟩ := gd
      simp only [addDeps, List.map_cons, addEdgeList]
      exact ih _

theorem addEdges_eq (it2 : List (String × ServiceConfig)) :
    ∀ gd, addEdges it2 gd = addEdgeList (edgesOf it2) gd := by
  induction it2 with
  | nil => intro gd; rfl
  | cons e rest ih =>
      intro gd
      obtain ⟨name, svc⟩ := e
      simp only [addEdges, edgesOf, List.flatMap_cons, addEdgeList_append]
      rw [ih, addDeps_eq]
      rfl

theorem addEdgeList_spec (E : List (String × String)) :
    ∀ (g : GoMap (List String)) (d : GoMap Int),
      (∀ a, (addEdgeList E (g, d)).1.get a =
        g.get a ++ (E.filter (fun e => decide (e.1 = a))).map Prod.snd) ∧
      (∀ b, (addEdgeList E (g, d)).2.get b =
        d.get b + ((E.countP (fun e => decide (e.2 = b)) : Nat) : Int)) ∧
      ((∀ e ∈ E, e.2 ∈ d.keys) → (addEdgeList E (g, d)).2.keys = d.keys) := by
  induction E with
  | nil => intro g d; simp [addEdgeList]
  | cons e rest ih =>
      intro g d
      obtain ⟨dep, name⟩ := e
      simp only [addEdgeList]
      obtain ⟨ih1, ih2, ih3⟩ :=
        ih (g.set dep (g.get dep ++ [name])) (d.set name (d.get name + 1))
      refine ⟨?_, ?_, ?_⟩
      · intro a
        rw [ih1 a]
        by_cases ha : dep = a
        · subst ha
          simp [GoMap.set, List.filter_cons]
        · have ha2 : ¬ a = dep := fun h => ha h.symm
          simp [GoMap.set, List.filter_cons, ha, ha2]
      · intro b
        rw [ih2 b]
        by_cases hb : name = b
        · subst hb
          simp [GoMap.set, List.countP_cons]
          omega
        · have hb2 : ¬ b = name := fun h => hb h.symm
          simp [GoMap.set, List.countP_cons, hb, hb2]
      · intro hk
        have hname : name ∈ d.keys := hk (dep, name) (List.mem_cons_self _ _)
        have hkeys : (d.set name (d.get name + 1)).keys = d.keys := by
          simp [GoMap.set, hname]
        rw [ih3 (fun e he => by rw [hkeys]; exact hk e (List.mem_cons_of_mem _ he)), hkeys]

theorem initMaps_spec (l : List String) :
    ∀ (g : GoMap (List String)) (d : GoMap Int),
      ((∀ a, g.get a = []) → ∀ a, (initMaps l (g, d)).1.get a = []) ∧
      ((∀ b, d.get b = 0) → ∀ b, (initMaps l (g, d)).2.get b = 0) ∧
      (l.Nodup → (∀ x ∈ l, x ∉ d.keys) → (initMaps l (g, d)).2.keys = d.keys ++ l) := by
  induction l with
  | nil => intro g d; simp [initMaps]
  | cons name rest ih =>
      intro g d
      simp only [initMaps]
      obtain ⟨ih1, ih2, ih3⟩ :=
        ih (if g.has name then g else g.set name [])
          (if d.has name then d else d.set name 0)
      refine ⟨?_, ?_, ?_⟩
      · intro hg
        apply ih1
        intro a
        by_cases hh : g.has name = true
        · simp [hh, hg]
        · simp only [hh]
          by_cases ha : a = name <;> simp [GoMap.set, ha, hg]
      · intro hd
        apply ih2
        intro b
        by_cases hh : d.has name = true
        · simp [hh, hd]
        · simp only [hh]
          by_cases hb : b = name <;> simp [GoMap.set, hb, hd]
      · intro hnd hnot
        have hn : name ∉ d.keys := hnot name (List.mem_cons_self _ _)
        have hhas : d.has name = false := by simp [GoMap.has, hn]
        have hkeys : (if d.has name then d else d.set name 0).keys = d.keys ++ [name] := by
          simp [hhas, GoMap.set, hn]
        rw [List.nodup_cons] at hnd
        rw [ih3 hnd.2 ?_, hkeys]
        · simp
        · intro x hx
          rw [hkeys]
          simp only [List.mem_append, List.mem_singleton, not_or]
          refine ⟨hnot x (List.mem_cons_of_mem _ hx), ?_⟩
          intro hxn
          exact hnd.1 (hxn ▸ hx)

theorem buildMaps_spec (it1 it2 : List (String × ServiceConfig))
    (hnd : (it1.map Prod.fst).Nodup) (hsub : ∀ e ∈ it2, e.1 ∈ it1.map Prod.fst) :
    (∀ a, (buildMaps it1 it2).1.get a =
      ((edgesOf it2).filter (fun e => decide (e.1 = a))).map Prod.snd) ∧
    (∀ b, (buildMaps it1 it2).2.get b =
      (((edgesOf it2).countP (fun e => decide (e.2 = b)) : Nat) : Int)) ∧
    (buildMaps it1 it2).2.keys = it1.map Prod.fst := by
  obtain ⟨i1, i2, i3⟩ := initMaps_spec (it1.map Prod.fst) (GoMap.empty []) (GoMap.empty 0)
  have hg := i1 (fun _ => rfl)
  have hd := i2 (fun _ => rfl)
  have hk := i3 hnd (fun x _ => by simp [GoMap.empty])
  unfold buildMaps
  rw [addEdges_eq]
  generalize initMaps (it1.map Prod.fst) (GoMap.empty [], GoMap.empty 0) = gd0 at hg hd hk ⊢
  obtain ⟨g0, d0⟩ := gd0
  simp only [GoMap.empty, List.nil_append] at hk hg hd
  obtain ⟨e1, e2, e3⟩ := addEdgeList_spec (edgesOf it2) g0 d0
  refine ⟨?_, ?_, ?_⟩
  · intro a
    have := e1 a
    rw [hg a] at this
    simpa using this
  · intro b
    have := e2 b
    rw [hd b] at this
    simpa using this
  · rw [e3 ?_, hk]
    intro e he
    rw [hk]
    simp only [edgesOf, List.mem_flatMap, List.mem_map] at he
    obtain ⟨x, hx, dep, _, hdep⟩ := he
    rw [← hdep]
    exact hsub x hx

theorem relax_spec (l : List String) :
    ∀ (d : GoMap Int) (q : List String),
      (∀ b ∈ l, ((l.count b : Nat) : Int) ≤ d.get b) →
      ∃ pushed, (relax l d q).2 = q ++ pushed ∧
        (∀ b, (relax l d q).1.get b = d.get b - ((l.count b : Nat) : Int)) ∧
        pushed.Nodup ∧
        (∀ b, b ∈ pushed ↔ b ∈ l ∧ d.get b = ((l.count b : Nat) : Int)) := by
  induction l with
  | nil =>
      intro d q _
      exact ⟨[], by simp [relax], by simp [relax], List.nodup_nil, by simp⟩
  | cons x t ih =>
      intro d q hle
      have hx1 : (d.set x (d.get x - 1)).get x = d.get x - 1 := by simp [GoMap.set]
      have hne : ∀ b, b ≠ x → (d.set x (d.get x - 1)).get b = d.get b := by
        intro b hb; simp [GoMap.set, hb]
      have hcx : (x :: t).count x = t.count x + 1 := List.count_cons_self x t
      have hcb : ∀ b, b ≠ x → (x :: t).count b = t.count b := by
        intro b hb
        exact List.count_cons_of_ne hb t
      have hle1 : ∀ b ∈ t, ((t.count b : Nat) : Int) ≤ (d.set x (d.get x - 1)).get b := by
        intro b hb
        have h := hle b (List.mem_cons_of_mem _ hb)
        by_cases hbx : b = x
        · subst hbx
          rw [hx1]; rw [hcx] at h; omega
        · rw [hne b hbx]; rw [hcb b hbx] at h; exact h
      have hxle := hle x (List.mem_cons_self _ _)
      rw [hcx] at hxle
      by_cases hz : (d.set x (d.get x - 1)).get x = 0
      · obtain ⟨pushed, hq, hget, hnd, hmem⟩ := ih (d.set x (d.get x - 1)) (q ++ [x]) hle1
        have hrel : relax (x :: t) d q = relax t (d.set x (d.get x - 1)) (q ++ [x]) := by
          simp only [relax, hz, if_true]
        have hxt : t.count x = 0 := by rw [hx1] at hz; omega
        have hxnt : x ∉ t := List.count_eq_zero.mp hxt
        refine ⟨x :: pushed, ?_, ?_, ?_, ?_⟩
        · rw [hrel, hq]; simp
        · intro b
          rw [hrel, hget b]
          by_cases hbx : b = x
          · subst hbx; rw [hx1, hcx]; omega
          · rw [hne b hbx, hcb b hbx]
        · rw [List.nodup_cons]
          refine ⟨?_, hnd⟩
          intro hxp
          exact hxnt ((hmem x).mp hxp).1
        · intro b
          by_cases hbx : b = x
          · subst hbx
            rw [hx1] at hz
            constructor
            · intro _
              refine ⟨List.mem_cons_self _ _, ?_⟩
              rw [hcx, hxt]; omega
            · intro _
              exact List.mem_cons_self _ _
          · simp only [List.mem_cons, hbx, false_or]
            rw [hmem b, hne b hbx, hcb b hbx]
      · obtain ⟨pushed, hq, hget, hnd, hmem⟩ := ih (d.set x (d.get x - 1)) q hle1
        have hrel : relax (x :: t) d q = relax t (d.set x (d.get x - 1)) q := by
          simp only [relax, hz, if_false]
        refine ⟨pushed, ?_, ?_, hnd, ?_⟩
        · rw [hrel, hq]
        · intro b
          rw [hrel, hget b]
          by_cases hbx : b = x
          · subst hbx; rw [hx1, hcx]; omega
          · rw [hne b hbx, hcb b hbx]
        · intro b
          by_cases hbx : b = x
          · subst hbx
            rw [hmem b, hx1, hcx]
            rw [hx1] at hz
            simp only [List.mem_cons, true_or, true_and]
            constructor
            · rintro ⟨_, h⟩; omega
            · intro h
              have hpos : 0 < t.count b := by omega
              exact ⟨List.count_pos_iff.mp hpos, by omega⟩
          · simp only [List.mem_cons, hbx, false_or]
            rw [hmem b, hne b hbx, hcb b hbx]

theorem count_graph (E : List (String × String)) (a b : String) :
    ((E.filter (fun e => decide (e.1 = a))).map Prod.snd).count b =
      E.countP (fun e => decide (e.1 = a) && decide (e.2 = b)) := by
  induction E with
  | nil => rfl
  | cons e rest ih =>
      by_cases h1 : e.1 = a <;> by_cases h2 : e.2 = b <;>
        simp [List.filter_cons, List.countP_cons, List.count_cons, h1, h2, ih]

theorem countP_remaining (E : List (String × String)) (order : List String) (a b : String)
    (ha : a ∉ order) :
    E.countP (fun e => decide (e.2 = b) && !decide (e.1 ∈ order)) =
      E.countP (fun e => decide (e.2 = b) && !decide (e.1 ∈ order ++ [a])) +
        E.countP (fun e => decide (e.1 = a) && decide (e.2 = b)) := by
  induction E with
  | nil => rfl
  | cons e rest ih =>
      simp only [List.countP_cons, ih]
      by_cases h2 : e.2 = b
      · by_cases h1 : e.1 = a
        · have : e.1 ∉ order := h1 ▸ ha
          simp [h1, h2, ha]
          omega
        · by_cases h3 : e.1 ∈ order
          · simp [h1, h2, h3]
          · simp [h1, h2, h3]; omega
      · simp [h2]

theorem initialQueue_eq (d : GoMap Int) (it3 : List String) :
    initialQueue d it3 = it3.filter (fun n => decide (d.get n = 0)) := by
  induction it3 with
  | nil => rfl
  | cons x rest ih =>
      by_cases h : d.get x = 0 <;> simp [initialQueue, List.filter_cons, h, ih]

theorem KahnInv_init (N : List String) (E : List (String × String)) (d : GoMap Int)
    (it3 : List String) (hnd : it3.Nodup) (hmem : ∀ x, x ∈ it3 ↔ x ∈ N)
    (hd : ∀ b, d.get b = ((E.countP (fun e => decide (e.2 = b)) : Nat) : Int)) :
    KahnInv N E (initialQueue d it3) d [] := by
  rw [initialQueue_eq]
  refine ⟨?_, ?_, ?_, ?_, ?_⟩
  · simpa using hnd.filter _
  · intro x hx
    simp only [List.nil_append, List.mem_filter] at hx
    exact (hmem x).mp hx.1
  · intro b
    rw [hd b]
    simp
  · intro b hb
    simp [List.mem_filter, (hmem b).mpr hb]
  · intro e _ h
    simp at h

theorem KahnInv_step (N : List String) (E : List (String × String)) (graph : GoMap (List String))
    (hg : ∀ a, graph.get a = (E.filter (fun e => decide (e.1 = a))).map Prod.snd)
    (hE : ∀ e ∈ E, e.2 ∈ N)
    (a : String) (rest : List String) (d : GoMap Int) (order : List String)
    (inv : KahnInv N E (a :: rest) d order) :
    KahnInv N E (relax (graph.get a) d rest).2 (relax (graph.get a) d rest).1 (order ++ [a]) := by
  have hnd := inv.nodup
  have ha_order : a ∉ order := by
    intro h
    have := (List.nodup_append.mp hnd).2.2
    exact this h (List.mem_cons_self _ _) 
  have haN : a ∈ N := inv.sub a (by simp)
  have hcount : ∀ b, ((graph.get a).count b : Nat) =
      E.countP (fun e => decide (e.1 = a) && decide (e.2 = b)) := by
    intro b; rw [hg a, count_graph]
  have hsplit : ∀ b, d.get b =
      ((E.countP (fun e => decide (e.2 = b) && !decide (e.1 ∈ order ++ [a])) : Nat) : Int) +
        (((graph.get a).count b : Nat) : Int) := by
    intro b
    rw [inv.deg b, countP_remaining E order a b ha_order, hcount b]
    push_cast
    rfl
  have hle : ∀ b ∈ graph.get a, (((graph.get a).count b : Nat) : Int) ≤ d.get b := by
    intro b _
    rw [hsplit b]
    omega
  obtain ⟨pushed, hq, hget, hpnd, hpmem⟩ := relax_spec (graph.get a) d rest hle
  have hlN : ∀ b ∈ graph.get a, b ∈ N := by
    intro b hb
    rw [hg a] at hb
    simp only [List.mem_map, List.mem_filter] at hb
    obtain ⟨e, ⟨he, _⟩, heb⟩ := hb
    exact heb ▸ hE e he
  have hdeg1 : ∀ b, (relax (graph.get a) d rest).1.get b =
      ((E.countP (fun e => decide (e.2 = b) && !decide (e.1 ∈ order ++ [a])) : Nat) : Int) := by
    intro b
    rw [hget b, hsplit b]
    omega
  have hrearr : (order ++ [a]) ++ (rest ++ pushed) = (order ++ a :: rest) ++ pushed := by
    simp [List.append_assoc]
  have hdisj : ∀ b, b ∈ order ++ a :: rest → b ∈ pushed → False := by
    intro b hb hp
    have hbN := inv.sub b hb
    have h0 := (inv.zero b hbN).mp hb
    obtain ⟨hbl, hbc⟩ := (hpmem b).mp hp
    have hpos : 0 < (graph.get a).count b := List.count_pos_iff.mpr hbl
    omega
  refine ⟨?_, ?_, hdeg1, ?_, ?_⟩
  · rw [hq, hrearr, List.nodup_append]
    exact ⟨hnd, hpnd, fun b hb hp => hdisj b hb hp⟩
  · intro x hx
    rw [hq, hrearr, List.mem_append] at hx
    rcases hx with hx | hx
    · exact inv.sub x hx
    · exact hlN x ((hpmem x).mp hx).1
  · intro b hbN
    rw [hq, hrearr, List.mem_append]
    constructor
    · rintro (hb | hb)
      · have h0 := (inv.zero b hbN).mp hb
        have h1 := hget b
        have h2 := hdeg1 b
        omega
      · have := (hpmem b).mp hb
        rw [hget b]
        omega
    · intro h0
      rw [hget b] at h0
      by_cases hc : (graph.get a).count b = 0
      · left
        apply (inv.zero b hbN).mpr
        omega
      · right
        apply (hpmem b).mpr
        refine ⟨List.count_pos_iff.mp (Nat.pos_of_ne_zero hc), ?_⟩
        omega
  · intro e he h2
    rw [List.mem_append, List.mem_singleton] at h2
    by_cases h2o : e.2 ∈ order
    · obtain ⟨h1, hlt⟩ := inv.before e he h2o
      refine ⟨List.mem_append_left _ h1, ?_⟩
      rw [List.indexOf_append_of_mem h1, List.indexOf_append_of_mem h2o]
      exact hlt
    · have h2a : e.2 = a := by
        rcases h2 with h | h
        · exact absurd h h2o
        · exact h
      have h0 : d.get a = 0 := (inv.zero a haN).mp (by simp)
      rw [inv.deg a] at h0
      have hz : E.countP (fun e => decide (e.2 = a) && !decide (e.1 ∈ order)) = 0 := by
        omega
      rw [List.countP_eq_zero] at hz
      have h1 : e.1 ∈ order := by
        by_contra hcon
        exact hz e he (by simp [h2a, hcon])
      refine ⟨List.mem_append_left _ h1, ?_⟩
      rw [List.indexOf_append_of_mem h1, h2a, List.indexOf_append_of_not_mem ha_order]
      have := List.indexOf_lt_length.mpr h1
      omega

theorem kahnLoop_spec (N : List String) (E : List (String × String)) (graph : GoMap (List String))
    (hg : ∀ a, graph.get a = (E.filter (fun e => decide (e.1 = a))).map Prod.snd)
    (hE : ∀ e ∈ E, e.2 ∈ N) :
    ∀ (fuel : Nat) (queue : List String) (d : GoMap Int) (order : List String),
      KahnInv N E queue d order → fuel + order.length = N.length →
      ∃ res d1, kahnLoop graph fuel queue d order = some res ∧ KahnInv N E [] d1 res := by
  intro fuel
  induction fuel with
  | zero =>
      intro queue d order inv hlen
      cases queue with
      | nil => exact ⟨order, d, by simp [kahnLoop], inv⟩
      | cons a rest =>
          exfalso
          have hsp : (order ++ a :: rest).Subperm N := inv.nodup.subperm inv.sub
          have := hsp.length_le
          simp only [List.length_append, List.length_cons] at this
          omega
  | succ n ih =>
      intro queue d order inv hlen
      cases queue with
      | nil => exact ⟨order, d, by simp [kahnLoop], inv⟩
      | cons a rest =>
          have step := KahnInv_step N E graph hg hE a rest d order inv
          obtain ⟨res, d1, hres, hinv⟩ := ih _ _ _ step (by simp; omega)
          exact ⟨res, d1, by simpa [kahnLoop] using hres, hinv⟩

theorem mem_edgesOf (S it2 : List (String × ServiceConfig)) (h2 : it2.Perm S) (a b : String) :
    (a, b) ∈ edgesOf it2 ↔ Depends S b a := by
  simp only [edgesOf, List.mem_flatMap, List.mem_map, Depends, Prod.mk.injEq]
  constructor
  · rintro ⟨x, hx, dep, hdep, hda, hxb⟩
    refine ⟨x.2, ?_, hda ▸ hdep⟩
    have := h2.mem_iff.mp hx
    rw [← hxb]
    exact this
  · rintro ⟨svc, hmem, ha⟩
    exact ⟨(b, svc), h2.mem_iff.mpr hmem, a, ha, rfl, rfl⟩

/-- What `resolveDependencies` returns, for every iteration order: it returns
(the loop bound is never hit); the order has no repetition and holds only
loaded services; a service in the order has every entry of its `dependsOn` in
the order at a smaller index; and a loaded service whose `dependsOn` entries
are all in the order is in the order. -/
theorem resolveDependencies_returns (S it1 it2 : List (String × ServiceConfig))
    (it3 : List String) (hS : (S.map Prod.fst).Nodup) (hit : IterationOrders S it1 it2 it3) :
    ∃ order, resolveDependencies it1 it2 it3 = some order ∧ order.Nodup ∧
      (∀ x ∈ order, x ∈ S.map Prod.fst) ∧
      (∀ b a, Depends S b a → b ∈ order → a ∈ order ∧ order.indexOf a < order.indexOf b) ∧
      (∀ b ∈ S.map Prod.fst, (∀ a, Depends S b a → a ∈ order) → b ∈ order) := by
  obtain ⟨h1, h2, h3⟩ := hit
  have hp1 : (it1.map Prod.fst).Perm (S.map Prod.fst) := h1.map _
  have hnd1 : (it1.map Prod.fst).Nodup := hp1.nodup_iff.mpr hS
  have hsub : ∀ e ∈ it2, e.1 ∈ it1.map Prod.fst := by
    intro e he
    apply hp1.mem_iff.mpr
    exact List.mem_map_of_mem _ (h2.mem_iff.mp he)
  obtain ⟨hg, hd, hk⟩ := buildMaps_spec it1 it2 hnd1 hsub
  rw [hk] at h3
  have hp3 : it3.Perm (S.map Prod.fst) := h3.trans hp1
  have hE : ∀ e ∈ edgesOf it2, e.2 ∈ S.map Prod.fst := by
    intro e he
    obtain ⟨a, b⟩ := e
    obtain ⟨svc, hmem, _⟩ := (mem_edgesOf S it2 h2 a b).mp he
    exact List.mem_map_of_mem Prod.fst hmem
  have hinit := KahnInv_init (S.map Prod.fst) (edgesOf it2) (buildMaps it1 it2).2 it3
    (hp3.nodup_iff.mpr hS) (fun x => hp3.mem_iff) hd
  obtain ⟨res, d1, hres, hinv⟩ := kahnLoop_spec (S.map Prod.fst) (edgesOf it2)
    (buildMaps it1 it2).1 hg hE it3.length _ _ [] hinit (by simpa using hp3.length_eq)
  refine ⟨res, hres, by simpa using hinv.nodup, fun x hx => hinv.sub x (by simpa using hx), ?_, ?_⟩
  · intro b a hdep hb
    exact hinv.before (a, b) ((mem_edgesOf S it2 h2 a b).mpr hdep) hb
  · intro b hbN hall
    have hz : (edgesOf it2).countP (fun e => decide (e.2 = b) && !decide (e.1 ∈ res)) = 0 := by
      rw [List.countP_eq_zero]
      intro e he hcon
      simp only [Bool.and_eq_true, decide_eq_true_eq, Bool.not_eq_true', decide_eq_false_iff_not]
        at hcon
      obtain ⟨a, b1⟩ := e
      simp only at hcon
      have hdep := (mem_edgesOf S it2 h2 a b1).mp he
      rw [hcon.1] at hdep
      exact hcon.2 (hall a hdep)
    have h0 : d1.get b = 0 := by rw [hinv.deg b, hz]; rfl
    simpa using (hinv.zero b hbN).mpr h0

theorem list_eq_of_three (l : List String) (a b c : String) (hlen : l.length ≤ 3)
    (h0 : l.get? 0 = some a) (h1 : l.get? 1 = some b) (h2 : l.get? 2 = some c) :
    l = [a, b, c] := by
  match l, hlen, h0, h1, h2 with
  | [x, y, z], _, h0, h1, h2 =>
      simp at h0 h1 h2
      simp [h0, h1, h2]
  | [], _, h0, _, _ => simp at h0
  | [_], _, _, h1, _ => simp at h1
  | [_, _], _, _, _, h2 => simp at h2
  | _ :: _ :: _ :: _ :: _, hlen, _, _, _ => simp at hlen

theorem Resolvable_mem_order (S : List (String × ServiceConfig)) (order : List String)
    (hin : ∀ b ∈ S.map Prod.fst, (∀ a, Depends S b a → a ∈ order) → b ∈ order)
    (b : String) (hb : Resolvable S b) : b ∈ order := by
  induction hb with
  | mk b hbN _ ih => exact hin b hbN ih

theorem Resolvable_of_reachable (S : List (String × ServiceConfig)) (b : String)
    (h : ∀ c, Relation.ReflTransGen (Depends S) b c →
      c ∈ S.map Prod.fst ∧ ¬ Relation.TransGen (Depends S) c c) :
    Resolvable S b := by
  let T : Set String := { c | Relation.ReflTransGen (Depends S) b c }
  have hfin : T.Finite :=
    Set.Finite.subset (List.finite_toSet (S.map Prod.fst)) (fun c hc => (h c hc).1)
  haveI : Finite T := hfin.to_subtype
  let r : T → T → Prop := fun x y => Relation.TransGen (Depends S) y.1 x.1
  haveI : IsTrans T r := ⟨fun x y z hxy hyz => Relation.TransGen.trans hyz hxy⟩
  haveI : IsIrrefl T r := ⟨fun x hx => (h x.1 x.2).2 hx⟩
  have wf : WellFounded r := Finite.wellFounded_of_trans_of_irrefl r
  have key : ∀ t : T, Resolvable S t.1 := by
    intro t
    induction t using wf.induction with
    | _ t ih =>
        refine Resolvable.mk t.1 (h t.1 t.2).1 ?_
        intro a hdep
        exact ih ⟨a, Relation.ReflTransGen.tail t.2 hdep⟩ (Relation.TransGen.single hdep)
  exact key ⟨b, Relation.ReflTransGen.refl⟩

theorem before_of_transGen (S : List (String × ServiceConfig)) (order : List String)
    (hbefore : ∀ b a, Depends S b a → b ∈ order →
      a ∈ order ∧ order.indexOf a < order.indexOf b)
    (b a : String) (h : Relation.TransGen (Depends S) b a) (hb : b ∈ order) :
    a ∈ order ∧ order.indexOf a < order.indexOf b := by
  induction h with
  | single hdep => exact hbefore b _ hdep hb
  | tail _ hdep ih =>
      obtain ⟨hc, hlt⟩ := ih
      obtain ⟨ha, hlt2⟩ := hbefore _ _ hdep hc
      exact ⟨ha, lt_trans hlt2 hlt⟩


theorem mapGet_mapSet_self {β : Type} (l : List (String × β)) (k : String) (v : β) :
    mapGet (mapSet l k v) k = some v := by
  induction l with
  | nil => simp [mapSet, mapGet]
  | cons e rest ih =>
      obtain ⟨k1, v1⟩ := e
      by_cases h : k1 = k
      · simp [mapSet, mapGet, h]
      · simp [mapSet, mapGet, h, ih]

theorem mapGet_mapSet_other {β : Type} (l : List (String × β)) (k other : String) (v : β)
    (h : other ≠ k) : mapGet (mapSet l k v) other = mapGet l other := by
  induction l with
  | nil =>
      have : ¬ k = other := fun h2 => h h2.symm
      simp [mapSet, mapGet, this]
  | cons e rest ih =>
      obtain ⟨k1, v1⟩ := e
      by_cases hk : k1 = k
      · subst hk
        have : ¬ k1 = other := fun h2 => h h2.symm
        simp [mapSet, mapGet, this]
      · by_cases ho : k1 = other
        · subst ho
          simp [mapSet, mapGet, hk]
        · simp only [mapSet, mapGet, hk, ho, if_false]
          exact ih

theorem registerAll_other (it0 : List (String × ServiceConfig)) :
    ∀ (m : Manager) (n : String), n ∉ it0.map (fun e => e.2.Name) →
      (m.registerAll it0).getProcess n = m.getProcess n := by
  induction it0 with
  | nil => intro m n _; rfl
  | cons e rest ih =>
      intro m n hn
      obtain ⟨k, svc⟩ := e
      simp only [List.map_cons, List.mem_cons, not_or] at hn
      simp only [Manager.registerAll]
      rw [ih _ n hn.2]
      exact mapGet_mapSet_other m.processes svc.Name n _ hn.1

theorem registerAll_get (it0 : List (String × ServiceConfig)) :
    ∀ (m : Manager), (it0.map (fun e => e.2.Name)).Nodup → ∀ e ∈ it0,
      (m.registerAll it0).getProcess e.2.Name = some (NewProcess e.2) := by
  induction it0 with
  | nil => intro m _ e he; simp at he
  | cons x rest ih =>
      intro m hnd e he
      obtain ⟨k, svc⟩ := x
      simp only [List.map_cons, List.nodup_cons] at hnd
      simp only [Manager.registerAll]
      rcases List.mem_cons.mp he with h | h
      · subst h
        rw [registerAll_other rest _ svc.Name hnd.1]
        exact mapGet_mapSet_self m.processes svc.Name _
      · exact ih _ hnd.2 e h

theorem Start_config (p : Process) (env : StartEnv) : (p.Start env).1.config = p.config := by
  unfold Process.Start Process.startLock
  by_cases hq : p.state = .StateRunning ∨ p.state = .StateStarting
  · simp [hq]
  · simp only [hq, if_false]
    unfold Process.startSpawn
    cases env.spawn <;> simp [Process.setFailed, Process.startCommit]

theorem StartService_autoFlag (m : Manager) (name : String) (env : StartEnv) (n : String) :
    (m.StartService name env).1.autoFlag n = m.autoFlag n := by
  cases hg : m.getProcess name with
  | none => simp [Manager.StartService, hg]
  | some proc =>
      have hc := Start_config proc env
      cases hs : proc.Start env with
      | mk proc1 e =>
          rw [hs] at hc
          simp only at hc
          cases e with
          | some err =>
              have hrun : (m.StartService name env).1 = m.setProcess name proc1 := by
                simp [Manager.StartService, hg, hs]
              rw [hrun]
              by_cases hn : n = name
              · subst hn
                simp only [Manager.autoFlag, getProcess_setProcess_self m n proc1 proc hg, hg, hc]
              · simp only [Manager.autoFlag, getProcess_setProcess_other m name n proc1 hn]
          | none =>
              have hrun : (m.StartService name env).1.getProcess n =
                  (m.setProcess name proc1.ResetRestartCount).getProcess n := by
                simp only [Manager.StartService, hg, hs]
                rfl
              simp only [Manager.autoFlag, hrun]
              by_cases hn : n = name
              · subst hn
                rw [getProcess_setProcess_self m n _ proc hg, hg]
                simp [Process.ResetRestartCount, hc]
              · rw [getProcess_setProcess_other m name n _ hn]

theorem autoStartLoop_calls (env : String → StartEnv) (order : List String) :
    ∀ (m : Manager), (m.autoStartLoop env order).2 = order.filter (fun n => m.autoFlag n) := by
  induction order with
  | nil => intro m; rfl
  | cons name rest ih =>
      intro m
      have hflag : (fun n => (m.StartService name (env name)).1.autoFlag n) =
          (fun n => m.autoFlag n) := by
        funext n
        exact StartService_autoFlag m name (env name) n
      cases hg : m.getProcess name with
      | none =>
          simp only [Manager.autoStartLoop, hg, List.filter_cons, Manager.autoFlag]
          simpa [Manager.autoFlag] using ih m
      | some proc =>
          cases ha : proc.config.AutoStart with
          | true =>
              simp only [Manager.autoStartLoop, hg, ha, if_true, List.filter_cons,
                Manager.autoFlag]
              have := ih (m.StartService name (env name)).1
              rw [hflag] at this
              simpa [Manager.autoFlag] using this
          | false =>
              simp only [Manager.autoStartLoop, hg, ha, List.filter_cons, Manager.autoFlag]
              simpa [Manager.autoFlag] using ih m

/-- C8: for every set of service configs (a map: distinct keys) and every
iteration order of the `range` loops, `resolveDependencies` returns an order
without repetition in which, whenever B lists A in `dependsOn` and B appears,
A appears at a smaller index; the names `LoadAndStart` calls `StartService`
with form a sublist of that order. For the services A, B (depends on A) and
C (depends on B) the order returned is exactly A, B, C for every iteration
order, and so is the sequence of `StartService` calls. -/
theorem C8_dependency_order :
    (∀ (S it0 it1 it2 : List (String × ServiceConfig)) (it3 : List String)
      (m : Manager) (env : String → StartEnv),
      (S.map Prod.fst).Nodup → IterationOrders S it1 it2 it3 →
      ∃ order m1 calls, resolveDependencies it1 it2 it3 = some order ∧ order.Nodup ∧
        (∀ A B, Depends S B A → B ∈ order →
          A ∈ order ∧ order.indexOf A < order.indexOf B) ∧
        m.LoadAndStart it0 it1 it2 it3 env = some (m1, calls) ∧ calls.Sublist order) ∧
    (∀ (it0 it1 it2 : List (String × ServiceConfig)) (it3 : List String)
      (m : Manager) (env : String → StartEnv),
      it0.Perm abcServices → IterationOrders abcServices it1 it2 it3 →
      resolveDependencies it1 it2 it3 = some ["A", "B", "C"] ∧
      (m.LoadAndStart it0 it1 it2 it3 env).map Prod.snd = some ["A", "B", "C"]) := by
  constructor
  · intro S it0 it1 it2 it3 m env hS hit
    obtain ⟨order, hres, hnd, _, hbefore, _⟩ := resolveDependencies_returns S it1 it2 it3 hS hit
    refine ⟨order, ((m.registerAll it0).autoStartLoop env order).1,
      ((m.registerAll it0).autoStartLoop env order).2, hres, hnd,
      fun A B h hB => hbefore B A h hB, ?_, ?_⟩
    · simp [Manager.LoadAndStart, hres]
    · rw [autoStartLoop_calls]
      exact List.filter_sublist _
  · intro it0 it1 it2 it3 m env h0 hit
    have hS : (abcServices.map Prod.fst).Nodup := by decide
    obtain ⟨order, hres, hnd, hsub, hbefore, hin⟩ :=
      resolveDependencies_returns abcServices it1 it2 it3 hS hit
    have hA : "A" ∈ order := hin "A" (by decide) (by
      intro a h
      simp [Depends, abcServices] at h)
    have hBA : Depends abcServices "B" "A" :=
      ⟨{ Name := "B", Command := "b", AutoStart := true, DependsOn := ["A"] },
        by decide, by decide⟩
    have hCB : Depends abcServices "C" "B" :=
      ⟨{ Name := "C", Command := "c", AutoStart := true, DependsOn := ["B"] },
        by decide, by decide⟩
    have hB : "B" ∈ order := hin "B" (by decide) (by
      intro a h
      simp [Depends, abcServices] at h
      rw [h]; exact hA)
    have hC : "C" ∈ order := hin "C" (by decide) (by
      intro a h
      simp [Depends, abcServices] at h
      rw [h]; exact hB)
    have h1 := (hbefore "B" "A" hBA hB).2
    have h2 := (hbefore "C" "B" hCB hC).2
    have h3 := List.indexOf_lt_length.mpr hC
    have hlen : order.length ≤ 3 := by
      have := (hnd.subperm hsub).length_le
      simpa [abcServices] using this
    have iA : order.indexOf "A" = 0 := by omega
    have iB : order.indexOf "B" = 1 := by omega
    have iC : order.indexOf "C" = 2 := by omega
    have gA := List.indexOf_get? hA
    have gB := List.indexOf_get? hB
    have gC := List.indexOf_get? hC
    rw [iA] at gA
    rw [iB] at gB
    rw [iC] at gC
    have horder := list_eq_of_three order "A" "B" "C" hlen gA gB gC
    rw [horder] at hres
    refine ⟨hres, ?_⟩
    have hnames : it0.map (fun e => e.2.Name) = it0.map Prod.fst := by
      apply List.map_congr_left
      intro e he
      have hk : ∀ e ∈ abcServices, e.1 = e.2.Name := by decide
      exact (hk e (h0.mem_iff.mp he)).symm
    have hnd0 : (it0.map (fun e => e.2.Name)).Nodup := by
      rw [hnames]
      exact (h0.map Prod.fst).nodup_iff.mpr hS
    have hflag : ∀ e ∈ abcServices, (m.registerAll it0).autoFlag e.2.Name = true := by
      intro e he
      have hget := registerAll_get it0 m hnd0 e (h0.mem_iff.mpr he)
      have hall : ∀ e ∈ abcServices, e.2.AutoStart = true := by decide
      have hauto : e.2.AutoStart = true := hall e he
      simp [Manager.autoFlag, hget, NewProcess, hauto]
    have fA := hflag _ (show ("A", _) ∈ abcServices from List.mem_cons_self _ _)
    have fB := hflag _ (show ("B", _) ∈ abcServices from
      List.mem_cons_of_mem _ (List.mem_cons_self _ _))
    have fC := hflag _ (show ("C", _) ∈ abcServices from
      List.mem_cons_of_mem _ (List.mem_cons_of_mem _ (List.mem_cons_self _ _)))
    simp only at fA fB fC
    simp only [Manager.LoadAndStart, hres, Option.map_some', autoStartLoop_calls]
    simp [List.filter_cons, fA, fB, fC]

/-- C8 at concrete iteration orders of the services A, B, C. -/
theorem C8_dependency_order_witness :
    resolveDependencies abcServices.reverse abcServices ["C", "A", "B"] =
        some ["A", "B", "C"] ∧
      (({} : Manager).LoadAndStart abcServices abcServices.reverse abcServices
        ["C", "A", "B"] demoEnv).map Prod.snd = some ["A", "B", "C"] :=
  C8_dependency_order.2 abcServices abcServices.reverse abcServices ["C", "A", "B"] {} demoEnv
    (by decide) ⟨by decide, by decide, by decide⟩

/-- C10, as stated, fails: B depends on X, which is not loaded. B lies on no
cycle and depends on none (nothing B reaches lies on a cycle), yet the order
returned is empty, so B does not appear and is not auto-started. -/
theorem C10_counterexample :
    IterationOrders missingDepServices missingDepServices missingDepServices ["B"] ∧
    resolveDependencies missingDepServices missingDepServices ["B"] = some [] ∧
    "B" ∈ missingDepServices.map Prod.fst ∧
    (∀ c, Relation.ReflTransGen (Depends missingDepServices) "B" c →
      ¬ Relation.TransGen (Depends missingDepServices) c c) ∧
    (({} : Manager).LoadAndStart missingDepServices missingDepServices missingDepServices
      ["B"] demoEnv).map Prod.snd = some [] := by
  refine ⟨⟨by decide, by decide, by decide⟩, by decide, by decide, ?_, by decide⟩
  intro c _ hcyc
  have hdep : ∀ b a, Depends missingDepServices b a → b = "B" ∧ a = "X" := by
    intro b a h
    obtain ⟨svc, hmem, ha⟩ := h
    simp only [missingDepServices, List.mem_singleton, Prod.mk.injEq] at hmem
    obtain ⟨hb, hs⟩ := hmem
    subst hs
    simp at ha
    exact ⟨hb, ha⟩
  obtain ⟨y, hcy, _⟩ := Relation.TransGen.head'_iff.mp hcyc
  obtain ⟨z, _, hzc⟩ := Relation.TransGen.tail'_iff.mp hcyc
  have h1 := (hdep c y hcy).1
  have h2 := (hdep z c hzc).2
  rw [h1] at h2
  exact absurd h2 (by decide)

/-- C10, amended: for every set of service configs and every iteration order,
no service that lies on a `dependsOn` cycle (a service that depends on itself
included) appears in the order returned by `resolveDependencies`, and
`LoadAndStart` never calls `StartService` for it; and every loaded service
from which every dependency chain stays inside the loaded services and
reaches no service on a cycle appears in the order. -/
theorem C10_cycles_skipped (S it0 it1 it2 : List (String × ServiceConfig))
    (it3 : List String) (m : Manager) (env : String → StartEnv)
    (hS : (S.map Prod.fst).Nodup) (hit : IterationOrders S it1 it2 it3) :
    ∃ order m1 calls, resolveDependencies it1 it2 it3 = some order ∧
      m.LoadAndStart it0 it1 it2 it3 env = some (m1, calls) ∧
      (∀ b, Relation.TransGen (Depends S) b b → b ∉ order ∧ b ∉ calls) ∧
      (∀ b ∈ S.map Prod.fst,
        (∀ c, Relation.ReflTransGen (Depends S) b c →
          c ∈ S.map Prod.fst ∧ ¬ Relation.TransGen (Depends S) c c) →
        b ∈ order) := by
  obtain ⟨order, hres, _, _, hbefore, hin⟩ := resolveDependencies_returns S it1 it2 it3 hS hit
  refine ⟨order, ((m.registerAll it0).autoStartLoop env order).1,
    ((m.registerAll it0).autoStartLoop env order).2, hres, ?_, ?_, ?_⟩
  · simp [Manager.LoadAndStart, hres]
  · intro b hcyc
    have hno : b ∉ order := by
      intro hb
      exact lt_irrefl _ (before_of_transGen S order hbefore b b hcyc hb).2
    refine ⟨hno, ?_⟩
    rw [autoStartLoop_calls]
    intro hb
    exact hno (List.mem_filter.mp hb).1
  · intro b hb hreach
    exact Resolvable_mem_order S order hin b (Resolvable_of_reachable S b hreach)

/-- C10 at the services A, B and C where B and C depend on each other: only A
is in the order and only A is started. -/
theorem C10_cycles_skipped_witness :
    ∃ order m1 calls, resolveDependencies cycleServices cycleServices ["B", "A", "C"] =
        some order ∧
      ({} : Manager).LoadAndStart cycleServices cycleServices cycleServices ["B", "A", "C"]
        demoEnv = some (m1, calls) ∧
      (∀ b, Relation.TransGen (Depends cycleServices) b b → b ∉ order ∧ b ∉ calls) ∧
      (∀ b ∈ cycleServices.map Prod.fst,
        (∀ c, Relation.ReflTransGen (Depends cycleServices) b c →
          c ∈ cycleServices.map Prod.fst ∧
            ¬ Relation.TransGen (Depends cycleServices) c c) →
        b ∈ order) :=
  C10_cycles_skipped cycleServices cycleServices cycleServices cycleServices ["B", "A", "C"]
    {} demoEnv (by decide) ⟨by decide, by decide, by decide⟩

/-! ### C19, C20: `Validate` -/

/-- The result of `Validate` on a config with name and command, field by
field. -/
theorem Validate_ok (c : ServiceConfig) (hn : c.Name ≠ "") (hc : c.Command ≠ "") :
    c.Validate =
      ({ c with
          MaxRestarts := if c.MaxRestarts = 0 then 5 else c.MaxRestarts
          RestartDelay := if c.RestartDelay = 0 then 5 * Second else c.RestartDelay
          StopSignal := if c.StopSignal = "" then "SIGTERM" else c.StopSignal
          StopTimeout := if c.StopTimeout = 0 then 10 * Second else c.StopTimeout
          LogFile := if c.LogFile = "" then "auto" else c.LogFile }, none) := by
  obtain ⟨n, cmd, args, wd, env, as, ar, mr, rd, ss, st, lf, dep, hcheck⟩ := c
  simp only [ServiceConfig.Validate] at *
  rw [if_neg hn, if_neg hc]
  by_cases h1 : mr = 0 <;> by_cases h2 : rd = 0 <;> by_cases h3 : ss = "" <;>
    by_cases h4 : st = 0 <;> by_cases h5 : lf = "" <;> simp [h1, h2, h3, h4, h5]

/-- C19: `Validate` returns an error exactly when the name or the command is
empty; the error is `ErrMissingName` when the name is empty and
`ErrMissingCommand` when only the command is empty; and a call that returns an
error leaves the config as it was. -/
theorem C19_validate_error (c : ServiceConfig) :
    (c.Validate.2 ≠ none ↔ (c.Name = "" ∨ c.Command = "")) ∧
    (c.Name = "" → c.Validate.2 = some ErrMissingName) ∧
    (c.Name ≠ "" → c.Command = "" → c.Validate.2 = some ErrMissingCommand) ∧
    (c.Validate.2 ≠ none → c.Validate.1 = c) := by
  by_cases hn : c.Name = ""
  · simp [ServiceConfig.Validate, hn]
  · by_cases hc : c.Command = ""
    · simp [ServiceConfig.Validate, hn, hc]
    · simp [Validate_ok c hn hc, hn, hc]

/-- C20: on a config with a name and a command `Validate` succeeds;
`MaxRestarts`, `RestartDelay` and `StopTimeout` become 5, 5 s and 10 s where
they were zero and keep their value where they were not; `StopSignal` and
`LogFile` keep a non-empty value; name, command, args, working directory,
environment, the two auto flags, the dependencies and the health check are
unchanged. -/
theorem C20_validate_defaults (c : ServiceConfig) (hn : c.Name ≠ "") (hc : c.Command ≠ "") :
    c.Validate.2 = none ∧
    (c.MaxRestarts = 0 → c.Validate.1.MaxRestarts = 5) ∧
    (c.MaxRestarts ≠ 0 → c.Validate.1.MaxRestarts = c.MaxRestarts) ∧
    (c.RestartDelay = 0 → c.Validate.1.RestartDelay = 5000000000) ∧
    (c.RestartDelay ≠ 0 → c.Validate.1.RestartDelay = c.RestartDelay) ∧
    (c.StopTimeout = 0 → c.Validate.1.StopTimeout = 10000000000) ∧
    (c.StopTimeout ≠ 0 → c.Validate.1.StopTimeout = c.StopTimeout) ∧
    (c.StopSignal ≠ "" → c.Validate.1.StopSignal = c.StopSignal) ∧
    (c.LogFile ≠ "" → c.Validate.1.LogFile = c.LogFile) ∧
    c.Validate.1.Name = c.Name ∧ c.Validate.1.Command = c.Command ∧
    c.Validate.1.Args = c.Args ∧ c.Validate.1.WorkingDir = c.WorkingDir ∧
    c.Validate.1.Env = c.Env ∧ c.Validate.1.AutoStart = c.AutoStart ∧
    c.Validate.1.AutoRestart = c.AutoRestart ∧ c.Validate.1.DependsOn = c.DependsOn ∧
    c.Validate.1.HealthCheck = c.HealthCheck := by
  rw [Validate_ok c hn hc]
  refine ⟨rfl, ?_, ?_, ?_, ?_, ?_, ?_, ?_, ?_, rfl, rfl, rfl, rfl, rfl, rfl, rfl, rfl, rfl⟩ <;>
    intro h <;> simp [h, Second]

/-- C20 at a config with every defaulted field zero and at one with every such
field set. -/
theorem C20_validate_defaults_witness :
    (bareCfg.Validate.1.MaxRestarts = 5 ∧ bareCfg.Validate.1.RestartDelay = 5000000000 ∧
      bareCfg.Validate.1.StopTimeout = 10000000000) ∧
    fullCfg.Validate.1 = fullCfg :=
  ⟨⟨(C20_validate_defaults bareCfg (by decide) (by decide)).2.1 (by decide),
    (C20_validate_defaults bareCfg (by decide) (by decide)).2.2.2.1 (by decide),
    (C20_validate_defaults bareCfg (by decide) (by decide)).2.2.2.2.2.1 (by decide)⟩,
   by decide⟩

/-! ### C18: `SaveService` then `GetService` -/

/-- `Validate` keeps the name. -/
theorem Validate_name (c : ServiceConfig) : c.Validate.1.Name = c.Name := by
  by_cases hn : c.Name = ""
  · simp [ServiceConfig.Validate, hn]
  · by_cases hc : c.Command = ""
    · simp [ServiceConfig.Validate, hn, hc]
    · rw [Validate_ok c hn hc]

/-- `Validate` returns an error exactly on an empty name or command. -/
theorem Validate_error_iff (c : ServiceConfig) :
    c.Validate.2 = none ↔ (c.Name ≠ "" ∧ c.Command ≠ "") := by
  by_cases hn : c.Name = ""
  · simp [ServiceConfig.Validate, hn]
  · by_cases hc : c.Command = ""
    · simp [ServiceConfig.Validate, hn, hc]
    · simp [Validate_ok c hn hc, hn, hc]

/-- C18: for a config with a name and a command whose file write succeeds,
`SaveService` returns nil and `GetService` on the name then finds the config
with the defaults of `Validate` applied; for a config with an empty name or
command `SaveService` returns an error and leaves index and files as they
were, whatever the write would have done. -/
theorem C18_save_then_get (servicePath : String → String) (l : Loader) (cfg : ServiceConfig) :
    (cfg.Name ≠ "" → cfg.Command ≠ "" →
      (l.SaveService servicePath cfg .written).2.2 = none ∧
      (l.SaveService servicePath cfg .written).1.GetService cfg.Name = some cfg.Validate.1) ∧
    (cfg.Name = "" ∨ cfg.Command = "" → ∀ w : WriteResult,
      (l.SaveService servicePath cfg w).2.2 ≠ none ∧
      (l.SaveService servicePath cfg w).1 = l) := by
  constructor
  · intro hn hc
    have hv : cfg.Validate = (cfg.Validate.1, none) := by
      rw [Validate_ok cfg hn hc]
    have hname := Validate_name cfg
    unfold Loader.SaveService
    rw [hv]
    simp only [Loader.GetService, hname]
    exact ⟨trivial, mapGet_mapSet_self _ _ _⟩
  · intro h w
    have hne : cfg.Validate.2 ≠ none := by
      intro h0
      have := (Validate_error_iff cfg).1 h0
      rcases h with h | h
      · exact this.1 h
      · exact this.2 h
    unfold Loader.SaveService
    rcases hv : cfg.Validate with ⟨c1, e⟩
    rw [hv] at hne
    cases e with
    | none => exact absurd rfl hne
    | some err => simp

/-- C18 on concrete configs: a saved config is found with its defaults, and a
config without a command is refused. -/
theorem C18_save_then_get_witness :
    (emptyLoader.SaveService yamlPath bareCfg .written).1.GetService "web" =
      some { bareCfg with MaxRestarts := 5, RestartDelay := 5000000000, StopSignal := "SIGTERM",
                          StopTimeout := 10000000000, LogFile := "auto" } ∧
    (emptyLoader.SaveService yamlPath noCommandCfg .written).1 = emptyLoader :=
  ⟨((C18_save_then_get yamlPath emptyLoader bareCfg).1 (by decide) (by decide)).2.trans
      (by decide),
   ((C18_save_then_get yamlPath emptyLoader noCommandCfg).2 (Or.inr (by decide)) .written).2⟩

/-! ### C16, C17: `AddService` and `RemoveService` -/

/-- `Validate` changes nothing on a config it has already accepted. -/
theorem Validate_idem (c : ServiceConfig) (h : c.Validate.2 = none) :
    c.Validate.1.Validate = (c.Validate.1, none) := by
  obtain ⟨hn, hc⟩ := (Validate_error_iff c).1 h
  have h1 := Validate_ok c hn hc
  have hn1 : c.Validate.1.Name ≠ "" := by rw [Validate_name]; exact hn
  have hc1 : c.Validate.1.Command ≠ "" := by rw [h1]; exact hc
  rw [Validate_ok _ hn1 hc1, h1]
  obtain ⟨n, cmd, args, wd, env, as, ar, mr, rd, ss, st, lf, dep, hcheck⟩ := c
  by_cases h1 : mr = 0 <;> by_cases h2 : rd = 0 <;> by_cases h3 : ss = "" <;>
    by_cases h4 : st = 0 <;> by_cases h5 : lf = "" <;> simp [h1, h2, h3, h4, h5, Second]

/-- Deleting a key that is not there changes nothing. -/
theorem mapDel_absent {β : Type} (l : List (String × β)) (k : String) (h : mapGet l k = none) :
    mapDel l k = l := by
  induction l with
  | nil => rfl
  | cons e rest ih =>
      obtain ⟨k1, v1⟩ := e
      by_cases hk : k1 = k
      · simp [mapGet, hk] at h
      · simp only [mapGet, hk, if_false] at h
        simp [mapDel, hk, ih h]

/-- Adding a new key and deleting it again gives the map back. -/
theorem mapDel_mapSet {β : Type} (l : List (String × β)) (k : String) (v : β)
    (h : mapGet l k = none) : mapDel (mapSet l k v) k = l := by
  induction l with
  | nil => simp [mapSet, mapDel]
  | cons e rest ih =>
      obtain ⟨k1, v1⟩ := e
      by_cases hk : k1 = k
      · simp [mapGet, hk] at h
      · simp only [mapGet, hk, if_false] at h
        simp [mapSet, mapDel, hk, ih h]

/-- `AddService` on a valid config whose file write succeeds, in one equation. -/
theorem AddService_ok (servicePath : String → String) (m : Manager) (svc : ServiceConfig)
    (hn : svc.Name ≠ "") (hc : svc.Command ≠ "") :
    m.AddService servicePath svc .written =
      (({ m with loader :=
            { services := mapSet m.loader.services svc.Name svc.Validate.1
              files := mapSet m.loader.files (servicePath svc.Name) (.yaml svc.Validate.1) } }
          |>.registerService svc.Validate.1).emitEvent
          { type := .EventServiceAdded, Service := svc.Name, Message := "service added" },
        none) := by
  have hv2 : svc.Validate.2 = none := (Validate_error_iff svc).2 ⟨hn, hc⟩
  have hv : svc.Validate = (svc.Validate.1, none) := Prod.ext rfl hv2
  have hi := Validate_idem svc hv2
  have hname := Validate_name svc
  unfold Manager.AddService
  rw [hv]
  simp only [Loader.SaveService, hi, hname]

/-- C16, the claim fails: the registry holds the service `svc` running with
pid 4242 and a child handle; `AddService` with a valid config of that name
succeeds and leaves under `svc` a process that is `Stopped`, with pid 0 and
without a child handle. -/
theorem C16_counterexample :
    (runningManager.getProcess "svc").map (fun p => (p.state, p.pid, p.cmd)) =
      some (.StateRunning, 4242, some 1) ∧
    (runningManager.AddService yamlPath demoCfg .written).2 = none ∧
    ((runningManager.AddService yamlPath demoCfg .written).1.getProcess "svc").map
      (fun p => (p.state, p.pid, p.cmd)) = some (.StateStopped, 0, none) := by
  decide

/-- C16 (amended): for every registry, also one that holds a running process
under the name, `AddService` with a config that has a name and a command and
whose file write succeeds returns nil and leaves under that name a new
process: its config is the validated config, its state is `Stopped`, pid and
restart count are 0 and it has no child handle. No other entry of the
registry is changed. -/
theorem C16_addService_registers_new (servicePath : String → String) (m : Manager)
    (svc : ServiceConfig) (hn : svc.Name ≠ "") (hc : svc.Command ≠ "") :
    (m.AddService servicePath svc .written).2 = none ∧
    (m.AddService servicePath svc .written).1.getProcess svc.Name =
      some (NewProcess svc.Validate.1) ∧
    (NewProcess svc.Validate.1).state = .StateStopped ∧
    (NewProcess svc.Validate.1).pid = 0 ∧
    (NewProcess svc.Validate.1).restartCount = 0 ∧
    (NewProcess svc.Validate.1).cmd = none ∧
    ∀ other, other ≠ svc.Name →
      (m.AddService servicePath svc .written).1.getProcess other = m.getProcess other := by
  rw [AddService_ok servicePath m svc hn hc]
  refine ⟨rfl, ?_, rfl, rfl, rfl, rfl, ?_⟩
  · simp only [Manager.getProcess, Manager.registerService, Manager.emitEvent, Validate_name]
    exact mapGet_mapSet_self _ _ _
  · intro other ho
    simp only [Manager.getProcess, Manager.registerService, Manager.emitEvent, Validate_name]
    exact mapGet_mapSet_other _ _ _ _ ho

/-- C16 (amended) on the running service `svc`. -/
theorem C16_addService_registers_new_witness :
    (runningManager.AddService yamlPath demoCfg .written).1.getProcess "svc" =
      some (NewProcess demoCfg.Validate.1) :=
  (C16_addService_registers_new yamlPath runningManager demoCfg (by decide) (by decide)).2.1

/-- C17, the claim fails. First: the services directory holds the one file
`x.yaml`, which defines the service `y`; the name `x` is in neither the index
nor the registry; `AddService` of a valid config named `x` and `RemoveService`
of `x` both succeed, and the file that defined `y` is gone. Second: when the
write of the service file fails, `AddService` does not succeed. -/
theorem C17_counterexample :
    ((misnamedManager.loader.GetService "y").isSome = true ∧
      mapGet misnamedManager.loader.services "x" = none ∧
      misnamedManager.getProcess "x" = none ∧
      mapGet misnamedManager.collectors "x" = none ∧
      misnamedManager.loader.files = [(yamlPath "x", .yaml { Name := "y", Command := "run" })] ∧
      (misnamedManager.AddService yamlPath xCfg .written).2 = none ∧
      ((misnamedManager.AddService yamlPath xCfg .written).1.RemoveService yamlPath "x"
        gracefulStop none).2 = none ∧
      ((misnamedManager.AddService yamlPath xCfg .written).1.RemoveService yamlPath "x"
        gracefulStop none).1.loader.files = []) ∧
    (({} : Manager).AddService yamlPath xCfg (.writeErr "no space left on device" none)).2 ≠
      none := by
  decide

/-- C17 (amended): let `x` have a name and a command, let its name be a key of
neither the index nor the registry (processes and collectors), and let no
file exist at the path of its service file. When the file write and the file
removal succeed, `AddService x` and then `RemoveService x.Name` both return
nil, and index, files, processes and collectors are what they were before. -/
theorem C17_add_then_remove (servicePath : String → String) (m : Manager) (x : ServiceConfig)
    (stop : StopEnv) (hn : x.Name ≠ "") (hc : x.Command ≠ "")
    (hidx : mapGet m.loader.services x.Name = none)
    (hfile : mapGet m.loader.files (servicePath x.Name) = none)
    (hproc : mapGet m.processes x.Name = none)
    (hcol : mapGet m.collectors x.Name = none) :
    (m.AddService servicePath x .written).2 = none ∧
    ((m.AddService servicePath x .written).1.RemoveService servicePath x.Name stop none).2 =
      none ∧
    ((m.AddService servicePath x .written).1.RemoveService servicePath x.Name stop none).1.loader
      = m.loader ∧
    ((m.AddService servicePath x .written).1.RemoveService servicePath x.Name stop
      none).1.processes = m.processes ∧
    ((m.AddService servicePath x .written).1.RemoveService servicePath x.Name stop
      none).1.collectors = m.collectors := by
  rw [AddService_ok servicePath m x hn hc]
  have hg : mapGet (mapSet m.processes x.Name (NewProcess x.Validate.1)) x.Name =
      some (NewProcess x.Validate.1) := mapGet_mapSet_self _ _ _
  have hst : ¬ (NewProcess x.Validate.1).state = .StateRunning := by simp [NewProcess]
  simp only [Manager.RemoveService, Manager.getProcess, Manager.registerService,
    Manager.emitEvent, Validate_name, hg, hst, if_false, Loader.RemoveService,
    mapDel_mapSet _ _ _ hidx, mapDel_mapSet _ _ _ hfile, mapDel_mapSet _ _ _ hproc,
    mapDel_mapSet _ _ _ hcol]
  simp

/-- C17 (amended) on the empty store and registry. -/
theorem C17_add_then_remove_witness :
    ((({} : Manager).AddService yamlPath xCfg .written).1.RemoveService yamlPath "x"
      gracefulStop none).1.loader = ({} : Manager).loader :=
  (C17_add_then_remove yamlPath {} xCfg gracefulStop (by decide) (by decide) (by decide)
    (by decide) (by decide) (by decide)).2.2.1

/-! ### C13: what `Stop` has achieved when it returns nil -/

/-- The waiter of a process that is `Stopping` leaves it `Stopped` with pid 0. -/
theorem wait_of_stopping (p : Process) (err : Option WaitError) (t : Nat)
    (hs : p.state = .StateStopping) :
    (p.wait err t).state = .StateStopped ∧ (p.wait err t).pid = 0 := by
  cases err with
  | none => simp [Process.wait]
  | some e =>
      obtain ⟨msg, code⟩ := e
      cases code <;> simp [Process.wait, hs]

/-- C13, the claim fails on the `stopTimeout` branch: `Stop` on a running
process with pid 4242 whose waiter does not finish within `stopTimeout` returns
nil while the state is `Stopping` and the pid is still 4242. -/
theorem C13_counterexample :
    demoRunning.state = .StateRunning ∧ timedOutStop.arm = .timeout ∧
    (demoRunning.Stop timedOutStop).2 = none ∧
    (demoRunning.Stop timedOutStop).1.state = .StateStopping ∧
    (demoRunning.Stop timedOutStop).1.pid = 4242 := by
  decide

/-- C13 (amended): when `Stop` returns nil on the graceful branch, the waiter
has finished: the state is `Stopped` and the pid is 0. When it returns nil on
the `stopTimeout` branch, the waiter has finished or has not: if it has, the
state is `Stopped` and the pid is 0; if it has not, the state is still
`Stopping` and the pid is the one the process had. -/
theorem C13_stop_success (p : Process) (env : StopEnv) (h : (p.Stop env).2 = none) :
    (env.arm = .done →
      env.exited ≠ none ∧ (p.Stop env).1.state = .StateStopped ∧ (p.Stop env).1.pid = 0) ∧
    (env.arm = .timeout →
      (env.exited ≠ none →
        (p.Stop env).1.state = .StateStopped ∧ (p.Stop env).1.pid = 0) ∧
      (env.exited = none →
        (p.Stop env).1.state = .StateStopping ∧ (p.Stop env).1.pid = p.pid)) := by
  unfold Process.Stop at h ⊢
  by_cases hr : p.state = .StateRunning
  · have hl : p.stopLock = .ok { p with state := .StateStopping } := by
      simp [Process.stopLock, hr]
    rw [hl] at h ⊢
    cases hk : env.killErr with
    | some e => simp [hk] at h
    | none =>
        cases hx : env.exited with
        | none =>
            cases ha : env.arm <;> simp [StopEnv.arm, hx] at ha ⊢
        | some x =>
            obtain ⟨err, t⟩ := x
            have hw := wait_of_stopping { p with state := .StateStopping } err t rfl
            cases ha : env.arm <;> simpa using hw
  · have hl : p.stopLock = .error ("service " ++ p.config.Name ++ " is not running (state=" ++
        p.state.toString ++ ")") := by
      simp [Process.stopLock, hr]
    rw [hl] at h
    simp at h

/-- C13 (amended) on a running process: stopped gracefully it is `Stopped`
with pid 0; so it is when the timer arm is taken after the waiter has
finished. -/
theorem C13_stop_success_witness :
    gracefulStop.arm = .done ∧ lateTimeoutStop.arm = .timeout ∧
    ((demoRunning.Stop gracefulStop).1.state = .StateStopped ∧
      (demoRunning.Stop gracefulStop).1.pid = 0) ∧
    ((demoRunning.Stop lateTimeoutStop).1.state = .StateStopped ∧
      (demoRunning.Stop lateTimeoutStop).1.pid = 0) :=
  ⟨by decide, by decide,
    ((C13_stop_success demoRunning gracefulStop (by decide)).1 (by decide)).2,
    ((C13_stop_success demoRunning lateTimeoutStop (by decide)).2 (by decide)).1 (by decide)⟩

/-! ### C14: the registry when `StopAll` returns -/

/-- The last loop of `StopAll` keeps the names and closes every collector. -/
theorem closeAll_spec (l : List (String × Collector)) :
    (closeAll l).map Prod.fst = l.map Prod.fst ∧ ∀ e ∈ closeAll l, e.2.closed = true := by
  induction l with
  | nil => simp [closeAll]
  | cons e rest ih =>
      obtain ⟨name, c⟩ := e
      refine ⟨by simp [closeAll, ih.1], ?_⟩
      intro e1 he1
      simp only [closeAll, List.mem_cons] at he1
      rcases he1 with h1 | h1
      · subst h1
        rfl
      · exact ih.2 e1 h1

/-- C14, the claim fails. First: a process that is inside `Start` (state
`Starting`) when `StopAll` runs is still `Starting` when `StopAll` returns.
Second: a running process whose `Stop` times out is `Stopping` when `StopAll`
returns. Third: a monitor has left its restart delay when `StopAll` closes
the stop channel; the process is `Failed` then, so `StopAll` does not stop it,
and the monitor restarts it afterwards: it is `Running`. The same in the
interleaving model of `StopAll`, on the registry `twoServices` and on
registries of one process: the restart timer of a monitor fires during
`StopAll` (the process is `Running` afterwards); the `stopTimeout` of a `Stop`
fires, or its kill fails, before the waiter has run (`Stopping`); a process is
`Stopping`, or `Starting`, when `StopAll` is called (it stays so). -/
theorem C14_counterexample :
    ((NewProcess demoCfg).startLock = .ok demoStarting ∧
      (({ processes := [("svc", demoStarting)] } : Manager).StopAll
          (fun _ => gracefulStop)).map (fun m => m.getProcess "svc") =
        some (some demoStarting)) ∧
    ((runningManager.getProcess "svc").map (fun p => p.state) = some .StateRunning ∧
      (runningManager.StopAll (fun _ => timedOutStop)).map
          (fun m => (m.getProcess "svc").map (fun p => p.state)) =
        some (some .StateStopping)) ∧
    (((SupSys.init restartCfg).run
          (startServiceOk 4242 10 ++ firstRestartActs ++ [.mon 0 .timer])).map
        (fun s => s.ps.proc.state) = some .StateFailed ∧
      ((SupSys.init restartCfg).run lateStopAllActs).map
        (fun s => (s.stopBroadcast, s.ps.proc.state)) = some (true, .StateRunning)) ∧
    (((StopAllSys.begin twoServices twoCollectors).run timerStopAllActs).map
        (fun s => (s.pc, s.entries.map (fun e => (e.name, e.sys.ps.proc.state)))) =
      some (.returned, [("web", .StateStopped), ("job", .StateRunning)]) ∧
    ((StopAllSys.begin twoServices twoCollectors).run earlyTimeoutActs).map
        (fun s => (s.pc, s.entries.map (fun e => (e.name, e.sys.ps.proc.state)))) =
      some (.returned, [("web", .StateStopping), ("job", .StateFailed)]) ∧
    ((StopAllSys.begin twoServices twoCollectors).run killFailsActs).map
        (fun s => (s.pc, s.entries.map (fun e => (e.name, e.sys.ps.proc.state)))) =
      some (.returned, [("web", .StateStopping), ("job", .StateFailed)]) ∧
    ((StopAllSys.begin [("web", webStopping)] []).runCalm passOverActs).map
        (fun s => (s.pc, s.entries.map (fun e => (e.name, e.sys.ps.proc.state)))) =
      some (.returned, [("web", .StateStopping)]) ∧
    ((StopAllSys.begin [("web", webStarting)] []).runCalm passOverActs).map
        (fun s => (s.pc, s.entries.map (fun e => (e.name, e.sys.ps.proc.state)))) =
      some (.returned, [("web", .StateStarting)])) := by
  refine ⟨⟨rfl, ?_⟩, ⟨?_, ?_⟩, ⟨?_, ?_⟩, ?_, ?_, ?_, ?_, ?_⟩ <;> decide

/-! ### C15: which config the monitor decides from -/

/-- A step of a monitor that is past line 13 keeps the config it holds. -/
theorem monStep_keeps_cfg (s : SupSys) (j : Nat) (mj : Monitor) (a : MonAction) (s1 : SupSys)
    (hst : s.monStep j mj a = some s1) (hpc : mj.pc ≠ .born) :
    ∃ pc1, pc1 ≠ MonitorPc.born ∧ s1.monitors = s.monitors.set j { cfg := mj.cfg, pc := pc1 } := by
  obtain ⟨mcfg, pc⟩ := mj
  cases pc <;> cases a <;> simp only [SupSys.monStep] at hst <;> try (simp at hst; done)
  all_goals (repeat' split at hst)
  all_goals first
    | (simp at hst; done)
    | (exact absurd rfl hpc)
    | (simp only [Option.some.injEq] at hst; subst hst; exact ⟨_, by simp, rfl⟩)

/-- No action changes the config held by a monitor that is past line 13. -/
theorem step_keeps_cfg (s : SupSys) (a : SupAction) (s1 : SupSys) (i : Nat) (m : Monitor)
    (hst : s.step a = some s1) (hm : s.monitors[i]? = some m) (hpc : m.pc ≠ .born) :
    ∃ m1, s1.monitors[i]? = some m1 ∧ m1.cfg = m.cfg ∧ m1.pc ≠ .born := by
  have hlt : i < s.monitors.length := (List.getElem?_eq_some_iff.mp hm).1
  cases a with
  | mon j a =>
      simp only [SupSys.step] at hst
      cases hmj : s.monitors[j]? with
      | none => simp [hmj] at hst
      | some mj =>
          simp only [hmj] at hst
          by_cases hij : j = i
          · subst hij
            rw [hmj] at hm
            cases hm
            obtain ⟨pc1, hpc1, hset⟩ := monStep_keeps_cfg s j m a s1 hst hpc
            refine ⟨{ cfg := m.cfg, pc := pc1 }, ?_, rfl, hpc1⟩
            rw [hset]
            simp [List.getElem?_set, hlt]
          · obtain ⟨m1, hset⟩ := monStep_monitors s j mj a s1 hst
            refine ⟨m, ?_, rfl, hpc⟩
            rw [hset, List.getElem?_set_ne hij]
            exact hm
  | extFinishStart =>
      simp only [SupSys.step] at hst
      repeat' split at hst
      all_goals first
        | (simp at hst; done)
        | (simp only [Option.some.injEq] at hst; subst hst
           exact ⟨m, by simp only []; rw [List.getElem?_append_left hlt]; exact hm, rfl, hpc⟩)
  | _ =>
      simp only [SupSys.step] at hst
      repeat' split at hst
      all_goals first
        | (simp at hst; done)
        | (simp only [Option.some.injEq] at hst; subst hst; exact ⟨m, hm, rfl, hpc⟩)

/-- No run changes the config held by a monitor that is past line 13. -/
theorem run_keeps_cfg (acts : List SupAction) :
    ∀ (s s1 : SupSys) (i : Nat) (m : Monitor), s.run acts = some s1 →
      s.monitors[i]? = some m → m.pc ≠ .born →
      ∃ m1, s1.monitors[i]? = some m1 ∧ m1.cfg = m.cfg ∧ m1.pc ≠ .born := by
  induction acts with
  | nil =>
      intro s s1 i m hrun hm hpc
      simp only [SupSys.run, Option.some.injEq] at hrun
      subst hrun
      exact ⟨m, hm, rfl, hpc⟩
  | cons a rest ih =>
      intro s s1 i m hrun hm hpc
      simp only [SupSys.run] at hrun
      cases hst : s.step a with
      | none => simp [hst] at hrun
      | some s2 =>
          simp only [hst] at hrun
          obtain ⟨m2, hm2, hc2, hpc2⟩ := step_keeps_cfg s a s2 i m hst hm hpc
          obtain ⟨m1, hm1, hc1, hpc1⟩ := ih s2 s1 i m2 hrun hm2 hpc2
          exact ⟨m1, hm1, hc1.trans hc2, hpc1⟩

/-- C15, the claim fails: the service is started with `auto_restart` on and
`max_restarts` 3; while the child runs the config is replaced by one with
`auto_restart` off and `max_restarts` 0; the child exits with status 1. The
monitor does not give up as the new config asks: it counts a restart, starts
the child again and emits `service.restarted`. -/
theorem C15_counterexample :
    ((SupSys.init restartCfg).run updateThenExitActs).map
      (fun s => (s.ps.proc.config.AutoRestart, s.ps.proc.config.MaxRestarts, s.ps.proc.state,
        s.ps.proc.restartCount, s.events.map (fun e => e.type))) =
    some (false, 0, .StateRunning, 1, [.EventServiceStarted, .EventServiceRestarted]) := by
  decide

/-- C15 (amended): whatever happens after a monitor has read its config at
line 13, also an `UpdateConfig` while the child runs, the monitor keeps that
config; at every later exit it decides from the `AutoRestart` and the
`MaxRestarts` of that config whether to restart, and it waits the
`RestartDelay` of that config. -/
theorem C15_monitor_keeps_config (s s1 : SupSys) (acts : List SupAction) (i : Nat) (m : Monitor)
    (hm : s.monitors[i]? = some m) (hpc : m.pc ≠ .born) (hrun : s.run acts = some s1) :
    ∃ m1, s1.monitors[i]? = some m1 ∧ m1.cfg = m.cfg ∧ m1.delay = m.cfg.RestartDelay ∧
      (∀ s2, s1.step (.mon i .readState) = some s2 → s1.ps.proc.state ≠ .StateStopped →
        ∃ m2, s2.monitors[i]? = some m2 ∧
          m2.pc = if m.cfg.AutoRestart then MonitorPc.checkCount else MonitorPc.done true) ∧
      (∀ s2, s1.step (.mon i .checkCount) = some s2 →
        ∃ m2, s2.monitors[i]? = some m2 ∧
          m2.pc = if s1.ps.proc.restartCount ≥ m.cfg.MaxRestarts then MonitorPc.done true
            else MonitorPc.increment) := by
  obtain ⟨m1, hm1, hc1, hpc1⟩ := run_keeps_cfg acts s s1 i m hrun hm hpc
  have hlt : i < s1.monitors.length := (List.getElem?_eq_some_iff.mp hm1).1
  refine ⟨m1, hm1, hc1, by simp [Monitor.delay, hc1], ?_, ?_⟩
  · intro s2 hst hns
    simp only [SupSys.step, hm1] at hst
    obtain ⟨mcfg, pc⟩ := m1
    simp only at hc1
    subst hc1
    cases pc <;> simp only [SupSys.monStep] at hst <;> try contradiction
    rw [if_neg hns] at hst
    cases h2 : m.cfg.AutoRestart
    · simp only [h2, if_true, Option.some.injEq] at hst
      subst hst
      exact ⟨{ cfg := m.cfg, pc := .done true }, by simp [SupSys.emit, SupSys.setMon, hlt], by simp⟩
    · simp only [h2, Bool.true_eq_false, if_false, Option.some.injEq] at hst
      subst hst
      exact ⟨{ cfg := m.cfg, pc := .checkCount }, by simp [SupSys.setMon, hlt], by simp⟩
  · intro s2 hst
    simp only [SupSys.step, hm1] at hst
    obtain ⟨mcfg, pc⟩ := m1
    simp only at hc1
    subst hc1
    cases pc <;> simp only [SupSys.monStep] at hst <;> try contradiction
    by_cases h1 : s1.ps.proc.restartCount ≥ m.cfg.MaxRestarts
    · simp only [h1, if_true, Option.some.injEq] at hst
      subst hst
      exact ⟨{ cfg := m.cfg, pc := .done true }, by simp [SupSys.emit, SupSys.setMon, hlt],
        by simp [h1]⟩
    · simp only [h1, if_false, Option.some.injEq] at hst
      subst hst
      exact ⟨{ cfg := m.cfg, pc := .increment }, by simp [SupSys.setMon, hlt], by simp [h1]⟩

/-- C15 (amended) on the service `restartCfg` whose config is replaced by
`noRestartCfg` while the child runs: the monitor still holds `restartCfg`. -/
theorem C15_monitor_keeps_config_witness :
    updatedSys.ps.proc.config = noRestartCfg ∧
    ∃ m1, updatedSys.monitors[0]? = some m1 ∧ m1.cfg = restartCfg :=
  ⟨by decide,
    (C15_monitor_keeps_config watchedSys updatedSys [.updateConfig noRestartCfg] 0
      { cfg := restartCfg, pc := .loopTop } (by decide) (by decide) (by decide)).imp
      (fun _ h => ⟨h.1, h.2.1⟩)⟩

/-! ### C12: a child that exits with code 0 -/

/-- An invariant of the steps admitted by `ok` holds after every run of such
steps. -/
theorem SupSys.run_preserves (Inv : SupSys → Prop) (ok : SupAction → Prop)
    (hstep : ∀ s a s1, Inv s → ok a → s.step a = some s1 → Inv s1) :
    ∀ (acts : List SupAction) (s s1 : SupSys), Inv s → (∀ a ∈ acts, ok a) →
      s.run acts = some s1 → Inv s1 := by
  intro acts
  induction acts with
  | nil =>
      intro s s1 hs _ hrun
      simp only [SupSys.run, Option.some.injEq] at hrun
      subst hrun
      exact hs
  | cons a rest ih =>
      intro s s1 hs hok hrun
      simp only [SupSys.run] at hrun
      cases hst : s.step a with
      | none => simp [hst] at hrun
      | some s2 =>
          simp only [hst] at hrun
          exact ih s2 s1 (hstep s a s2 hs (hok a (List.mem_cons_self _ _)) hst)
            (fun b hb => hok b (List.mem_cons_of_mem _ hb)) hrun

/-- A run of two lists of actions is the run of the first followed by the run
of the second. -/
theorem SupSys.run_append (l1 l2 : List SupAction) :
    ∀ s : SupSys, s.run (l1 ++ l2) = (s.run l1).bind (fun s1 => s1.run l2) := by
  induction l1 with
  | nil => intro s; rfl
  | cons a rest ih =>
      intro s
      simp only [List.cons_append, SupSys.run]
      cases s.step a with
      | none => rfl
      | some s1 => exact ih s1

/-- The state after one successful `StartService` on a fresh service. -/
theorem CleanInv_start (cfg : ServiceConfig) (pid : Int) (now : Nat) :
    ∃ s, (SupSys.init cfg).run (startServiceOk pid now) = some s ∧ CleanInv cfg s := by
  refine ⟨_, rfl, ?_⟩
  exact
    { events := rfl, count := rfl, config := rfl, doneCh := rfl
      mon := ⟨.born, rfl, Or.inl rfl⟩
      child := Or.inl ⟨rfl, rfl, rfl, rfl⟩ }

/-- The steps of the monitor and of the waiter keep `CleanInv` while the child
exits with code 0. -/
theorem CleanInv_step (cfg : ServiceConfig) (s : SupSys) (a : SupAction) (s1 : SupSys)
    (hinv : CleanInv cfg s) (hok : a.unattended = true ∧ a.exitsClean = true)
    (hst : s.step a = some s1) : CleanInv cfg s1 := by
  obtain ⟨hev, hcount, hconfig, hdone, ⟨pc, hmon, hpc⟩, hchild⟩ := hinv
  obtain ⟨hun, hclean⟩ := hok
  cases a with
  | mon i ma =>
      simp only [SupSys.step, hmon] at hst
      cases i with
      | succ j => simp at hst
      | zero =>
          simp only [List.getElem?_cons_zero] at hst
          rcases hpc with h | h | h | ⟨h | h, hcl⟩ <;> subst h <;> cases ma <;>
            simp only [SupSys.monStep] at hst <;> try contradiction
          · -- born, readConfig
            simp only [Option.some.injEq] at hst
            subst hst
            exact
              { events := hev, count := hcount, config := hconfig, doneCh := hdone
                mon := ⟨.loopTop, by simp [SupSys.setMon, hmon, hconfig], Or.inr (Or.inl rfl)⟩
                child := hchild }
          · -- loopTop, getDoneCh
            simp only [Option.some.injEq] at hst
            subst hst
            exact
              { events := hev, count := hcount, config := hconfig, doneCh := hdone
                mon := ⟨.waitDone (some 2), by simp [SupSys.setMon, hmon, Process.DoneCh, hdone],
                  Or.inr (Or.inr (Or.inl rfl))⟩
                child := hchild }
          · -- waitDone, wake
            by_cases hc : s.ps.chanClosed (some 2) = true
            · simp only [hc, if_true, Option.some.injEq] at hst
              subst hst
              have hcl : s.ps.closed = [2] := by
                rcases hchild with ⟨_, _, _, h4⟩ | ⟨_, _, _, ⟨_, h4⟩ | ⟨_, h4⟩⟩
                · simp [ProcSys.chanClosed, h4] at hc
                · simp [ProcSys.chanClosed, h4] at hc
                · exact h4
              exact
                { events := hev, count := hcount, config := hconfig, doneCh := hdone
                  mon := ⟨.readState, by simp [SupSys.setMon, hmon],
                    Or.inr (Or.inr (Or.inr ⟨Or.inl rfl, hcl⟩))⟩
                  child := hchild }
            · simp [hc] at hst
          · -- readState, readState
            have hstop : s.ps.proc.state = .StateStopped := by
              rcases hchild with ⟨_, _, _, h4⟩ | ⟨h1, _⟩
              · rw [h4] at hcl; simp at hcl
              · exact h1
            simp only [hstop, if_true, Option.some.injEq] at hst
            subst hst
            exact
              { events := hev, count := hcount, config := hconfig, doneCh := hdone
                mon := ⟨.done false, by simp [SupSys.setMon, hmon],
                  Or.inr (Or.inr (Or.inr ⟨Or.inr rfl, hcl⟩))⟩
                child := hchild }
  | waitReap ch err t =>
      cases err with
      | some e => simp [SupAction.exitsClean] at hclean
      | none =>
          simp only [SupSys.step, ProcSys.step] at hst
          by_cases hch : ch ∈ s.ps.waiting
          · simp only [hch, if_true, Option.some.injEq] at hst
            subst hst
            rcases hchild with ⟨h1, h2, h3, h4⟩ | ⟨_, _, h3, _⟩
            · rw [h2] at hch
              simp only [List.mem_singleton] at hch
              subst hch
              exact
                { events := hev
                  count := by simp [Process.wait, hcount]
                  config := by simp [Process.wait, hconfig]
                  doneCh := by simp [Process.wait, hdone]
                  mon := by
                    refine ⟨pc, hmon, ?_⟩
                    rcases hpc with h | h | h | ⟨_, hcl⟩
                    · exact Or.inl h
                    · exact Or.inr (Or.inl h)
                    · exact Or.inr (Or.inr (Or.inl h))
                    · rw [h4] at hcl; simp at hcl
                  child := Or.inr ⟨by simp [Process.wait, h1], by simp [Process.wait],
                    by simp [h2], Or.inl ⟨by simp [h3], h4⟩⟩ }
            · rw [h3] at hch
              simp at hch
          · simp [hch] at hst
  | waitClose ch =>
      simp only [SupSys.step, ProcSys.step] at hst
      by_cases hch : ch ∈ s.ps.reaped
      · simp only [hch, if_true, Option.some.injEq] at hst
        subst hst
        rcases hchild with ⟨_, _, h3, _⟩ | ⟨h1, h2, h3, ⟨h4, h5⟩ | ⟨h4, _⟩⟩
        · rw [h3] at hch; simp at hch
        · rw [h4] at hch
          simp only [List.mem_singleton] at hch
          subst hch
          exact
            { events := hev, count := hcount, config := hconfig, doneCh := hdone
              mon := by
                refine ⟨pc, hmon, ?_⟩
                rcases hpc with h | h | h | ⟨_, hcl⟩
                · exact Or.inl h
                · exact Or.inr (Or.inl h)
                · exact Or.inr (Or.inr (Or.inl h))
                · rw [h5] at hcl; simp at hcl
              child := Or.inr ⟨h1, h2, h3, Or.inr ⟨by simp [h4], by simp [h5]⟩⟩ }
        · rw [h4] at hch; simp at hch
      · simp [hch] at hst
  | _ => simp [SupAction.unattended] at hun

/-- C12, the claim fails: the service is started, its child prints nothing and
exits with code 0, the waiter and the monitor run to their end. The only event
is `service.started`: no `service.stopped` follows. -/
theorem C12_counterexample :
    demoCfg.AutoRestart = false ∧
    ((SupSys.init demoCfg).run (startServiceOk 4242 10 ++ cleanExitActs 11)).map
      (fun s => (s.events.map (fun e => e.type), s.monitors.map (fun m => m.pc),
        s.ps.waiting, s.ps.reaped)) =
    some ([.EventServiceStarted], [.done false], [], []) := by
  decide

/-! ### C11: a service that crashes on every run -/

/-- The state after one successful `StartService` on a fresh service whose
`MaxRestarts` is not negative. -/
theorem CrashInv_start (cfg : ServiceConfig) (pid : Int) (now : Nat) (hk : 0 ≤ cfg.MaxRestarts) :
    ∃ s, (SupSys.init cfg).run (startServiceOk pid now) = some s ∧ CrashInv cfg s := by
  refine ⟨_, rfl, ?_⟩
  exact
    { config := rfl, stop := rfl
      fresh := by intro c hc; exact absurd hc (List.not_mem_nil c)
      mon := ⟨.born, 0, rfl, rfl, rfl, by simpa using hk, 2, rfl, Nat.lt_succ_self 2, rfl,
        Or.inl ⟨rfl, rfl, rfl, List.not_mem_nil 2⟩⟩ }

/-- The event list does not depend on where a monitor that has not returned
stands. -/
theorem crashEvents_alive (cfg : ServiceConfig) (r : Nat) (pc : MonitorPc)
    (h : pc ≠ .done true) :
    crashEvents cfg r pc = startedEvent cfg :: List.replicate r (restartedEvent cfg) := by
  simp [crashEvents, h]

/-- The waiter of a running child that exits with an error leaves `Failed`
and keeps restart count, `doneCh` and config. -/
theorem wait_crash (p : Process) (e : WaitError) (t : Nat) (hs : p.state = .StateRunning) :
    (p.wait (some e) t).state = .StateFailed ∧
    (p.wait (some e) t).restartCount = p.restartCount ∧
    (p.wait (some e) t).doneCh = p.doneCh ∧
    (p.wait (some e) t).config = p.config := by
  obtain ⟨msg, code⟩ := e
  cases code <;> simp [Process.wait, hs]

/-- A step of the monitor keeps `CrashInv`. -/
theorem CrashInv_monStep (cfg : ServiceConfig) (hauto : cfg.AutoRestart = true)
    (hmax : cfg.MaxRestarts ≤ maxInt64) (s : SupSys) (ma : MonAction) (s1 : SupSys)
    (hinv : CrashInv cfg s) (hcr : (SupAction.mon 0 ma).crashes = true)
    (hst : s.step (.mon 0 ma) = some s1) : CrashInv cfg s1 := by
  obtain ⟨hconfig, hstop, hfresh, pc, r, hmon, hev, hph⟩ := hinv
  simp only [SupSys.step, hmon, List.getElem?_cons_zero] at hst
  cases pc <;> cases ma <;> simp only [SupSys.monStep] at hst <;> try contradiction
  case born.readConfig =>
    simp only [Option.some.injEq] at hst
    subst hst
    exact
      { config := hconfig, stop := hstop, fresh := hfresh
        mon := ⟨.loopTop, r, by simp [SupSys.setMon, hmon, hconfig],
          by rw [crashEvents_alive _ _ _ (by simp)] at hev ⊢; exact hev, hph⟩ }
  case loopTop.getDoneCh =>
    simp only [Option.some.injEq] at hst
    subst hst
    obtain ⟨h1, h2, d, hd⟩ := hph
    exact
      { config := hconfig, stop := hstop, fresh := hfresh
        mon := ⟨.waitDone s.ps.proc.DoneCh, r, by simp [SupSys.setMon, hmon],
          by rw [crashEvents_alive _ _ _ (by simp)] at hev ⊢; exact hev,
          h1, h2, d, by simp [Process.DoneCh, hd.1], hd⟩ }
  case waitDone.wake ch =>
    obtain ⟨h1, h2, d, hch, hd1, hd2, hd3, hd⟩ := hph
    subst hch
    by_cases hc : s.ps.chanClosed (some d) = true
    · simp only [hc, if_true, Option.some.injEq] at hst
      subst hst
      have hcl : d ∈ s.ps.closed := by simpa [ProcSys.chanClosed] using hc
      have hdead : s.Dead := by
        rcases hd with ⟨_, _, _, h4⟩ | ⟨_, _, _, h4⟩ | ⟨h5, h6, h7, _⟩
        · exact absurd hcl h4
        · exact absurd hcl h4
        · exact ⟨h5, h6, h7, hd3⟩
      exact
        { config := hconfig, stop := hstop, fresh := hfresh
          mon := ⟨.readState, r, by simp [SupSys.setMon, hmon],
            by rw [crashEvents_alive _ _ _ (by simp)] at hev ⊢; exact hev, h1, h2, hdead⟩ }
    · simp [hc] at hst
  case readState.readState =>
    obtain ⟨h1, h2, hdead⟩ := hph
    have hns : ¬ s.ps.proc.state = .StateStopped := by rw [hdead.1]; decide
    simp only [hns, hauto, if_false, Bool.true_eq_false, Option.some.injEq] at hst
    subst hst
    exact
      { config := hconfig, stop := hstop, fresh := hfresh
        mon := ⟨.checkCount, r, by simp [SupSys.setMon, hmon],
          by rw [crashEvents_alive _ _ _ (by simp)] at hev ⊢; exact hev, h1, h2, hdead⟩ }
  case checkCount.checkCount =>
    obtain ⟨h1, h2, hdead⟩ := hph
    by_cases hge : s.ps.proc.restartCount ≥ cfg.MaxRestarts
    · simp only [hge, if_true, Option.some.injEq] at hst
      subst hst
      exact
        { config := hconfig, stop := hstop, fresh := hfresh
          mon := ⟨.done true, r, by simp [SupSys.setMon, SupSys.emit, hmon],
            by
              rw [crashEvents_alive _ _ _ (by simp)] at hev
              simp [SupSys.setMon, SupSys.emit, hev, crashEvents],
            h1, by omega, hdead⟩ }
    · simp only [hge, if_false, Option.some.injEq] at hst
      subst hst
      exact
        { config := hconfig, stop := hstop, fresh := hfresh
          mon := ⟨.increment, r, by simp [SupSys.setMon, hmon],
            by rw [crashEvents_alive _ _ _ (by simp)] at hev ⊢; exact hev,
            h1, by omega, hdead⟩ }
  case increment.increment =>
    obtain ⟨h1, h2, hdead⟩ := hph
    simp only [ProcSys.step, Option.some.injEq] at hst
    subst hst
    have hw := wrapInt64_succ s.ps.proc.restartCount (by omega) (by omega)
    exact
      { config := hconfig, stop := hstop, fresh := hfresh
        mon := ⟨.sleeping, r, by simp [SupSys.setMon, hmon],
          by rw [crashEvents_alive _ _ _ (by simp)] at hev ⊢; exact hev,
          by
            show wrapInt64 (s.ps.proc.restartCount + 1) = (r : Int) + 1
            rw [hw, h1],
          h2, hdead⟩ }
  case sleeping.timer =>
    simp only [Option.some.injEq] at hst
    subst hst
    exact
      { config := hconfig, stop := hstop, fresh := hfresh
        mon := ⟨.startLock, r, by simp [SupSys.setMon, hmon],
          by rw [crashEvents_alive _ _ _ (by simp)] at hev ⊢; exact hev, hph⟩ }
  case sleeping.stopSignal =>
    simp [hstop] at hst
  case startLock.startLock =>
    obtain ⟨h1, h2, hf, hw, hr, hs⟩ := hph
    have hl : s.ps.proc.startLock = .ok { s.ps.proc with state := .StateStarting } := by
      simp [Process.startLock, hf]
    simp only [ProcSys.step, hl, Option.some.injEq] at hst
    subst hst
    exact
      { config := hconfig, stop := hstop, fresh := hfresh
        mon := ⟨.spawning, r, by simp [SupSys.setMon, hmon],
          by rw [crashEvents_alive _ _ _ (by simp)] at hev ⊢; exact hev,
          h1, h2, rfl, hw, hr, by show s.ps.starting + 1 = 1; rw [hs]⟩ }
  case spawning.spawn res now =>
    obtain ⟨h1, h2, hf, hw, hr, hs⟩ := hph
    cases res with
    | started pid =>
        have hne : ¬ s.ps.starting = 0 := by rw [hs]; decide
        simp only [ProcSys.step, hne, if_false, spawnError_started, Option.some.injEq] at hst
        subst hst
        refine
          { config := hconfig, stop := hstop
            fresh := fun c hc => Nat.lt_of_lt_of_le (hfresh c hc) (Nat.le_add_right _ _)
            mon := ⟨.loopTop, r + 1, by simp [SupSys.setMon, SupSys.emit, hmon], ?_, ?_⟩ }
        · rw [crashEvents_alive _ _ _ (by simp)] at hev ⊢
          simp [SupSys.setMon, SupSys.emit, hev, List.replicate_succ', restartedEvent]
        · refine ⟨?_, ?_, s.ps.next + 2, rfl, ?_, ?_, Or.inl ⟨rfl, ?_, hr, ?_⟩⟩
          · show s.ps.proc.restartCount = ((r + 1 : Nat) : Int)
            rw [h1]; push_cast; rfl
          · push_cast; omega
          · show s.ps.next + 2 < s.ps.next + 3
            omega
          · show s.ps.starting - 1 = 0
            rw [hs]
          · show s.ps.waiting ++ [s.ps.next + 2] = [s.ps.next + 2]
            rw [hw]; rfl
          · intro hmem
            have := hfresh _ hmem
            omega
    | stdoutPipeErr e => simp [SupAction.crashes] at hcr
    | stderrPipeErr e => simp [SupAction.crashes] at hcr
    | startErr e => simp [SupAction.crashes] at hcr

/-- While a child is waited for or its `doneCh` is about to be closed, the
monitor stands before or in its receive from that `doneCh`. -/
theorem CrashPhase_watching (k : Int) (s : SupSys) (r : Nat) (pc : MonitorPc)
    (hph : CrashPhase k s r pc) (h : s.ps.waiting ≠ [] ∨ s.ps.reaped ≠ []) :
    s.ps.proc.restartCount = r ∧ (r : Int) ≤ k ∧ pc ≠ .done true ∧ ∃ d, s.Watched d ∧
      ∀ s1 : SupSys, s1.ps.proc.restartCount = s.ps.proc.restartCount → s1.Watched d →
        CrashPhase k s1 r pc := by
  cases pc with
  | born =>
      obtain ⟨h1, h2, d, hd⟩ := hph
      exact ⟨h1, h2, by simp, d, hd, fun s1 e1 e2 => ⟨e1.trans h1, h2, d, e2⟩⟩
  | loopTop =>
      obtain ⟨h1, h2, d, hd⟩ := hph
      exact ⟨h1, h2, by simp, d, hd, fun s1 e1 e2 => ⟨e1.trans h1, h2, d, e2⟩⟩
  | waitDone ch =>
      obtain ⟨h1, h2, d, hch, hd⟩ := hph
      exact ⟨h1, h2, by simp, d, hd, fun s1 e1 e2 => ⟨e1.trans h1, h2, d, hch, e2⟩⟩
  | readState => obtain ⟨_, _, _, hw, hr, _⟩ := hph; simp [hw, hr] at h
  | checkCount => obtain ⟨_, _, _, hw, hr, _⟩ := hph; simp [hw, hr] at h
  | increment => obtain ⟨_, _, _, hw, hr, _⟩ := hph; simp [hw, hr] at h
  | sleeping => obtain ⟨_, _, _, hw, hr, _⟩ := hph; simp [hw, hr] at h
  | startLock => obtain ⟨_, _, _, hw, hr, _⟩ := hph; simp [hw, hr] at h
  | spawning => obtain ⟨_, _, _, hw, hr, _⟩ := hph; simp [hw, hr] at h
  | done b =>
      cases b with
      | true => obtain ⟨_, _, _, hw, hr, _⟩ := hph; simp [hw, hr] at h
      | false => exact absurd hph (by simp [CrashPhase])

/-- Every step of the monitor and of the waiters keeps `CrashInv` while every
spawn succeeds and every child exits with an error. -/
theorem CrashInv_step (cfg : ServiceConfig) (hauto : cfg.AutoRestart = true)
    (hmax : cfg.MaxRestarts ≤ maxInt64) (s : SupSys) (a : SupAction) (s1 : SupSys)
    (hinv : CrashInv cfg s) (hok : a.unattended = true ∧ a.crashes = true)
    (hst : s.step a = some s1) : CrashInv cfg s1 := by
  obtain ⟨hun, hcr⟩ := hok
  cases a with
  | mon i ma =>
      cases i with
      | zero => exact CrashInv_monStep cfg hauto hmax s ma s1 hinv hcr hst
      | succ j =>
          obtain ⟨_, _, _, pc, r, hmon, _, _⟩ := hinv
          simp [SupSys.step, hmon] at hst
  | waitReap ch err t =>
      obtain ⟨hconfig, hstop, hfresh, pc, r, hmon, hev, hph⟩ := hinv
      cases err with
      | none => simp [SupAction.crashes] at hcr
      | some e =>
          simp only [SupSys.step, ProcSys.step] at hst
          by_cases hch : ch ∈ s.ps.waiting
          · simp only [hch, if_true, Option.some.injEq] at hst
            subst hst
            have hne : s.ps.waiting ≠ [] := List.ne_nil_of_mem hch
            obtain ⟨h1, h2, hpc, d, ⟨hd1, hd2, hd3, hd⟩, hback⟩ :=
              CrashPhase_watching _ s r pc hph (Or.inl hne)
            rcases hd with ⟨h5, h6, h7, h8⟩ | ⟨_, h6, _, _⟩ | ⟨_, h6, _, _⟩
            · rw [h6] at hch
              simp only [List.mem_singleton] at hch
              subst hch
              have hwc := wait_crash s.ps.proc e t h5
              exact
                { config := hwc.2.2.2.trans hconfig, stop := hstop, fresh := hfresh
                  mon := ⟨pc, r, hmon, hev, hback _ hwc.2.1
                    ⟨hwc.2.2.1.trans hd1, hd2, hd3,
                      Or.inr (Or.inl ⟨hwc.1, by simp [h6], by simp [h7], h8⟩)⟩⟩ }
            · exact absurd h6 hne
            · exact absurd h6 hne
          · simp [hch] at hst
  | waitClose ch =>
      obtain ⟨hconfig, hstop, hfresh, pc, r, hmon, hev, hph⟩ := hinv
      simp only [SupSys.step, ProcSys.step] at hst
      by_cases hch : ch ∈ s.ps.reaped
      · simp only [hch, if_true, Option.some.injEq] at hst
        subst hst
        have hne : s.ps.reaped ≠ [] := List.ne_nil_of_mem hch
        obtain ⟨h1, h2, hpc, d, ⟨hd1, hd2, hd3, hd⟩, hback⟩ :=
          CrashPhase_watching _ s r pc hph (Or.inr hne)
        rcases hd with ⟨_, _, h7, _⟩ | ⟨h5, h6, h7, h8⟩ | ⟨_, _, h7, _⟩
        · exact absurd h7 hne
        · rw [h7] at hch
          simp only [List.mem_singleton] at hch
          subst hch
          exact
            { config := hconfig, stop := hstop
              fresh := by
                intro c hc
                have hc1 : c ∈ s.ps.closed ++ [ch] := hc
                rcases List.mem_append.1 hc1 with h | h
                · exact hfresh c h
                · rw [List.mem_singleton.1 h]; exact hd2
              mon := ⟨pc, r, hmon, hev, hback _ rfl
                ⟨hd1, hd2, hd3, Or.inr (Or.inr ⟨h5, h6, by simp [h7],
                  by show ch ∈ s.ps.closed ++ [ch]; simp⟩)⟩⟩ }
        · exact absurd h7 hne
      · simp [hch] at hst
  | _ => simp [SupAction.unattended] at hun

/-- The length of the event list. -/
theorem crashEvents_length (cfg : ServiceConfig) (r : Nat) (pc : MonitorPc) :
    (crashEvents cfg r pc).length = r + 1 + (if pc = .done true then 1 else 0) := by
  by_cases h : pc = .done true <;> simp [crashEvents, h]

/-- Every step of the monitor lowers `crashMeasure`. -/
theorem crashMeasure_monStep (cfg : ServiceConfig) (K : Nat) (hK : (K : Int) = cfg.MaxRestarts)
    (hauto : cfg.AutoRestart = true)
    (s : SupSys) (ma : MonAction) (s1 : SupSys)
    (hinv : CrashInv cfg s) (hcr : (SupAction.mon 0 ma).crashes = true)
    (hst : s.step (.mon 0 ma) = some s1) : crashMeasure K s1 < crashMeasure K s := by
  obtain ⟨hconfig, hstop, hfresh, pc, r, hmon, hev, hph⟩ := hinv
  have hlen := crashEvents_length cfg r pc
  rw [← hev] at hlen
  simp only [SupSys.step, hmon, List.getElem?_cons_zero] at hst
  cases pc <;> cases ma <;> simp only [SupSys.monStep] at hst <;> try contradiction
  case born.readConfig =>
    simp only [Option.some.injEq] at hst
    subst hst
    simp [crashMeasure, SupSys.setMon, hmon, pcRank]
  case loopTop.getDoneCh =>
    simp only [Option.some.injEq] at hst
    subst hst
    simp [crashMeasure, SupSys.setMon, hmon, pcRank]
  case waitDone.wake ch =>
    by_cases hc : s.ps.chanClosed ch = true
    · simp only [hc, if_true, Option.some.injEq] at hst
      subst hst
      simp [crashMeasure, SupSys.setMon, hmon, pcRank]
    · simp [hc] at hst
  case readState.readState =>
    obtain ⟨h1, h2, hdead⟩ := hph
    have hns : ¬ s.ps.proc.state = .StateStopped := by rw [hdead.1]; decide
    simp only [hns, hauto, if_false, Bool.true_eq_false, Option.some.injEq] at hst
    subst hst
    simp [crashMeasure, SupSys.setMon, hmon, pcRank]
  case checkCount.checkCount =>
    by_cases hge : s.ps.proc.restartCount ≥ cfg.MaxRestarts
    · simp only [hge, if_true, Option.some.injEq] at hst
      subst hst
      simp only [crashMeasure, SupSys.setMon, SupSys.emit, hmon, pcRank, List.set_cons_zero,
        List.length_append, List.length_singleton]
      simp at hlen
      omega
    · simp only [hge, if_false, Option.some.injEq] at hst
      subst hst
      simp [crashMeasure, SupSys.setMon, hmon, pcRank]
  case increment.increment =>
    simp only [ProcSys.step, Option.some.injEq] at hst
    subst hst
    simp [crashMeasure, SupSys.setMon, hmon, pcRank]
  case sleeping.timer =>
    simp only [Option.some.injEq] at hst
    subst hst
    simp [crashMeasure, SupSys.setMon, hmon, pcRank]
  case sleeping.stopSignal =>
    simp [hstop] at hst
  case startLock.startLock =>
    obtain ⟨h1, h2, hf, hw, hr, hs⟩ := hph
    have hl : s.ps.proc.startLock = .ok { s.ps.proc with state := .StateStarting } := by
      simp [Process.startLock, hf]
    simp only [ProcSys.step, hl, Option.some.injEq] at hst
    subst hst
    simp [crashMeasure, SupSys.setMon, hmon, pcRank]
  case spawning.spawn res now =>
    obtain ⟨h1, h2, hf, hw, hr, hs⟩ := hph
    cases res with
    | started pid =>
        have hne : ¬ s.ps.starting = 0 := by rw [hs]; decide
        simp only [ProcSys.step, hne, if_false, spawnError_started, Option.some.injEq] at hst
        subst hst
        simp only [crashMeasure, SupSys.setMon, SupSys.emit, hmon, pcRank, List.set_cons_zero,
          List.length_append, List.length_singleton, hw, hr, List.length_nil]
        simp at hlen
        omega
    | stdoutPipeErr e => simp [SupAction.crashes] at hcr
    | stderrPipeErr e => simp [SupAction.crashes] at hcr
    | startErr e => simp [SupAction.crashes] at hcr

/-- Every step of the monitor and of the waiters lowers `crashMeasure`. -/
theorem crashMeasure_step (cfg : ServiceConfig) (K : Nat) (hK : (K : Int) = cfg.MaxRestarts)
    (hauto : cfg.AutoRestart = true) (s : SupSys) (a : SupAction) (s1 : SupSys)
    (hinv : CrashInv cfg s) (hok : a.unattended = true ∧ a.crashes = true)
    (hst : s.step a = some s1) : crashMeasure K s1 < crashMeasure K s := by
  obtain ⟨hun, hcr⟩ := hok
  cases a with
  | mon i ma =>
      cases i with
      | zero => exact crashMeasure_monStep cfg K hK hauto s ma s1 hinv hcr hst
      | succ j =>
          obtain ⟨_, _, _, pc, r, hmon, _, _⟩ := hinv
          simp [SupSys.step, hmon] at hst
  | waitReap ch err t =>
      simp only [SupSys.step, ProcSys.step] at hst
      by_cases hch : ch ∈ s.ps.waiting
      · simp only [hch, if_true, Option.some.injEq] at hst
        subst hst
        have h1 := List.length_erase_of_mem hch
        have h2 : 0 < s.ps.waiting.length := List.length_pos_of_mem hch
        simp only [crashMeasure, List.length_append, List.length_singleton, h1]
        omega
      · simp [hch] at hst
  | waitClose ch =>
      simp only [SupSys.step, ProcSys.step] at hst
      by_cases hch : ch ∈ s.ps.reaped
      · simp only [hch, if_true, Option.some.injEq] at hst
        subst hst
        have h1 := List.length_erase_of_mem hch
        have h2 : 0 < s.ps.reaped.length := List.length_pos_of_mem hch
        simp only [crashMeasure, h1]
        omega
      · simp [hch] at hst
  | _ => simp [SupAction.unattended] at hun

/-- While the monitor has not returned, the monitor or a waiter can take a
step. -/
theorem CrashInv_progress (cfg : ServiceConfig) (s : SupSys) (pc : MonitorPc)
    (hinv : CrashInv cfg s) (hmon : s.monitors = [{ cfg := cfg, pc := pc }])
    (hpc : pc ≠ .done true) :
    ∃ a, a.unattended = true ∧ a.crashes = true ∧ (s.step a).isSome = true := by
  obtain ⟨hconfig, hstop, hfresh, pc1, r, hmon1, hev, hph⟩ := hinv
  rw [hmon] at hmon1
  simp only [List.cons.injEq, Monitor.mk.injEq, true_and, and_true] at hmon1
  subst hmon1
  cases pc with
  | born =>
      exact ⟨.mon 0 .readConfig, rfl, rfl, by simp [SupSys.step, hmon, SupSys.monStep]⟩
  | loopTop =>
      exact ⟨.mon 0 .getDoneCh, rfl, rfl, by simp [SupSys.step, hmon, SupSys.monStep]⟩
  | waitDone ch =>
      obtain ⟨h1, h2, d, hch, hd1, hd2, hd3, hd⟩ := hph
      subst hch
      rcases hd with ⟨_, h6, _, _⟩ | ⟨_, _, h7, _⟩ | ⟨_, _, _, h8⟩
      · exact ⟨.waitReap d (some exitStatus1) 0, rfl, rfl,
          by simp [SupSys.step, ProcSys.step, h6]⟩
      · exact ⟨.waitClose d, rfl, rfl, by simp [SupSys.step, ProcSys.step, h7]⟩
      · exact ⟨.mon 0 .wake, rfl, rfl,
          by simp [SupSys.step, hmon, SupSys.monStep, ProcSys.chanClosed, h8]⟩
  | readState =>
      refine ⟨.mon 0 .readState, rfl, rfl, ?_⟩
      simp only [SupSys.step, hmon, List.getElem?_cons_zero, SupSys.monStep]
      repeat' split
      all_goals rfl
  | checkCount =>
      refine ⟨.mon 0 .checkCount, rfl, rfl, ?_⟩
      simp only [SupSys.step, hmon, List.getElem?_cons_zero, SupSys.monStep]
      repeat' split
      all_goals rfl
  | increment =>
      exact ⟨.mon 0 .increment, rfl, rfl,
        by simp [SupSys.step, hmon, SupSys.monStep, ProcSys.step]⟩
  | sleeping =>
      exact ⟨.mon 0 .timer, rfl, rfl, by simp [SupSys.step, hmon, SupSys.monStep]⟩
  | startLock =>
      obtain ⟨h1, h2, hf, hw, hr, hs⟩ := hph
      have hl : s.ps.proc.startLock = .ok { s.ps.proc with state := .StateStarting } := by
        simp [Process.startLock, hf]
      exact ⟨.mon 0 .startLock, rfl, rfl,
        by simp [SupSys.step, hmon, SupSys.monStep, ProcSys.step, hl]⟩
  | spawning =>
      obtain ⟨h1, h2, hf, hw, hr, hs⟩ := hph
      exact ⟨.mon 0 (.spawn (.started 1) 0), rfl, rfl,
        by simp [SupSys.step, hmon, SupSys.monStep, ProcSys.step, hs, spawnError_started]⟩
  | done b =>
      cases b with
      | true => exact absurd rfl hpc
      | false => exact absurd hph (by simp [CrashPhase])

/-- At every point of the monitor the number of restarts so far is at most
`MaxRestarts`. -/
theorem CrashPhase_le (k : Int) (s : SupSys) (r : Nat) (pc : MonitorPc)
    (hph : CrashPhase k s r pc) : (r : Int) ≤ k := by
  cases pc with
  | done b =>
      cases b with
      | true => exact le_of_eq hph.2.1
      | false => exact absurd hph (by simp [CrashPhase])
  | born => exact hph.2.1
  | loopTop => exact hph.2.1
  | waitDone ch => exact hph.2.1
  | readState => exact hph.2.1
  | checkCount => exact hph.2.1
  | increment => exact le_of_lt hph.2.1
  | sleeping => exact le_of_lt hph.2.1
  | startLock => exact le_of_lt hph.2.1
  | spawning => exact le_of_lt hph.2.1

/-- A run of the monitor and the waiters of a crashing service keeps
`CrashInv`, and its length is bounded by the decrease of `crashMeasure`. -/
theorem CrashInv_run (cfg : ServiceConfig) (K : Nat) (hK : (K : Int) = cfg.MaxRestarts)
    (hauto : cfg.AutoRestart = true) (hmax : cfg.MaxRestarts ≤ maxInt64)
    (acts : List SupAction) :
    ∀ s s1 : SupSys, CrashInv cfg s →
      (∀ a ∈ acts, a.unattended = true ∧ a.crashes = true) → s.run acts = some s1 →
      CrashInv cfg s1 ∧ acts.length + crashMeasure K s1 ≤ crashMeasure K s := by
  induction acts with
  | nil =>
      intro s s1 hs _ hrun
      simp only [SupSys.run, Option.some.injEq] at hrun
      subst hrun
      exact ⟨hs, by simp⟩
  | cons a rest ih =>
      intro s s1 hs hok hrun
      simp only [SupSys.run] at hrun
      cases hst : s.step a with
      | none => simp [hst] at hrun
      | some s2 =>
          simp only [hst] at hrun
          have ha := hok a (List.mem_cons_self _ _)
          have h2 := CrashInv_step cfg hauto hmax s a s2 hs ha hst
          have hm := crashMeasure_step cfg K hK hauto s a s2 hs ha hst
          obtain ⟨h3, h4⟩ := ih s2 s1 h2 (fun b hb => hok b (List.mem_cons_of_mem _ hb)) hrun
          refine ⟨h3, ?_⟩
          simp only [List.length_cons]
          omega

/-- C11: a fresh service with `auto_restart` on and `max_restarts = k`,
`1 ≤ k` (a Go `int`), is started; afterwards nothing acts but its monitor and
its waiters, every spawn succeeds and every child exits with a non-zero code.
Then in every interleaving: the events so far are `service.started`, then
`r ≤ k` times `service.restarted`, then `service.failed` exactly when the
monitor has returned; the run has at most `16 k + 15` steps and can go on
until the monitor has returned; and when the monitor has returned, `r = k`,
the restart count is `k` and the state is `Failed`. -/
theorem C11_crash_loop (cfg : ServiceConfig) (pid : Int) (now : Nat) (acts : List SupAction)
    (s : SupSys) (hauto : cfg.AutoRestart = true) (hk : 1 ≤ cfg.MaxRestarts)
    (hmax : cfg.MaxRestarts ≤ maxInt64)
    (hacts : ∀ a ∈ acts, a.unattended = true ∧ a.crashes = true)
    (hrun : (SupSys.init cfg).run (startServiceOk pid now ++ acts) = some s) :
    ∃ (pc : MonitorPc) (r : Nat), s.monitors = [{ cfg := cfg, pc := pc }] ∧
      (r : Int) ≤ cfg.MaxRestarts ∧
      s.events = startedEvent cfg :: (List.replicate r (restartedEvent cfg) ++
        if pc = .done true then [failedEvent cfg "exceeded max restarts"] else []) ∧
      acts.length ≤ 16 * cfg.MaxRestarts.toNat + 15 ∧
      (pc ≠ .done true →
        ∃ a s1, a.unattended = true ∧ a.crashes = true ∧ s.step a = some s1) ∧
      (pc = .done true →
        (r : Int) = cfg.MaxRestarts ∧ s.ps.proc.restartCount = cfg.MaxRestarts ∧
        s.ps.proc.state = .StateFailed) := by
  have hK : ((cfg.MaxRestarts.toNat : Nat) : Int) = cfg.MaxRestarts :=
    Int.toNat_of_nonneg (by omega)
  obtain ⟨s0, hs0, hinv0⟩ := CrashInv_start cfg pid now (by omega)
  have hm0 : crashMeasure cfg.MaxRestarts.toNat s0 = 16 * cfg.MaxRestarts.toNat + 15 := by
    have h1 : (SupSys.init cfg).run (startServiceOk pid now) = some s0 := hs0
    simp only [SupSys.run, startServiceOk] at h1
    cases h1
    rfl
  rw [SupSys.run_append, hs0] at hrun
  obtain ⟨hinv, hlen⟩ :=
    CrashInv_run cfg _ hK hauto hmax acts s0 s hinv0 hacts hrun
  obtain ⟨hconfig, hstop, hfresh, pc, r, hmon, hev, hph⟩ := id hinv
  refine ⟨pc, r, hmon, CrashPhase_le _ s r pc hph, hev, by omega, ?_, ?_⟩
  · intro hpc
    obtain ⟨a, h1, h2, h3⟩ := CrashInv_progress cfg s pc hinv hmon hpc
    obtain ⟨s1, hs1⟩ := Option.isSome_iff_exists.1 h3
    exact ⟨a, s1, h1, h2, hs1⟩
  · intro hpc
    subst hpc
    obtain ⟨h1, h2, hdead⟩ := hph
    exact ⟨h2, by rw [h1, h2], hdead.1⟩

/-- C11 on the service `restartCfg` (`max_restarts = 3`), run until its
monitor has returned: `service.started`, three times `service.restarted`, one
`service.failed`; the restart count is 3 and the state is `Failed`. -/
theorem C11_crash_loop_witness :
    (SupSys.init restartCfg).run (startServiceOk 4242 10 ++ threeCrashActs) = some crashedSys ∧
    crashedSys.events.map (fun e => e.type) =
      [.EventServiceStarted, .EventServiceRestarted, .EventServiceRestarted,
       .EventServiceRestarted, .EventServiceFailed] ∧
    crashedSys.ps.proc.restartCount = 3 ∧ crashedSys.ps.proc.state = .StateFailed := by
  have hrun : (SupSys.init restartCfg).run (startServiceOk 4242 10 ++ threeCrashActs) =
      some crashedSys := by decide
  obtain ⟨pc, r, hmon, _, hev, _, _, hdone⟩ :=
    C11_crash_loop restartCfg 4242 10 threeCrashActs crashedSys (by decide) (by decide)
      (by decide) (by decide) hrun
  have h0 : crashedSys.monitors = [{ cfg := restartCfg, pc := .done true }] := by decide
  have hpc : pc = .done true := by
    rw [h0] at hmon
    simpa using hmon.symm
  subst hpc
  obtain ⟨h1, h2, h3⟩ := hdone rfl
  have hr3 : r = 3 := by
    have h4 : restartCfg.MaxRestarts = 3 := rfl
    omega
  subst hr3
  exact ⟨hrun, by rw [hev]; rfl, h2, h3⟩

/-! ### C21, C26: the ring of the collector -/

/-- C21: for every ring content `L` and every `n ≥ 1`, `GetLines n` returns
the last `min n |L|` entries of `L`, in their order and unchanged: the list is
`L` without its first `|L| - min n |L|` entries, and `L` is some list followed
by the result. `GetLines` only reads the ring. -/
theorem C21_getLines (c : Collector) (n : Int) (hn : 1 ≤ n) :
    c.GetLines n = c.lines.drop (c.lines.length - min n.toNat c.lines.length) ∧
    (c.GetLines n).length = min n.toNat c.lines.length ∧
    ∃ older, c.lines = older ++ c.GetLines n := by
  have key : c.GetLines n = c.lines.drop (c.lines.length - min n.toNat c.lines.length) := by
    unfold Collector.GetLines
    by_cases h : n ≤ 0 ∨ n > (c.lines.length : Int)
    · have h1 : n > (c.lines.length : Int) := by
        rcases h with h | h
        · omega
        · exact h
      have hmin : min n.toNat c.lines.length = c.lines.length := by
        apply min_eq_right
        omega
      simp only [h, if_true, sub_self, Int.toNat_zero, List.drop_zero, Int.toNat_ofNat,
        List.take_length, hmin, Nat.sub_self]
    · have h2 : n ≤ (c.lines.length : Int) := by
        by_contra hc
        exact h (Or.inr (by omega))
      have hmin : min n.toNat c.lines.length = n.toNat := by
        apply min_eq_left
        omega
      have hst : ((c.lines.length : Int) - n).toNat = c.lines.length - n.toNat := by omega
      simp only [h, if_false, hmin, hst]
      apply List.take_of_length_le
      rw [List.length_drop]
      omega
  refine ⟨key, ?_, ?_⟩
  · rw [key, List.length_drop]
    omega
  · refine ⟨c.lines.take (c.lines.length - min n.toNat c.lines.length), ?_⟩
    rw [key]
    exact (List.take_append_drop _ _).symm

/-- C21 on a ring of three lines: `GetLines 2` returns the last two, and
`GetLines 10` (the spec's scenario) all three, in order. -/
theorem C21_getLines_witness :
    threeLineCollector.GetLines 2 = threeLineCollector.lines.drop 1 ∧
    (threeLineCollector.GetLines 10).map (fun e => (e.Stream, e.Line)) =
      [("stdout", "one"), ("stdout", "two"), ("stdout", "three")] :=
  ⟨(C21_getLines threeLineCollector 2 (by decide)).1, by decide⟩

/-- The entries of the arriving lines, as a collector named `name` builds them. -/
theorem collectLine_serviceName (c : Collector) (line stream : String) (now : Nat) :
    (c.collectLine line stream now).serviceName = c.serviceName ∧
    (c.collectLine line stream now).maxLines = c.maxLines := by
  unfold Collector.collectLine
  simp only []
  split <;> exact ⟨rfl, rfl⟩

/-- One step of `Collect` on a ring that holds the last 1000 of the entries
`all`: afterwards it holds the last 1000 of `all` and the new entry. -/
theorem collectLine_ring (c : Collector) (all : List LogEntry) (line stream : String) (now : Nat)
    (hmax : c.maxLines = 1000) (hring : c.lines = all.drop (all.length - 1000)) :
    (c.collectLine line stream now).lines =
      (all ++ [c.entry line stream now]).drop ((all ++ [c.entry line stream now]).length - 1000) := by
  have hlen : c.lines.length = all.length - (all.length - 1000) := by
    rw [hring, List.length_drop]
  have hlen1 : (c.lines ++ [c.entry line stream now]).length = c.lines.length + 1 := by
    simp
  have hall : (all ++ [c.entry line stream now]).length = all.length + 1 := by
    simp
  unfold Collector.collectLine
  simp only []
  rw [hall]
  by_cases hk : all.length < 1000
  · have h0 : all.length - 1000 = 0 := by omega
    have hc : c.lines = all := by rw [hring, h0, List.drop_zero]
    have hnot : ¬ (((c.lines ++ [c.entry line stream now]).length : Int) > c.maxLines) := by
      rw [hmax, hlen1]; omega
    have h1 : all.length + 1 - 1000 = 0 := by omega
    rw [if_neg hnot, h1, List.drop_zero]
    show c.lines ++ [c.entry line stream now] = all ++ [c.entry line stream now]
    rw [hc]
  · have hgt : (((c.lines ++ [c.entry line stream now]).length : Int) > c.maxLines) := by
      rw [hmax, hlen1]; omega
    have hidx : (((c.lines ++ [c.entry line stream now]).length : Int) - c.maxLines).toNat =
        1 := by
      rw [hmax, hlen1]; omega
    rw [if_pos hgt]
    show (c.lines ++ [c.entry line stream now]).drop
        (((c.lines ++ [c.entry line stream now]).length : Int) - c.maxLines).toNat = _
    rw [hidx]
    have hle : all.length + 1 - 1000 ≤ all.length := by omega
    have hle1 : 1 ≤ c.lines.length := by omega
    rw [List.drop_append_of_le_length hle, List.drop_append_of_le_length hle1, hring,
      List.drop_drop]
    have hidx2 : all.length - 1000 + 1 = all.length + 1 - 1000 := by omega
    rw [hidx2]

/-- `Collect` over a sequence of lines on a ring that holds the last 1000 of
the entries `all`. -/
theorem collectAll_ring (ls : Arrivals) :
    ∀ (c : Collector) (all : List LogEntry), c.maxLines = 1000 →
      c.lines = all.drop (all.length - 1000) →
      (c.collectAll ls).lines =
        (all ++ ls.map (fun l => c.entry l.1 l.2.1 l.2.2)).drop
          ((all ++ ls.map (fun l => c.entry l.1 l.2.1 l.2.2)).length - 1000) := by
  induction ls with
  | nil =>
      intro c all _ hring
      simpa [Collector.collectAll] using hring
  | cons l rest ih =>
      intro c all hmax hring
      obtain ⟨line, stream, now⟩ := l
      have h1 := collectLine_ring c all line stream now hmax hring
      have h2 := collectLine_serviceName c line stream now
      have h3 := ih (c.collectLine line stream now) (all ++ [c.entry line stream now])
        (h2.2.trans hmax) h1
      simp only [Collector.collectAll]
      rw [h3]
      have he : ∀ l : String × String × Nat,
          (c.collectLine line stream now).entry l.1 l.2.1 l.2.2 = c.entry l.1 l.2.1 l.2.2 := by
        intro l
        simp [Collector.entry, h2.1]
      simp only [he, List.map_cons, List.append_assoc, List.singleton_append]

/-- C26: after `Collect` has processed any sequence of `k` lines on a new
collector of the service `name`, the ring holds exactly the entries of the last
`min k 1000` lines, in arrival order: for each of these lines the entry with
the service name, the text, the stream label and the time of the line; these
are the entries of all lines without the first `k - 1000`. So the length of the
ring is `min k 1000`, never more than 1000. -/
theorem C26_ring_last_1000 (name logDir : String) (ls : Arrivals) :
    ((NewCollector name logDir).collectAll ls).lines =
      (ls.drop (ls.length - 1000)).map
        (fun l => { Service := name, Line := l.1, Stream := l.2.1, Timestamp := l.2.2 }) ∧
    (ls.drop (ls.length - 1000)).length = min ls.length 1000 ∧
    ((NewCollector name logDir).collectAll ls).lines.length = min ls.length 1000 ∧
    ((NewCollector name logDir).collectAll ls).lines.length ≤ 1000 := by
  have h := collectAll_ring ls (NewCollector name logDir) [] rfl rfl
  simp only [List.nil_append, List.length_map] at h
  have h1 : ((NewCollector name logDir).collectAll ls).lines =
      (ls.drop (ls.length - 1000)).map
        (fun l => { Service := name, Line := l.1, Stream := l.2.1, Timestamp := l.2.2 }) := by
    rw [h, List.map_drop]
    rfl
  refine ⟨h1, ?_, ?_, ?_⟩
  · rw [List.length_drop]
    omega
  · rw [h1, List.length_map, List.length_drop]
    omega
  · rw [h1, List.length_map, List.length_drop]
    omega

/-- C26 on 1002 lines of the service `svc`: the ring holds 1000 entries, the
first is the entry of the third line and the last the entry of the last line;
and on three lines it holds the three entries. -/
theorem C26_ring_last_1000_witness :
    tickLines.length = 1002 ∧
    ((NewCollector "svc" "logs").collectAll tickLines).lines.length = 1000 ∧
    ((NewCollector "svc" "logs").collectAll tickLines).lines.head? =
      some { Service := "svc", Line := "tick", Stream := "stderr", Timestamp := 2 } ∧
    ((NewCollector "svc" "logs").collectAll tickLines).lines.getLast? =
      some { Service := "svc", Line := "tick", Stream := "stderr", Timestamp := 1001 } ∧
    ((NewCollector "svc" "logs").collectAll threeLines).lines =
      [{ Service := "svc", Line := "one", Stream := "stdout", Timestamp := 1 },
       { Service := "svc", Line := "two", Stream := "stdout", Timestamp := 2 },
       { Service := "svc", Line := "three", Stream := "stdout", Timestamp := 3 }] := by
  have h := C26_ring_last_1000 "svc" "logs" tickLines
  have h3 := C26_ring_last_1000 "svc" "logs" threeLines
  have hlen : tickLines.length = 1002 := by simp [tickLines]
  have hdrop : tickLines.drop (tickLines.length - 1000) =
      (List.range' 2 1000).map (fun i => ("tick", "stderr", i)) := by
    have hsplit : List.range' 0 1002 = List.range' 0 2 ++ List.range' 2 1000 := by
      rw [List.range'_append_1]
    rw [hlen, tickLines, ← List.map_drop, List.range_eq_range', hsplit]
    rfl
  refine ⟨hlen, ?_, ?_, ?_, ?_⟩
  · rw [h.2.2.1, hlen]
    rfl
  · rw [h.1, hdrop, show (1000 : Nat) = 999 + 1 from rfl, List.range'_succ]
    rfl
  · rw [h.1, hdrop, show (1000 : Nat) = 999 + 1 from rfl, List.range'_concat]
    simp
  · rw [h3.1]
    rfl

/-! ### C22: `Stats` -/

/-- The counters after the loop of `Stats` over `it`, started from `r`. -/
theorem stats_foldl (it : List (String × Process)) :
    ∀ r : StatsResult,
      it.foldl (fun r e => r.count e.2) r =
        { total := r.total + it.length
          running := r.running + it.countP (fun e => e.2.state = .StateRunning)
          stopped := r.stopped + it.countP
            (fun e => e.2.state ≠ .StateRunning ∧ e.2.state ≠ .StateFailed)
          failed := r.failed + it.countP (fun e => e.2.state = .StateFailed) } := by
  induction it with
  | nil => intro r; simp
  | cons e rest ih =>
      intro r
      simp only [List.foldl_cons, ih, List.length_cons, List.countP_cons]
      cases hs : e.2.state <;> simp [StatsResult.count, hs] <;> omega

/-- C22: for every registry and every order in which the loop visits it,
`Stats` returns the number of registered processes as `total`, the number in
`Running` as `running`, the number in `Failed` as `failed` and the number in
any other state as `stopped`; so `total = running + stopped + failed`. -/
theorem C22_stats (m : Manager) (it : List (String × Process)) (hit : it.Perm m.processes) :
    (Manager.Stats it).total = m.processes.length ∧
    (Manager.Stats it).running = m.processes.countP (fun e => e.2.state = .StateRunning) ∧
    (Manager.Stats it).failed = m.processes.countP (fun e => e.2.state = .StateFailed) ∧
    (Manager.Stats it).stopped = m.processes.countP
      (fun e => e.2.state = .StateStopped ∨ e.2.state = .StateStarting ∨
        e.2.state = .StateStopping) ∧
    (Manager.Stats it).total =
      (Manager.Stats it).running + (Manager.Stats it).stopped + (Manager.Stats it).failed := by
  have hother : ∀ e : String × Process,
      decide (e.2.state ≠ .StateRunning ∧ e.2.state ≠ .StateFailed) =
        decide (e.2.state = .StateStopped ∨ e.2.state = .StateStarting ∨
          e.2.state = .StateStopping) := by
    intro e
    cases e.2.state <;> decide
  have hsum : ∀ l : List (String × Process),
      l.length = l.countP (fun e => e.2.state = .StateRunning) +
        l.countP (fun e => e.2.state ≠ .StateRunning ∧ e.2.state ≠ .StateFailed) +
        l.countP (fun e => e.2.state = .StateFailed) := by
    intro l
    induction l with
    | nil => simp
    | cons e rest ih =>
        simp only [List.length_cons, List.countP_cons, ih]
        cases hs : e.2.state <;> simp [hs] <;> omega
  unfold Manager.Stats
  rw [stats_foldl]
  simp only [zero_add]
  refine ⟨?_, ?_, ?_, ?_, ?_⟩
  · rw [hit.length_eq]
  · rw [hit.countP_eq]
  · rw [hit.countP_eq]
  · rw [hit.countP_eq]
    congr 1
    exact List.countP_congr (fun e _ => by simpa using congrArg (· = true) (hother e))
  · have := hsum it
    push_cast [this]
    ring

/-- C22 on a registry with a running, a starting and a failed process, visited
in another order than stored. -/
theorem C22_stats_witness :
    Manager.Stats mixedProcesses.reverse =
      { total := 3, running := 1, stopped := 1, failed := 1 } ∧
    (Manager.Stats mixedProcesses.reverse).total =
      (({ processes := mixedProcesses } : Manager)).processes.length :=
  ⟨by decide,
    (C22_stats { processes := mixedProcesses } mixedProcesses.reverse
      (List.reverse_perm _)).1⟩

/-! ### C24: a spawn that fails in `StartService` -/

/-- A text that starts with a non-empty text is not empty. -/
theorem append_ne_empty (a b : String) (ha : a ≠ "") : a ++ b ≠ "" := by
  intro h
  have h1 : (a ++ b).length = 0 := by rw [h]; rfl
  rw [String.length_append] at h1
  have h2 : a.length = 0 := by omega
  cases a with
  | mk d =>
      have h3 : d = [] := List.length_eq_zero.mp h2
      subst h3
      exact ha rfl

/-- What a failed spawn leaves of a process that passed the guard of `Start`. -/
theorem startSpawn_failed (p : Process) (env : StartEnv) (h : ∀ pid, env.spawn ≠ .started pid) :
    (p.startSpawn env).2 ≠ none ∧ (p.startSpawn env).1.state = .StateFailed ∧
    (p.startSpawn env).1.lastError ≠ "" ∧ (p.startSpawn env).1.pid = p.pid := by
  unfold Process.startSpawn
  cases hs : env.spawn with
  | started pid => exact absurd hs (h pid)
  | stdoutPipeErr e =>
      exact ⟨by simp, rfl, append_ne_empty _ _ (by decide), rfl⟩
  | stderrPipeErr e =>
      exact ⟨by simp, rfl, append_ne_empty _ _ (by decide), rfl⟩
  | startErr e =>
      exact ⟨by simp, rfl, append_ne_empty _ _ (by decide), rfl⟩

/-- C24, the claim fails. First: `StartService` on a fresh (`Stopped`) service
whose spawn fails returns an error and leaves the process `Failed`, and no
event has been emitted. Second: a process can be `Failed` with a pid; after
`StartService` with a failing spawn on it the pid is still 4242, not 0. -/
theorem C24_counterexample :
    ((demoManager.getProcess "svc").map (fun p => p.state) = some .StateStopped ∧
      (demoManager.StartService "svc" failedStartEnv).2 ≠ none ∧
      ((demoManager.StartService "svc" failedStartEnv).1.getProcess "svc").map
        (fun p => p.state) = some .StateFailed ∧
      (demoManager.StartService "svc" failedStartEnv).1.events = []) ∧
    ((failedWithPid.getProcess "svc").map (fun p => (p.state, p.pid)) =
        some (.StateFailed, 4242) ∧
      (failedWithPid.StartService "svc" failedStartEnv).2 ≠ none ∧
      ((failedWithPid.StartService "svc" failedStartEnv).1.getProcess "svc").map
        (fun p => (p.state, p.pid)) = some (.StateFailed, 4242)) := by
  decide

/-- C24 (amended): when the spawn fails during `StartService` on a registered
service in state `Stopped` or `Failed`, `StartService` returns an error, the
process ends in state `Failed` with a non-empty `lastError` and the pid it
had (0 when it was 0), no event is emitted and no monitor is launched, and no
other process in the registry is changed. -/
theorem C24_spawn_failure (m : Manager) (name : String) (proc : Process) (env : StartEnv)
    (hget : m.getProcess name = some proc)
    (hstate : proc.state = .StateStopped ∨ proc.state = .StateFailed)
    (hfail : ∀ pid, env.spawn ≠ .started pid) :
    (m.StartService name env).2 ≠ none ∧
    (∃ p1, (m.StartService name env).1.getProcess name = some p1 ∧
      p1.state = .StateFailed ∧ p1.lastError ≠ "" ∧ p1.pid = proc.pid) ∧
    (m.StartService name env).1.events = m.events ∧
    (m.StartService name env).1.monitors = m.monitors ∧
    ∀ other, other ≠ name →
      (m.StartService name env).1.getProcess other = m.getProcess other := by
  have hl : proc.startLock = .ok { proc with state := .StateStarting } := by
    rcases hstate with h | h <;> simp [Process.startLock, h]
  obtain ⟨h1, h2, h3, h4⟩ := startSpawn_failed { proc with state := .StateStarting } env hfail
  have hS : proc.Start env = ({ proc with state := .StateStarting } : Process).startSpawn env := by
    simp only [Process.Start, hl]
  cases he : (proc.Start env).2 with
  | none => rw [hS] at he; exact absurd he h1
  | some err =>
      have hstart : proc.Start env = ((proc.Start env).1, some err) := Prod.ext rfl he
      have hres : m.StartService name env = (m.setProcess name (proc.Start env).1, some err) := by
        simp only [Manager.StartService, hget]
        rw [hstart]
      rw [hres]
      refine ⟨by simp, ⟨(proc.Start env).1, getProcess_setProcess_self m name _ proc hget, ?_, ?_,
        ?_⟩, rfl, rfl, ?_⟩
      · rw [hS]; exact h2
      · rw [hS]; exact h3
      · rw [hS]; exact h4
      · intro other ho
        exact getProcess_setProcess_other m name other _ ho

/-- C24 (amended) on the fresh service `svc`. -/
theorem C24_spawn_failure_witness :
    (demoManager.StartService "svc" failedStartEnv).2 ≠ none ∧
    (demoManager.StartService "svc" failedStartEnv).1.events = demoManager.events :=
  ⟨(C24_spawn_failure demoManager "svc" (NewProcess demoCfg) failedStartEnv (by decide)
      (Or.inl (by decide)) (by intro pid; simp [failedStartEnv])).1,
    (C24_spawn_failure demoManager "svc" (NewProcess demoCfg) failedStartEnv (by decide)
      (Or.inl (by decide)) (by intro pid; simp [failedStartEnv])).2.2.1⟩

/-! ### C25: how many monitors watch a process -/

/-- C25, the claim fails: the service `restartCfg` is started, its child exits
with status 1, and the monitor counts a restart and sleeps in the restart
delay; the process is `Failed`. An external `StartService` issued now
succeeds and launches a second monitor while the first has not returned: two
monitors are alive for the one process. -/
theorem C25_counterexample :
    ((SupSys.init restartCfg).run (startServiceOk 4242 10 ++ firstRestartActs)).map
      (fun s => (s.ps.proc.state, s.monitors.map (fun m => m.pc))) =
      some (.StateFailed, [.sleeping]) ∧
    ((SupSys.init restartCfg).run
        (startServiceOk 4242 10 ++ firstRestartActs ++ startServiceOk 4243 12)).map
      (fun s => (s.ps.proc.state, s.monitors.map (fun m => m.pc),
        s.monitors.countP (fun m => m.alive))) =
      some (.StateRunning, [.sleeping, .born], 2) := by
  decide

/-- C25 (amended): in every state reachable from the registration of a
service through `StartService`, `StopService`, child exits, monitor steps,
config updates and the stop broadcast, in any interleaving in which an
external `StartService` succeeds only while no monitor is alive (`runSolo`),
at most one restart monitor is alive, and none while a successful
`StartService` is about to launch one. -/
theorem C25_one_monitor (cfg : ServiceConfig) (acts : List SupAction) (s : SupSys)
    (hint : cfg.MaxRestarts ≤ maxInt64)
    (hrun : (SupSys.init cfg).runSolo acts = some s) :
    s.monitors.countP (fun m => m.alive) + s.extStarted ≤ 1 := by
  obtain ⟨_, _, hext, hdead, hmons⟩ := SoloInv_runSolo acts _ s (SoloInv_init cfg hint) hrun
  have hzero : ∀ l : List Monitor, (∀ m ∈ l, m.alive = false) →
      l.countP (fun m => m.alive) = 0 := by
    intro l hl
    rw [List.countP_eq_zero]
    intro m hm
    simp [hl m hm]
  by_cases h1 : s.extStarted = 1
  · rw [hzero s.monitors (hdead h1), h1]
  · have h0 : s.extStarted = 0 := by omega
    rw [h0]
    rcases hmons with hnil | ⟨dones, m, hm, hd, _⟩
    · rw [hnil]; simp
    · rw [hm, List.countP_append, hzero dones hd]
      simp only [List.countP_cons, List.countP_nil, zero_add, add_zero]
      split <;> omega

/-- C25 (amended) on the run in which the monitor of `restartCfg` restarts the
child itself: one monitor is alive. -/
theorem C25_one_monitor_witness :
    (SupSys.init restartCfg).runSolo
        (startServiceOk 4242 10 ++ firstRestartActs ++ monitorRestartActs) =
      some restartedSys ∧
    restartedSys.monitors.countP (fun m => m.alive) = 1 ∧
    restartedSys.monitors.countP (fun m => m.alive) + restartedSys.extStarted ≤ 1 :=
  ⟨by decide, by decide,
    C25_one_monitor restartCfg
      (startServiceOk 4242 10 ++ firstRestartActs ++ monitorRestartActs) restartedSys
      (by decide) (by decide)⟩

/-! ### C28: a dependency that is not loaded -/

/-- C28: for every set of service configs and every iteration order, the order
returned by `resolveDependencies` contains only names of loaded services; a
service whose `dependsOn` names a service that is not loaded, and every
service that depends on it through a chain of `dependsOn` entries, is absent
from the order, and `LoadAndStart` never calls `StartService` for it,
whatever its `autoStart`. -/
theorem C28_missing_dependency (S it0 it1 it2 : List (String × ServiceConfig))
    (it3 : List String) (m : Manager) (env : String → StartEnv)
    (hS : (S.map Prod.fst).Nodup) (hit : IterationOrders S it1 it2 it3) :
    ∃ order m1 calls, resolveDependencies it1 it2 it3 = some order ∧
      m.LoadAndStart it0 it1 it2 it3 env = some (m1, calls) ∧
      (∀ x ∈ order, x ∈ S.map Prod.fst) ∧
      (∀ b x, Relation.TransGen (Depends S) b x → x ∉ S.map Prod.fst →
        b ∉ order ∧ b ∉ calls) := by
  obtain ⟨order, hres, _, hsub, hbefore, _⟩ := resolveDependencies_returns S it1 it2 it3 hS hit
  refine ⟨order, ((m.registerAll it0).autoStartLoop env order).1,
    ((m.registerAll it0).autoStartLoop env order).2, hres, ?_, hsub, ?_⟩
  · simp [Manager.LoadAndStart, hres]
  · intro b x hdep hx
    have hno : b ∉ order := by
      intro hb
      exact hx (hsub x (before_of_transGen S order hbefore b x hdep hb).1)
    refine ⟨hno, ?_⟩
    rw [autoStartLoop_calls]
    intro hb
    exact hno (List.mem_filter.mp hb).1

/-- C28 at the services A, B (depends on X, not loaded) and C (depends on B),
all with `auto_start`: only A is in the order and only A is started. -/
theorem C28_missing_dependency_witness :
    resolveDependencies brokenChainServices brokenChainServices ["C", "A", "B"] = some ["A"] ∧
    ∃ order m1 calls,
      resolveDependencies brokenChainServices brokenChainServices ["C", "A", "B"] =
        some order ∧
      ({} : Manager).LoadAndStart brokenChainServices brokenChainServices brokenChainServices
        ["C", "A", "B"] demoEnv = some (m1, calls) ∧
      (∀ x ∈ order, x ∈ brokenChainServices.map Prod.fst) ∧
      (∀ b x, Relation.TransGen (Depends brokenChainServices) b x →
        x ∉ brokenChainServices.map Prod.fst → b ∉ order ∧ b ∉ calls) :=
  ⟨by decide,
    C28_missing_dependency brokenChainServices brokenChainServices brokenChainServices
      brokenChainServices ["C", "A", "B"] {} demoEnv (by decide) ⟨by decide, by decide, by decide⟩⟩

/-! ### C27: a child that exits with code 0 is not restarted -/

/-- A `Watching` state satisfies `QuietInv`. -/
theorem QuietInv_of_watching (s : SupSys) (d : Nat) (h : s.Watching d) :
    QuietInv s.events s.ps.proc.restartCount s.ps.next d s := by
  obtain ⟨h1, h2, h3, h4, h5, h6, mcfg, pc, hm, hpc⟩ := h
  exact
    { events := rfl, count := rfl, next := rfl, doneCh := h2, starting := h5
      mon := ⟨mcfg, pc, hm, by
        rcases hpc with h | h | h
        · exact Or.inl h
        · exact Or.inr (Or.inl h)
        · exact Or.inr (Or.inr (Or.inl h))⟩
      child := Or.inl ⟨h1, h3, h4, h6⟩ }

/-- The steps of the monitor and of the waiter keep `QuietInv` and lower the
measure while the child exits with code 0. -/
theorem QuietInv_step (E : List Event) (n : Int) (next d : Nat) (s : SupSys) (a : SupAction)
    (s1 : SupSys) (hinv : QuietInv E n next d s)
    (hok : a.unattended = true ∧ a.exitsClean = true) (hst : s.step a = some s1) :
    QuietInv E n next d s1 ∧ crashMeasure 0 s1 < crashMeasure 0 s := by
  obtain ⟨hev, hcount, hnext, hdone, hstarting, ⟨mcfg, pc, hmon, hpc⟩, hchild⟩ := hinv
  obtain ⟨hun, hclean⟩ := hok
  cases a with
  | mon i ma =>
      simp only [SupSys.step, hmon] at hst
      cases i with
      | succ j => simp at hst
      | zero =>
          simp only [List.getElem?_cons_zero] at hst
          rcases hpc with h | h | h | ⟨h | h, hcl⟩ <;> subst h <;> cases ma <;>
            simp only [SupSys.monStep] at hst <;> try contradiction
          · -- born, readConfig
            simp only [Option.some.injEq] at hst
            subst hst
            exact ⟨
              { events := hev, count := hcount, next := hnext, doneCh := hdone
                starting := hstarting
                mon := ⟨s.ps.proc.config, .loopTop, by simp [SupSys.setMon, hmon],
                  Or.inr (Or.inl rfl)⟩
                child := hchild },
              by simp [crashMeasure, SupSys.setMon, hmon, pcRank]⟩
          · -- loopTop, getDoneCh
            simp only [Option.some.injEq] at hst
            subst hst
            exact ⟨
              { events := hev, count := hcount, next := hnext, doneCh := hdone
                starting := hstarting
                mon := ⟨mcfg, .waitDone (some d),
                  by simp [SupSys.setMon, hmon, Process.DoneCh, hdone],
                  Or.inr (Or.inr (Or.inl rfl))⟩
                child := hchild },
              by simp [crashMeasure, SupSys.setMon, hmon, pcRank]⟩
          · -- waitDone, wake
            by_cases hc : s.ps.chanClosed (some d) = true
            · simp only [hc, if_true, Option.some.injEq] at hst
              subst hst
              have hcl : d ∈ s.ps.closed := by simpa [ProcSys.chanClosed] using hc
              exact ⟨
                { events := hev, count := hcount, next := hnext, doneCh := hdone
                  starting := hstarting
                  mon := ⟨mcfg, .readState, by simp [SupSys.setMon, hmon],
                    Or.inr (Or.inr (Or.inr ⟨Or.inl rfl, hcl⟩))⟩
                  child := hchild },
                by simp [crashMeasure, SupSys.setMon, hmon, pcRank]⟩
            · simp [hc] at hst
          · -- readState, readState
            have hstop : s.ps.proc.state = .StateStopped := by
              rcases hchild with ⟨_, _, _, h4⟩ | ⟨h1, _⟩
              · exact absurd hcl h4
              · exact h1
            simp only [hstop, if_true, Option.some.injEq] at hst
            subst hst
            exact ⟨
              { events := hev, count := hcount, next := hnext, doneCh := hdone
                starting := hstarting
                mon := ⟨mcfg, .done false, by simp [SupSys.setMon, hmon],
                  Or.inr (Or.inr (Or.inr ⟨Or.inr rfl, hcl⟩))⟩
                child := hchild },
              by simp [crashMeasure, SupSys.setMon, hmon, pcRank]⟩
  | waitReap ch err t =>
      cases err with
      | some e => simp [SupAction.exitsClean] at hclean
      | none =>
          simp only [SupSys.step, ProcSys.step] at hst
          by_cases hch : ch ∈ s.ps.waiting
          · simp only [hch, if_true, Option.some.injEq] at hst
            subst hst
            rcases hchild with ⟨h1, h2, h3, h4⟩ | ⟨_, _, h3, _⟩
            · rw [h2] at hch
              simp only [List.mem_singleton] at hch
              subst hch
              refine ⟨
                { events := hev
                  count := by simp [Process.wait, hcount]
                  next := hnext
                  doneCh := by simp [Process.wait, hdone]
                  starting := hstarting
                  mon := by
                    refine ⟨mcfg, pc, hmon, ?_⟩
                    rcases hpc with h | h | h | ⟨_, hcl⟩
                    · exact Or.inl h
                    · exact Or.inr (Or.inl h)
                    · exact Or.inr (Or.inr (Or.inl h))
                    · exact absurd hcl h4
                  child := Or.inr ⟨by simp [Process.wait, h1], by simp [Process.wait],
                    by simp [h2], Or.inl ⟨by simp [h3], h4⟩⟩ }, ?_⟩
              simp [crashMeasure, h2, h3]
            · rw [h3] at hch
              simp at hch
          · simp [hch] at hst
  | waitClose ch =>
      simp only [SupSys.step, ProcSys.step] at hst
      by_cases hch : ch ∈ s.ps.reaped
      · simp only [hch, if_true, Option.some.injEq] at hst
        subst hst
        rcases hchild with ⟨_, _, h3, _⟩ | ⟨h1, h2, h3, ⟨h4, h5⟩ | ⟨h4, _⟩⟩
        · rw [h3] at hch; simp at hch
        · rw [h4] at hch
          simp only [List.mem_singleton] at hch
          subst hch
          refine ⟨
            { events := hev, count := hcount, next := hnext, doneCh := hdone
              starting := hstarting
              mon := by
                refine ⟨mcfg, pc, hmon, ?_⟩
                rcases hpc with h | h | h | ⟨h, hcl⟩
                · exact Or.inl h
                · exact Or.inr (Or.inl h)
                · exact Or.inr (Or.inr (Or.inl h))
                · exact absurd hcl h5
              child := Or.inr ⟨h1, h2, h3, Or.inr ⟨by simp [h4], by simp⟩⟩ }, ?_⟩
          simp [crashMeasure, h4]
        · rw [h4] at hch; simp at hch
      · simp [hch] at hst
  | _ => simp [SupAction.unattended] at hun

/-- While the monitor has not returned, the monitor or the waiter can take a
step. -/
theorem QuietInv_progress (E : List Event) (n : Int) (next d : Nat) (s : SupSys)
    (mcfg : ServiceConfig) (pc : MonitorPc) (hinv : QuietInv E n next d s)
    (hmon : s.monitors = [{ cfg := mcfg, pc := pc }]) (hpc : pc ≠ .done false) :
    ∃ a, a.unattended = true ∧ a.exitsClean = true ∧ (s.step a).isSome = true := by
  obtain ⟨hev, hcount, hnext, hdone, hstarting, ⟨mcfg1, pc1, hmon1, hpc1⟩, hchild⟩ := hinv
  rw [hmon] at hmon1
  simp only [List.cons.injEq, Monitor.mk.injEq, and_true] at hmon1
  obtain ⟨h1, h2⟩ := hmon1
  subst h1 h2
  rcases hpc1 with h | h | h | ⟨h | h, hcl⟩ <;> subst h
  · exact ⟨.mon 0 .readConfig, rfl, rfl, by simp [SupSys.step, hmon, SupSys.monStep]⟩
  · exact ⟨.mon 0 .getDoneCh, rfl, rfl, by simp [SupSys.step, hmon, SupSys.monStep]⟩
  · rcases hchild with ⟨_, h2, _, _⟩ | ⟨_, _, _, ⟨h4, _⟩ | ⟨_, h5⟩⟩
    · exact ⟨.waitReap d none 0, rfl, rfl, by simp [SupSys.step, ProcSys.step, h2]⟩
    · exact ⟨.waitClose d, rfl, rfl, by simp [SupSys.step, ProcSys.step, h4]⟩
    · exact ⟨.mon 0 .wake, rfl, rfl,
        by simp [SupSys.step, hmon, SupSys.monStep, ProcSys.chanClosed, h5]⟩
  · refine ⟨.mon 0 .readState, rfl, rfl, ?_⟩
    simp only [SupSys.step, hmon, List.getElem?_cons_zero, SupSys.monStep]
    repeat' split
    all_goals rfl
  · exact absurd rfl hpc

/-- A run of the monitor and the waiter keeps `QuietInv`, and its length is
bounded by the decrease of the measure. -/
theorem QuietInv_run (E : List Event) (n : Int) (next d : Nat) (acts : List SupAction) :
    ∀ s s1 : SupSys, QuietInv E n next d s →
      (∀ a ∈ acts, a.unattended = true ∧ a.exitsClean = true) → s.run acts = some s1 →
      QuietInv E n next d s1 ∧ acts.length + crashMeasure 0 s1 ≤ crashMeasure 0 s := by
  induction acts with
  | nil =>
      intro s s1 hs _ hrun
      simp only [SupSys.run, Option.some.injEq] at hrun
      subst hrun
      exact ⟨hs, by simp⟩
  | cons a rest ih =>
      intro s s1 hs hok hrun
      simp only [SupSys.run] at hrun
      cases hst : s.step a with
      | none => simp [hst] at hrun
      | some s2 =>
          simp only [hst] at hrun
          obtain ⟨h2, hm⟩ := QuietInv_step E n next d s a s2 hs (hok a (List.mem_cons_self _ _)) hst
          obtain ⟨h3, h4⟩ := ih s2 s1 h2 (fun b hb => hok b (List.mem_cons_of_mem _ hb)) hrun
          refine ⟨h3, ?_⟩
          simp only [List.length_cons]
          omega

/-- C27: a child runs (state `Running`) and its monitor waits for its exit,
with any config (also `autoRestart` on) and any restart count (also below
`maxRestarts`). The child exits by itself with code 0 and nothing acts but
the waiter and the monitor. Then in every interleaving: no event is emitted,
the restart count is not changed, no `Start` is called (none is in progress
and no child is spawned: the channel counter stays), and once the waiter has
run the state is `Stopped` with exit code 0. The run has at most 15 steps and
can go on until the monitor has returned, which it does in state `Stopped`
without passing through the restart branch. -/
theorem C27_clean_exit_not_restarted (s s1 : SupSys) (d : Nat) (acts : List SupAction)
    (hw : s.Watching d)
    (hacts : ∀ a ∈ acts, a.unattended = true ∧ a.exitsClean = true)
    (hrun : s.run acts = some s1) :
    s1.events = s.events ∧ s1.ps.proc.restartCount = s.ps.proc.restartCount ∧
    s1.ps.next = s.ps.next ∧ s1.ps.starting = 0 ∧
    (s1.ps.waiting = [] →
      s1.ps.proc.state = .StateStopped ∧ s1.ps.proc.exitCode = some 0) ∧
    acts.length ≤ 15 ∧
    ∃ mcfg pc, s1.monitors = [{ cfg := mcfg, pc := pc }] ∧
      (pc = .born ∨ pc = .loopTop ∨ pc = .waitDone (some d) ∨ pc = .readState ∨
        pc = .done false) ∧
      (pc ≠ .done false →
        ∃ a s2, a.unattended = true ∧ a.exitsClean = true ∧ s1.step a = some s2) ∧
      (pc = .done false → s1.ps.proc.state = .StateStopped) := by
  have hinv0 := QuietInv_of_watching s d hw
  obtain ⟨hinv, hlen⟩ := QuietInv_run _ _ _ d acts s s1 hinv0 hacts hrun
  have hm0 : crashMeasure 0 s ≤ 15 := by
    obtain ⟨_, _, h3, h4, _, _, mcfg, pc, hm, hpc⟩ := hw
    rcases hpc with h | h | h <;> subst h <;> simp [crashMeasure, hm, h3, h4, pcRank]
  obtain ⟨hev, hcount, hnext, hdone, hstarting, ⟨mcfg, pc, hmon, hpc⟩, hchild⟩ := id hinv
  refine ⟨hev, hcount, hnext, hstarting, ?_, by omega, mcfg, pc, hmon, ?_, ?_, ?_⟩
  · intro hwt
    rcases hchild with ⟨_, h2, _, _⟩ | ⟨h1, h2, _, _⟩
    · rw [h2] at hwt; simp at hwt
    · exact ⟨h1, h2⟩
  · rcases hpc with h | h | h | ⟨h | h, _⟩
    · exact Or.inl h
    · exact Or.inr (Or.inl h)
    · exact Or.inr (Or.inr (Or.inl h))
    · exact Or.inr (Or.inr (Or.inr (Or.inl h)))
    · exact Or.inr (Or.inr (Or.inr (Or.inr h)))
  · intro hne
    obtain ⟨a, h1, h2, h3⟩ := QuietInv_progress _ _ _ d s1 mcfg pc hinv hmon hne
    obtain ⟨s2, hs2⟩ := Option.isSome_iff_exists.1 h3
    exact ⟨a, s2, h1, h2, hs2⟩
  · intro hd
    subst hd
    rcases hpc with h | h | h | ⟨_, hcl⟩
    · cases h
    · cases h
    · cases h
    · rcases hchild with ⟨_, _, _, h4⟩ | ⟨h1, _⟩
      · exact absurd hcl h4
      · exact h1

/-- C27 on the service `restartCfg` (`autoRestart` on, `maxRestarts = 3`) after
one restart by its monitor (restart count 1): the restarted child exits with
code 0, the monitor returns, and events and restart count are as before. -/
theorem C27_clean_exit_not_restarted_witness :
    restartCfg.AutoRestart = true ∧
    restartedSys.ps.proc.restartCount < restartCfg.MaxRestarts ∧
    restartedSys.run cleanExitAfterRestart = some quietSys ∧
    quietSys.monitors = [{ cfg := restartCfg, pc := .done false }] ∧
    quietSys.events = restartedSys.events ∧
    quietSys.ps.proc.restartCount = restartedSys.ps.proc.restartCount ∧
    quietSys.ps.next = restartedSys.ps.next :=
  ⟨by decide, by decide, by decide, by decide,
    (C27_clean_exit_not_restarted restartedSys quietSys 5 cleanExitAfterRestart
      ⟨by decide, by decide, by decide, by decide, by decide, by decide, restartCfg, .loopTop,
        by decide, Or.inr (Or.inl rfl)⟩
      (by decide) (by decide)).1,
    (C27_clean_exit_not_restarted restartedSys quietSys 5 cleanExitAfterRestart
      ⟨by decide, by decide, by decide, by decide, by decide, by decide, restartCfg, .loopTop,
        by decide, Or.inr (Or.inl rfl)⟩
      (by decide) (by decide)).2.1,
    (C27_clean_exit_not_restarted restartedSys quietSys 5 cleanExitAfterRestart
      ⟨by decide, by decide, by decide, by decide, by decide, by decide, restartCfg, .loopTop,
        by decide, Or.inr (Or.inl rfl)⟩
      (by decide) (by decide)).2.2.1⟩

/-! ### C29: which file `RemoveService` deletes -/

/-- C23, the claim fails: no service `ghost` is registered. `POST` start, stop
and restart on it answer 400, not 404; `DELETE` answers 200; `PUT` with a
valid body answers 200 and stores the config. -/
theorem C23_counterexample :
    (({} : Manager).getProcess "ghost" = none ∧
      mapGet ({} : Manager).collectors "ghost" = none) ∧
    (handleStartService {} "ghost" demoStartEnv).2.Status = 400 ∧
    (handleStopService {} "ghost" gracefulStop).2.Status = 400 ∧
    (handleRestartService {} "ghost" gracefulStop demoStartEnv).2.Status = 400 ∧
    (handleDeleteService yamlPath {} "ghost" gracefulStop none).2.Status = 200 ∧
    (handleUpdateService yamlPath {} "ghost" (.ok xCfg) .written).2.Status = 200 ∧
    ((handleUpdateService yamlPath {} "ghost" (.ok xCfg) .written).1.loader.GetService
      "ghost").isSome = true := by
  decide

/-- The status is 400 exactly when the manager returned an error. -/
theorem respond_status (err : Option String) (msg : String) :
    (err ≠ none → (respond err msg).Status = 400) ∧
    (err = none → (respond err msg).Status = 200) := by
  cases err <;> simp [respond, StatusBadRequest, StatusOK]

/-- C23 (amended): for a name that is not registered, `GET
/api/services/{name}` and `GET` logs answer 404; `POST` start, stop and
restart answer 400; `DELETE` answers 200 when the file removal does not fail;
`PUT` answers 200 when the body is a config with a command and the write
succeeds. For every name, the handlers of `PUT`, `DELETE` and `POST` start,
stop and restart answer 400 whenever the manager returns an error (a
validation error or an illegal state among them), and `PUT` answers 400 when
the body cannot be read. -/
theorem C23_status_codes (servicePath : String → String) (m : Manager) (name : String)
    (hproc : m.getProcess name = none) (hcol : mapGet m.collectors name = none) :
    ((handleGetService m name).1.Status = 404 ∧
      (∀ n, (handleGetLogs m name n).1.Status = 404) ∧
      (∀ env, (handleStartService m name env).2.Status = 400) ∧
      (∀ env, (handleStopService m name env).2.Status = 400) ∧
      (∀ stop start, (handleRestartService m name stop start).2.Status = 400) ∧
      (∀ stop, (handleDeleteService servicePath m name stop none).2.Status = 200) ∧
      (∀ svc : ServiceConfig, name ≠ "" → svc.Command ≠ "" →
        (handleUpdateService servicePath m name (.ok svc) .written).2.Status = 200)) ∧
    (∀ (m2 : Manager) (n2 : String),
      (∀ env, (m2.StartService n2 env).2 ≠ none →
        (handleStartService m2 n2 env).2.Status = 400) ∧
      (∀ env, (m2.StopService n2 env).2 ≠ none →
        (handleStopService m2 n2 env).2.Status = 400) ∧
      (∀ stop start, (m2.RestartService n2 stop start).2 ≠ none →
        (handleRestartService m2 n2 stop start).2.Status = 400) ∧
      (∀ stop rm, (m2.RemoveService servicePath n2 stop rm).2 ≠ none →
        (handleDeleteService servicePath m2 n2 stop rm).2.Status = 400) ∧
      (∀ svc w, (m2.UpdateService servicePath { svc with Name := n2 } w).2 ≠ none →
        (handleUpdateService servicePath m2 n2 (.ok svc) w).2.Status = 400) ∧
      (∀ err w, (handleUpdateService servicePath m2 n2 (.error err) w).2.Status = 400)) := by
  constructor
  · refine ⟨?_, ?_, ?_, ?_, ?_, ?_, ?_⟩
    · simp [handleGetService, Manager.GetServiceInfo, hproc, StatusNotFound]
    · intro n
      simp [handleGetLogs, Manager.GetServiceLogs, hcol, StatusNotFound]
    · intro env
      simp [handleStartService, Manager.StartService, hproc, respond, StatusBadRequest]
    · intro env
      simp [handleStopService, Manager.StopService, hproc, respond, StatusBadRequest]
    · intro stop start
      simp [handleRestartService, Manager.RestartService, hproc, respond, StatusBadRequest]
    · intro stop
      simp [handleDeleteService, Manager.RemoveService, hproc, Loader.RemoveService, respond,
        StatusOK]
    · intro svc hn hc
      have hv := Validate_ok { svc with Name := name } hn hc
      have hi := Validate_idem { svc with Name := name }
        ((Validate_error_iff _).2 ⟨hn, hc⟩)
      rw [hv] at hi
      simp only [handleUpdateService, Manager.UpdateService, hv, hproc, Loader.SaveService, hi]
      rfl
  · intro m2 n2
    refine ⟨?_, ?_, ?_, ?_, ?_, ?_⟩
    · intro env h
      exact (respond_status _ _).1 h
    · intro env h
      exact (respond_status _ _).1 h
    · intro stop start h
      exact (respond_status _ _).1 h
    · intro stop rm h
      exact (respond_status _ _).1 h
    · intro svc w h
      exact (respond_status _ _).1 h
    · intro err w
      rfl

/-- C23 (amended) on a manager without services. -/
theorem C23_status_codes_witness :
    (handleGetService {} "ghost").1.Status = 404 ∧
    (handleGetLogs {} "ghost" 10).1.Status = 404 ∧
    (handleStartService {} "ghost" demoStartEnv).2.Status = 400 :=
  ⟨(C23_status_codes yamlPath {} "ghost" (by decide) (by decide)).1.1,
    (C23_status_codes yamlPath {} "ghost" (by decide) (by decide)).1.2.1 10,
    (C23_status_codes yamlPath {} "ghost" (by decide) (by decide)).1.2.2.1 demoStartEnv⟩
/-! ### C30: what `enable` and `disable` do to a stored config -/

/-- Every step of the supervised service leaves the process and its waiters
as they are or is a step of the process model. -/
theorem SupSys.step_ps (s : SupSys) (a : SupAction) (s1 : SupSys) (hst : s.step a = some s1) :
    s1.ps = s.ps ∨ ∃ pa, s.ps.step pa = some s1.ps := by
  cases a with
  | mon i ma =>
      simp only [SupSys.step] at hst
      cases hm : s.monitors[i]? with
      | none => simp [hm] at hst
      | some m =>
          simp only [hm] at hst
          obtain ⟨cfg, pc⟩ := m
          cases pc <;> cases ma <;> simp only [SupSys.monStep] at hst <;>
            try contradiction
          all_goals (repeat' split at hst)
          all_goals first
            | contradiction
            | (simp only [Option.some.injEq] at hst; subst hst; exact Or.inl rfl)
            | (simp only [Option.some.injEq] at hst; subst hst
               exact Or.inr ⟨_, by assumption⟩)
  | _ =>
      simp only [SupSys.step] at hst
      repeat' split at hst
      all_goals first
        | contradiction
        | (simp only [Option.some.injEq] at hst; subst hst; exact Or.inl rfl)
        | (simp only [Option.some.injEq] at hst; subst hst
           exact Or.inr ⟨_, by assumption⟩)

/-- `WaitInv` is kept by every step of the process model. -/
theorem WaitInv_step (s : ProcSys) (a : ProcAction) (s1 : ProcSys)
    (hs : WaitInv s) (hst : s.step a = some s1) : WaitInv s1 := by
  unfold WaitInv at hs ⊢
  cases a with
  | startLock =>
      by_cases hg : s.proc.state = .StateRunning ∨ s.proc.state = .StateStarting
      · simp [ProcSys.step, Process.startLock, hg] at hst
        subst hst
        exact hs
      · simp [ProcSys.step, Process.startLock, hg] at hst
        subst hst
        intro _
        simp
  | spawn r now =>
      simp only [ProcSys.step] at hst
      split at hst
      · contradiction
      · cases r <;> simp only [Option.some.injEq] at hst <;> subst hst <;>
          simp [Process.startSpawn, Process.setFailed]
  | stopLock =>
      by_cases hg : s.proc.state = .StateRunning
      · simp [ProcSys.step, Process.stopLock, hg] at hst
        subst hst
        intro hw
        exact absurd hg (hs hw).1
      · simp [ProcSys.step, Process.stopLock, hg] at hst
        subst hst
        exact hs
  | waitReap ch err now =>
      simp only [ProcSys.step] at hst
      split at hst
      · simp only [Option.some.injEq] at hst
        subst hst
        intro _
        rcases (wait_state s.proc err now).1 with h | h <;> simp [h]
      · contradiction
  | waitClose ch =>
      simp only [ProcSys.step] at hst
      split at hst
      · simp only [Option.some.injEq] at hst
        subst hst
        exact hs
      · contradiction
  | incrementRestartCount =>
      simp only [ProcSys.step, Option.some.injEq] at hst
      subst hst
      exact hs
  | resetRestartCount =>
      simp only [ProcSys.step, Option.some.injEq] at hst
      subst hst
      exact hs
  | updateConfig cfg =>
      simp only [ProcSys.step, Option.some.injEq] at hst
      subst hst
      exact hs

/-- In every reachable state of a supervised service, `DoneInv` and `WaitInv`
hold. -/
theorem Reachable_inv (s : SupSys) (h : s.Reachable) : DoneInv s.ps ∧ WaitInv s.ps := by
  obtain ⟨cfg, acts, hrun⟩ := h
  refine SupSys.run_preserves (fun s => DoneInv s.ps ∧ WaitInv s.ps) (fun _ => True) ?_ acts
    (SupSys.init cfg) s ?_ (fun _ _ => trivial) hrun
  · intro s a s1 hinv _ hst
    rcases SupSys.step_ps s a s1 hst with h | ⟨pa, hpa⟩
    · rw [h]
      exact hinv
    · exact ⟨DoneInv_step s.ps pa s1.ps hinv.1 trivial hpa, WaitInv_step s.ps pa s1.ps hinv.2 hpa⟩
  · constructor
    · simp [DoneInv, SupSys.init, ProcSys.init, NewProcess, Process.quiet]
    · simp [WaitInv, SupSys.init, ProcSys.init, NewProcess]
/-- A step of a waiter or of a monitor other than the firing of a restart
timer, in a state where no monitor is inside the `proc.Start()` of line 61:
afterwards no monitor is, the `doneCh` of the process is the same, and the
state of the process is the same or has become `Stopped` or `Failed`. -/
theorem calm_sys_step (s : SupSys) (a : SupAction) (s1 : SupSys)
    (hmon : ∀ m ∈ s.monitors, m.pc ≠ .startLock ∧ m.pc ≠ .spawning)
    (hun : a.unattended = true) (hnt : ∀ i, a ≠ .mon i .timer)
    (hst : s.step a = some s1) :
    (∀ m ∈ s1.monitors, m.pc ≠ .startLock ∧ m.pc ≠ .spawning) ∧
    s1.ps.proc.doneCh = s.ps.proc.doneCh ∧
    (s1.ps.proc.state = s.ps.proc.state ∨ s1.ps.proc.state = .StateStopped ∨
      s1.ps.proc.state = .StateFailed) := by
  have hset : ∀ (i : Nat) (m1 : Monitor), (m1.pc ≠ .startLock ∧ m1.pc ≠ .spawning) →
      ∀ m ∈ s.monitors.set i m1, m.pc ≠ .startLock ∧ m.pc ≠ .spawning := by
    intro i m1 h1 m hm
    rcases List.mem_or_eq_of_mem_set hm with h | h
    · exact hmon m h
    · rw [h]
      exact h1
  cases a with
  | mon i ma =>
      simp only [SupSys.step] at hst
      cases hm : s.monitors[i]? with
      | none => simp [hm] at hst
      | some m =>
          simp only [hm] at hst
          have hmem : m ∈ s.monitors := by
            obtain ⟨hlt, heq⟩ := List.getElem?_eq_some_iff.mp hm
            rw [← heq]
            exact List.getElem_mem hlt
          have hpc := hmon m hmem
          obtain ⟨cfg, pc⟩ := m
          cases pc <;> cases ma <;> simp only [SupSys.monStep] at hst <;>
            try contradiction
          case sleeping.timer => exact absurd rfl (hnt i)
          case startLock.startLock => exact absurd rfl hpc.1
          case spawning.spawn => exact absurd rfl hpc.2
          case increment.increment =>
            simp only [ProcSys.step, Option.some.injEq] at hst
            subst hst
            exact ⟨hset i _ (by simp), rfl, Or.inl rfl⟩
          all_goals (repeat' split at hst)
          all_goals first
            | contradiction
            | (simp only [Option.some.injEq] at hst; subst hst
               exact ⟨hset i _ (by simp), rfl, Or.inl rfl⟩)
  | waitReap ch err t =>
      simp only [SupSys.step, ProcSys.step] at hst
      by_cases hch : ch ∈ s.ps.waiting
      · simp only [hch, if_true, Option.some.injEq] at hst
        subst hst
        have hw := wait_state s.ps.proc err t
        exact ⟨hmon, hw.2.2, Or.inr hw.1⟩
      · simp [hch] at hst
  | waitClose ch =>
      simp only [SupSys.step, ProcSys.step] at hst
      by_cases hch : ch ∈ s.ps.reaped
      · simp only [hch, if_true, Option.some.injEq] at hst
        subst hst
        exact ⟨hmon, rfl, Or.inl rfl⟩
      · simp [hch] at hst
  | _ => simp [SupAction.unattended] at hun
/-- A state that is none of `Running`, `Stopping` and `Starting` is `Stopped`
or `Failed`. -/
theorem settled_of_not (st : ServiceState) (h1 : st ≠ .StateRunning) (h2 : st ≠ .StateStopping)
    (h3 : st ≠ .StateStarting) : st = .StateStopped ∨ st = .StateFailed := by
  cases st <;> simp at h1 h2 h3 ⊢

/-- What `admits` says of a step of a goroutine of a process. -/
theorem admits_sys (s : StopAllSys) (i : Nat) (a : SupAction)
    (h : s.admits (.sys i a) = true) : a.unattended = true ∧ ∀ j, a ≠ .mon j .timer := by
  cases a with
  | mon j ma =>
      cases ma <;> simp [StopAllSys.admits, SupAction.unattended] at h ⊢
  | _ => simp_all [StopAllSys.admits]

/-- Replacing an entry by one that satisfies the invariant keeps the invariant
of the registry. -/
theorem StopAllInv_setEntry (s : StopAllSys) (i : Nat) (e1 : Supervised)
    (hinv : StopAllInv s) (he1 : e1.Inv)
    (hflags : (s.pc = .closing ∨ s.pc = .returned) →
      e1.scanned = true ∧ (e1.stopper = .absent ∨ e1.stopper = .returned)) :
    StopAllInv (s.setEntry i e1) := by
  obtain ⟨h1, h2, h3⟩ := hinv
  refine ⟨?_, ?_, h3⟩
  · intro e he
    rcases List.mem_or_eq_of_mem_set he with h | h
    · exact h1 e h
    · rw [h]
      exact he1
  · intro hpc e he
    rcases List.mem_or_eq_of_mem_set he with h | h
    · exact h2 hpc e h
    · rw [h]
      exact hflags hpc

/-- An entry read at an index is an entry of the registry. -/
theorem entry_mem (s : StopAllSys) (i : Nat) (e : Supervised) (h : s.entries[i]? = some e) :
    e ∈ s.entries := by
  obtain ⟨hlt, heq⟩ := List.getElem?_eq_some_iff.mp h
  rw [← heq]
  exact List.getElem_mem hlt

/-- Every admitted step keeps the invariant of the registry. -/
theorem StopAllInv_step (s : StopAllSys) (a : StopAllAction) (s1 : StopAllSys)
    (hinv : StopAllInv s) (hadm : s.admits a = true) (hst : s.step a = some s1) :
    StopAllInv s1 := by
  have hinv0 := hinv
  obtain ⟨hall, hfl, hcol⟩ := hinv
  cases a with
  | closeStopCh =>
      simp only [StopAllSys.step] at hst
      split at hst
      · simp only [Option.some.injEq] at hst
        subst hst
        refine ⟨?_, ?_, ?_⟩
        · intro e he
          obtain ⟨e0, he0, rfl⟩ := List.mem_map.mp he
          exact hall e0 he0
        · intro hpc
          simp at hpc
        · intro hpc
          simp at hpc
      · contradiction
  | scan i =>
      simp only [StopAllSys.step] at hst
      cases hget : s.entries[i]? with
      | none => simp [hget] at hst
      | some e =>
          simp only [hget] at hst
          obtain ⟨hD, hW, hNS, hM, hOK⟩ := hall e (entry_mem s i e hget)
          by_cases hg : s.pc = .looping ∧ e.scanned = false
          · simp only [hg, and_self, if_true] at hst
            have hpc : ¬ (s.pc = .closing ∨ s.pc = .returned) := by
              rw [hg.1]
              simp
            by_cases hr : e.sys.ps.proc.state = .StateRunning
            · simp only [hr, if_true, Option.some.injEq] at hst
              subst hst
              refine StopAllInv_setEntry s i _ hinv0 ⟨hD, hW, hNS, hM, ?_⟩
                (fun h => absurd h hpc)
              simp [Supervised.stateOK, hr]
            · simp only [hr, if_false, Option.some.injEq] at hst
              subst hst
              refine StopAllInv_setEntry s i _ hinv0 ⟨hD, hW, hNS, hM, ?_⟩
                (fun h => absurd h hpc)
              cases hs : e.stopper <;> simp only [Supervised.stateOK, hs, hg.2] at hOK ⊢ <;>
                simp at hOK
              simp only [if_true]
              exact settled_of_not _ hr hOK hNS
          · simp [hg] at hst
  | stopLock i =>
      simp only [StopAllSys.step] at hst
      cases hget : s.entries[i]? with
      | none => simp [hget] at hst
      | some e =>
          simp only [hget] at hst
          have hmem := entry_mem s i e hget
          obtain ⟨hD, hW, hNS, hM, hOK⟩ := hall e hmem
          by_cases hg : e.stopper = .launched
          · simp only [hg, if_true] at hst
            have hpc : ¬ (s.pc = .closing ∨ s.pc = .returned) := by
              intro h
              have h2 := (hfl h e hmem).2
              rw [hg] at h2
              simp at h2
            simp only [Supervised.stateOK, hg] at hOK
            by_cases hr : e.sys.ps.proc.state = .StateRunning
            · have hl : e.sys.ps.proc.stopLock =
                  .ok { e.sys.ps.proc with state := .StateStopping } := by
                simp [Process.stopLock, hr]
              have hps : e.sys.ps.step .stopLock =
                  some { e.sys.ps with proc := { e.sys.ps.proc with state := .StateStopping } } := by
                simp [ProcSys.step, hl]
              simp only [hl, Option.some.injEq] at hst
              subst hst
              refine StopAllInv_setEntry s i _ hinv0 ⟨?_, ?_, ?_, hM, ?_⟩
                (fun h => absurd h hpc)
              · exact DoneInv_step _ _ _ hD trivial hps
              · exact WaitInv_step _ _ _ hW hps
              · simp [Supervised.setProc]
              · simp [Supervised.stateOK, Supervised.setProc, hOK.1]
            · have hl : e.sys.ps.proc.stopLock =
                  .error ("service " ++ e.sys.ps.proc.config.Name ++ " is not running (state=" ++
                    e.sys.ps.proc.state.toString ++ ")") := by
                simp [Process.stopLock, hr]
              simp only [hl, Option.some.injEq] at hst
              subst hst
              refine StopAllInv_setEntry s i _ hinv0 ⟨hD, hW, hNS, hM, ?_⟩
                (fun h => absurd h hpc)
              simp only [Supervised.stateOK]
              exact ⟨hOK.1, settled_of_not _ hr hOK.2 hNS⟩
          · simp [hg] at hst
  | stopKill i err =>
      simp only [StopAllSys.step] at hst
      cases hget : s.entries[i]? with
      | none => simp [hget] at hst
      | some e =>
          simp only [hget] at hst
          have hmem := entry_mem s i e hget
          obtain ⟨hD, hW, hNS, hM, hOK⟩ := hall e hmem
          by_cases hg : e.stopper = .locked
          · simp only [hg, if_true] at hst
            have hpc : ¬ (s.pc = .closing ∨ s.pc = .returned) := by
              intro h
              have h2 := (hfl h e hmem).2
              rw [hg] at h2
              simp at h2
            simp only [Supervised.stateOK, hg] at hOK
            cases err with
            | some msg =>
                simp only [Option.some.injEq] at hst
                subst hst
                have hw : e.sys.ps.waiting = [] := by
                  simpa [StopAllSys.admits, StopAllSys.waiterRan, hget] using hadm
                refine StopAllInv_setEntry s i _ hinv0 ⟨hD, hW, hNS, hM, ?_⟩
                  (fun h => absurd h hpc)
                simp only [Supervised.stateOK]
                exact ⟨hOK.1, settled_of_not _ hOK.2 (hW hw).2 hNS⟩
            | none =>
                simp only [Option.some.injEq] at hst
                subst hst
                refine StopAllInv_setEntry s i _ hinv0 ⟨hD, hW, hNS, hM, ?_⟩
                  (fun h => absurd h hpc)
                simp only [Supervised.stateOK]
                exact ⟨hOK.1, hOK.2, trivial⟩
          · simp [hg] at hst
  | stopDone i =>
      simp only [StopAllSys.step] at hst
      cases hget : s.entries[i]? with
      | none => simp [hget] at hst
      | some e =>
          simp only [hget] at hst
          have hmem := entry_mem s i e hget
          obtain ⟨hD, hW, hNS, hM, hOK⟩ := hall e hmem
          cases hg : e.stopper with
          | selecting ch =>
              simp only [hg] at hst
              have hpc : ¬ (s.pc = .closing ∨ s.pc = .returned) := by
                intro h
                have h2 := (hfl h e hmem).2
                rw [hg] at h2
                simp at h2
              simp only [Supervised.stateOK, hg] at hOK
              by_cases hc : e.sys.ps.doneClosed ch = true
              · simp only [hc, if_true, Option.some.injEq] at hst
                subst hst
                refine StopAllInv_setEntry s i _ hinv0 ⟨hD, hW, hNS, hM, ?_⟩
                  (fun h => absurd h hpc)
                simp only [Supervised.stateOK]
                refine ⟨hOK.1, ?_⟩
                cases ch with
                | none => simp [ProcSys.doneClosed] at hc
                | some c =>
                    simp only [ProcSys.doneClosed, decide_eq_true_eq] at hc
                    obtain ⟨_, _, _, _, hcq, _⟩ := hD
                    have hq := hcq c hc hOK.2.2.symm
                    exact settled_of_not _ hq.2.1 hq.2.2 hNS
              · simp [hc] at hst
          | _ => simp [hg] at hst
  | stopTimeout i =>
      simp only [StopAllSys.step] at hst
      cases hget : s.entries[i]? with
      | none => simp [hget] at hst
      | some e =>
          simp only [hget] at hst
          have hmem := entry_mem s i e hget
          obtain ⟨hD, hW, hNS, hM, hOK⟩ := hall e hmem
          cases hg : e.stopper with
          | selecting ch =>
              simp only [hg, Option.some.injEq] at hst
              subst hst
              have hpc : ¬ (s.pc = .closing ∨ s.pc = .returned) := by
                intro h
                have h2 := (hfl h e hmem).2
                rw [hg] at h2
                simp at h2
              simp only [Supervised.stateOK, hg] at hOK
              have hw : e.sys.ps.waiting = [] := by
                simpa [StopAllSys.admits, StopAllSys.waiterRan, hget] using hadm
              refine StopAllInv_setEntry s i _ hinv0 ⟨hD, hW, hNS, hM, ?_⟩
                (fun h => absurd h hpc)
              simp only [Supervised.stateOK]
              exact ⟨hOK.1, settled_of_not _ hOK.2.1 (hW hw).2 hNS⟩
          | _ => simp [hg] at hst
  | waitGroup =>
      simp only [StopAllSys.step] at hst
      split at hst
      · rename_i hg
        simp only [Option.some.injEq] at hst
        subst hst
        refine ⟨hall, ?_, ?_⟩
        · intro _ e he
          have h := List.all_eq_true.mp hg.2 e he
          simp only [Bool.and_eq_true, Bool.or_eq_true, beq_iff_eq] at h
          exact h
        · intro hpc
          simp at hpc
      · contradiction
  | closeCollectors =>
      simp only [StopAllSys.step] at hst
      split at hst
      · rename_i hg
        simp only [Option.some.injEq] at hst
        subst hst
        refine ⟨hall, ?_, ?_⟩
        · intro _ e he
          exact hfl (Or.inl hg) e he
        · intro _ c hc
          exact (closeAll_spec s.collectors).2 c hc
      · contradiction
  | sys i a =>
      simp only [StopAllSys.step] at hst
      cases hget : s.entries[i]? with
      | none => simp [hget] at hst
      | some e =>
          simp only [hget] at hst
          have hmem := entry_mem s i e hget
          obtain ⟨hD, hW, hNS, hM, hOK⟩ := hall e hmem
          cases hstep : e.sys.step a with
          | none => simp [hstep] at hst
          | some t =>
              simp only [hstep, Option.some.injEq] at hst
              subst hst
              obtain ⟨hun, hnt⟩ := admits_sys s i a hadm
              obtain ⟨hM1, hdone, hstate⟩ := calm_sys_step e.sys a t hM hun hnt hstep
              have hDW : DoneInv t.ps ∧ WaitInv t.ps := by
                rcases SupSys.step_ps e.sys a t hstep with h | ⟨pa, hpa⟩
                · rw [h]
                  exact ⟨hD, hW⟩
                · exact ⟨DoneInv_step _ pa _ hD trivial hpa, WaitInv_step _ pa _ hW hpa⟩
              have hNS1 : t.ps.proc.state ≠ .StateStarting := by
                rcases hstate with h | h | h <;> rw [h]
                · exact hNS
                · simp
                · simp
              refine StopAllInv_setEntry s i _ hinv0 ⟨hDW.1, hDW.2, hNS1, hM1, ?_⟩
                (fun h => hfl h e hmem)
              cases hs : e.stopper <;> simp only [Supervised.stateOK, hs] at hOK ⊢
              · by_cases hsc : e.scanned = true
                · simp only [hsc, if_true] at hOK ⊢
                  rcases hstate with h | h | h
                  · rw [h]; exact hOK
                  · exact Or.inl h
                  · exact Or.inr h
                · simp only [hsc] at hOK ⊢
                  rcases hstate with h | h | h <;> rw [h]
                  · exact hOK
                  · simp
                  · simp
              · refine ⟨hOK.1, ?_⟩
                rcases hstate with h | h | h <;> rw [h]
                · exact hOK.2
                · simp
                · simp
              · refine ⟨hOK.1, ?_⟩
                rcases hstate with h | h | h <;> rw [h]
                · exact hOK.2
                · simp
                · simp
              · refine ⟨hOK.1, ?_, hOK.2.2.trans hdone.symm⟩
                rcases hstate with h | h | h <;> rw [h]
                · exact hOK.2.1
                · simp
                · simp
              · refine ⟨hOK.1, ?_⟩
                rcases hstate with h | h | h
                · rw [h]; exact hOK.2
                · exact Or.inl h
                · exact Or.inr h
/-- No step changes the names of the registered processes and collectors. -/
theorem StopAllSys.step_names (s : StopAllSys) (a : StopAllAction) (s1 : StopAllSys)
    (hst : s.step a = some s1) :
    s1.entries.map (fun e => e.name) = s.entries.map (fun e => e.name) ∧
    s1.collectors.map Prod.fst = s.collectors.map Prod.fst := by
  have hset : ∀ (i : Nat) (e e1 : Supervised), s.entries[i]? = some e → e1.name = e.name →
      (s.entries.set i e1).map (fun e => e.name) = s.entries.map (fun e => e.name) := by
    intro i e e1 hget hname
    obtain ⟨hlt, heq⟩ := List.getElem?_eq_some_iff.mp hget
    rw [List.map_set, hname, ← heq]
    apply List.ext_getElem
    · simp
    · intro n h1 h2
      by_cases hn : i = n
      · subst hn
        simp
      · simp [List.getElem_set_ne hn]
  cases a with
  | closeStopCh =>
      simp only [StopAllSys.step] at hst
      split at hst
      · simp only [Option.some.injEq] at hst
        subst hst
        simp [Function.comp_def]
      · contradiction
  | waitGroup =>
      simp only [StopAllSys.step] at hst
      split at hst
      · simp only [Option.some.injEq] at hst
        subst hst
        exact ⟨rfl, rfl⟩
      · contradiction
  | closeCollectors =>
      simp only [StopAllSys.step] at hst
      split at hst
      · simp only [Option.some.injEq] at hst
        subst hst
        exact ⟨rfl, (closeAll_spec s.collectors).1⟩
      · contradiction
  | scan i | stopLock i | stopKill i err | stopDone i | stopTimeout i | sys i a =>
      simp only [StopAllSys.step] at hst
      cases hget : s.entries[i]? with
      | none => simp [hget] at hst
      | some e =>
          simp only [hget] at hst
          repeat' split at hst
          all_goals first
            | contradiction
            | (simp only [Option.some.injEq] at hst; subst hst
               exact ⟨hset i e _ hget rfl, rfl⟩)

/-- The invariant and the names along a run of admitted steps. -/
theorem StopAllInv_run (acts : List StopAllAction) :
    ∀ (s s1 : StopAllSys), StopAllInv s → s.runCalm acts = some s1 →
      StopAllInv s1 ∧ s1.entries.map (fun e => e.name) = s.entries.map (fun e => e.name) ∧
      s1.collectors.map Prod.fst = s.collectors.map Prod.fst := by
  induction acts with
  | nil =>
      intro s s1 hinv hrun
      simp only [StopAllSys.runCalm, Option.some.injEq] at hrun
      subst hrun
      exact ⟨hinv, rfl, rfl⟩
  | cons a rest ih =>
      intro s s1 hinv hrun
      simp only [StopAllSys.runCalm] at hrun
      by_cases hadm : s.admits a = true
      · simp only [hadm, if_true] at hrun
        cases hst : s.step a with
        | none => simp [hst] at hrun
        | some s2 =>
            simp only [hst] at hrun
            have h2 := ih s2 s1 (StopAllInv_step s a s2 hinv hadm hst) hrun
            have hn := StopAllSys.step_names s a s2 hst
            exact ⟨h2.1, h2.2.1.trans hn.1, h2.2.2.trans hn.2⟩
      · simp [hadm] at hrun

/-- The invariant holds when `StopAll` is called on a registry of reachable,
settled processes. -/
theorem StopAllInv_begin (procs : List (String × SupSys))
    (collectors : List (String × Collector))
    (hprocs : ∀ p ∈ procs, p.2.Reachable ∧ p.2.Settled) :
    StopAllInv (StopAllSys.begin procs collectors) := by
  refine ⟨?_, ?_, ?_⟩
  · intro e he
    simp only [StopAllSys.begin, List.mem_map] at he
    obtain ⟨p, hp, rfl⟩ := he
    obtain ⟨hreach, hstate, hmon⟩ := hprocs p hp
    obtain ⟨hD, hW⟩ := Reachable_inv p.2 hreach
    refine ⟨hD, hW, ?_, hmon, ?_⟩
    · rcases hstate with h | h | h <;> simp [h]
    · simp only [Supervised.stateOK]
      rcases hstate with h | h | h <;> simp [h]
  · intro hpc
    simp [StopAllSys.begin] at hpc
  · intro hpc
    simp [StopAllSys.begin] at hpc

/-- C14 (amended): let `StopAll` be called on a registry in which every process
is in a reachable state with state `Running`, `Stopped` or `Failed` and no
monitor has left its restart delay for `proc.Start()`. Consider every
interleaving of `StopAll` and its goroutines with the waiters and the monitors
of the processes in which no restart timer of a monitor fires and in which a
`Stop` issued by `StopAll` leaves early (its kill fails, or its `stopTimeout`
fires) only once the waiter of the child has run. Then, when `StopAll` has
returned, and at every later moment of such a run, the same names are
registered, every process is `Stopped` or `Failed`, and every collector has
been closed. -/
theorem C14_stopAll (procs : List (String × SupSys)) (collectors : List (String × Collector))
    (acts : List StopAllAction) (s : StopAllSys)
    (hprocs : ∀ p ∈ procs, p.2.Reachable ∧ p.2.Settled)
    (hrun : (StopAllSys.begin procs collectors).runCalm acts = some s)
    (hret : s.pc = .returned) :
    s.entries.map (fun e => e.name) = procs.map Prod.fst ∧
    s.collectors.map Prod.fst = collectors.map Prod.fst ∧
    (∀ e ∈ s.entries,
      e.sys.ps.proc.state = .StateStopped ∨ e.sys.ps.proc.state = .StateFailed) ∧
    (∀ c ∈ s.collectors, c.2.closed = true) := by
  obtain ⟨⟨hall, hfl, hcol⟩, hn1, hn2⟩ := StopAllInv_run acts _ s
    (StopAllInv_begin procs collectors hprocs) hrun
  refine ⟨?_, hn2, ?_, hcol hret⟩
  · rw [hn1]
    simp [StopAllSys.begin, Function.comp_def]
  · intro e he
    obtain ⟨_, _, _, _, hOK⟩ := hall e he
    obtain ⟨hsc, hstop⟩ := hfl (Or.inr hret) e he
    rcases hstop with h | h <;> simp only [Supervised.stateOK, h, hsc, if_true] at hOK
    · exact hOK
    · exact hOK.2

/-- C14 (amended) on a registry with the running service `web`, whose monitor
is blocked on `doneCh`, and the failed service `job`, whose monitor sleeps in
its restart delay: `StopAll` returns, the monitors return, and `web` is
`Stopped`, `job` is `Failed`, both collectors closed. -/
theorem C14_stopAll_witness :
    (StopAllSys.begin twoServices twoCollectors).runCalm stopAllActs = some twoServicesStopped ∧
    twoServicesStopped.pc = .returned ∧
    twoServicesStopped.entries.map
        (fun e => (e.name, e.sys.ps.proc.state, e.sys.monitors.map (fun m => m.pc))) =
      [("web", .StateStopped, [.done false]), ("job", .StateFailed, [.done false])] ∧
    (∀ e ∈ twoServicesStopped.entries,
      e.sys.ps.proc.state = .StateStopped ∨ e.sys.ps.proc.state = .StateFailed) ∧
    (∀ c ∈ twoServicesStopped.collectors, c.2.closed = true) :=
  ⟨by decide, by decide, by decide,
    (C14_stopAll twoServices twoCollectors stopAllActs twoServicesStopped
      (by
        intro p hp
        simp only [twoServices, List.mem_cons, List.mem_singleton, List.not_mem_nil,
          or_false] at hp
        rcases hp with rfl | rfl
        · exact ⟨⟨webCfg, startServiceOk 4242 10 ++ [.mon 0 .readConfig, .mon 0 .getDoneCh],
            by decide⟩, by unfold SupSys.Settled; decide⟩
        · exact ⟨⟨jobCfg, startServiceOk 4300 10 ++ firstRestartActs, by decide⟩,
            by unfold SupSys.Settled; decide⟩)
      (by decide) (by decide)).2.2⟩

/-! ### C12: the events of a child that prints and exits with code 0 -/

/-- A step of a monitor or of a waiter does not read the events: on a state
with other events it does the same and appends the same events. -/
theorem SupSys.step_events (s : SupSys) (a : SupAction) (s1 : SupSys) (ev : List Event)
    (hun : a.unattended = true) (hst : s.step a = some s1) :
    ∃ new, s1.events = s.events ++ new ∧
      ({ s with events := ev } : SupSys).step a = some { s1 with events := ev ++ new } := by
  cases a with
  | mon i ma =>
      simp only [SupSys.step] at hst ⊢
      cases hm : s.monitors[i]? with
      | none => simp [hm] at hst
      | some m =>
          simp only [hm] at hst ⊢
          obtain ⟨cfg, pc⟩ := m
          cases pc <;> cases ma <;> simp only [SupSys.monStep] at hst ⊢ <;>
            try contradiction
          · -- born
            simp only [Option.some.injEq] at hst
            subst hst
            exact ⟨[], by simp [SupSys.setMon], by simp [SupSys.setMon]⟩
          · -- loopTop
            simp only [Option.some.injEq] at hst
            subst hst
            exact ⟨[], by simp [SupSys.setMon], by simp [SupSys.setMon]⟩
          · -- waitDone
            split at hst
            · rename_i hc
              simp only [Option.some.injEq] at hst
              subst hst
              exact ⟨[], by simp [SupSys.setMon], by simp [SupSys.setMon, hc]⟩
            · contradiction
          · -- readState
            split at hst
            · rename_i hc
              simp only [Option.some.injEq] at hst
              subst hst
              exact ⟨[], by simp [SupSys.setMon], by simp [SupSys.setMon, hc]⟩
            · rename_i hc
              split at hst
              · rename_i hc2
                simp only [Option.some.injEq] at hst
                subst hst
                exact ⟨[failedEvent cfg "service exited and auto_restart is disabled"],
                  by simp [SupSys.setMon, SupSys.emit],
                  by simp [SupSys.setMon, SupSys.emit, hc, hc2]⟩
              · rename_i hc2
                simp only [Option.some.injEq] at hst
                subst hst
                exact ⟨[], by simp [SupSys.setMon], by simp [SupSys.setMon, hc, hc2]⟩
          · -- checkCount
            split at hst
            · rename_i hc
              simp only [Option.some.injEq] at hst
              subst hst
              exact ⟨[failedEvent cfg "exceeded max restarts"],
                by simp [SupSys.setMon, SupSys.emit],
                by simp [SupSys.setMon, SupSys.emit, hc]⟩
            · rename_i hc
              simp only [Option.some.injEq] at hst
              subst hst
              exact ⟨[], by simp [SupSys.setMon], by simp [SupSys.setMon, hc]⟩
          · -- increment
            cases hp : s.ps.step .incrementRestartCount with
            | none => simp [hp] at hst
            | some ps =>
                simp only [hp, Option.some.injEq] at hst ⊢
                subst hst
                exact ⟨[], by simp [SupSys.setMon], by simp [SupSys.setMon]⟩
          · -- sleeping, timer
            simp only [Option.some.injEq] at hst
            subst hst
            exact ⟨[], by simp [SupSys.setMon], by simp [SupSys.setMon]⟩
          · -- sleeping, stopSignal
            split at hst
            · rename_i hc
              simp only [Option.some.injEq] at hst
              subst hst
              exact ⟨[], by simp [SupSys.setMon], by simp [SupSys.setMon, hc]⟩
            · contradiction
          · -- startLock
            cases hl : s.ps.proc.startLock with
            | error e =>
                simp only [hl, Option.some.injEq] at hst ⊢
                subst hst
                exact ⟨[failedEvent cfg ("restart failed: " ++ e)],
                  by simp [SupSys.setMon, SupSys.emit], by simp [SupSys.setMon, SupSys.emit]⟩
            | ok p =>
                simp only [hl] at hst ⊢
                cases hp : s.ps.step .startLock with
                | none => simp [hp] at hst
                | some ps =>
                    simp only [hp, Option.some.injEq] at hst ⊢
                    subst hst
                    exact ⟨[], by simp [SupSys.setMon], by simp [SupSys.setMon]⟩
          · -- spawning
            rename_i r now
            cases hp : s.ps.step (.spawn r now) with
            | none => simp [hp] at hst
            | some ps =>
                simp only [hp] at hst ⊢
                cases he : s.ps.proc.spawnError r with
                | some e =>
                    simp only [he, Option.some.injEq] at hst ⊢
                    subst hst
                    exact ⟨[failedEvent cfg ("restart failed: " ++ e)],
                      by simp [SupSys.setMon, SupSys.emit],
                      by simp [SupSys.setMon, SupSys.emit]⟩
                | none =>
                    simp only [he, Option.some.injEq] at hst ⊢
                    subst hst
                    exact ⟨[{ type := .EventServiceRestarted, Service := cfg.Name,
                              Message := "service restarted" }],
                      by simp [SupSys.setMon, SupSys.emit],
                      by simp [SupSys.setMon, SupSys.emit]⟩
  | waitReap ch err t =>
      simp only [SupSys.step] at hst ⊢
      cases hp : s.ps.step (.waitReap ch err t) with
      | none => simp [hp] at hst
      | some ps =>
          simp only [hp, Option.some.injEq] at hst ⊢
          subst hst
          exact ⟨[], by simp, by simp⟩
  | waitClose ch =>
      simp only [SupSys.step] at hst ⊢
      cases hp : s.ps.step (.waitClose ch) with
      | none => simp [hp] at hst
      | some ps =>
          simp only [hp, Option.some.injEq] at hst ⊢
          subst hst
          exact ⟨[], by simp, by simp⟩
  | _ => simp [SupAction.unattended] at hun

/-- The events of the lines of two sequences of actions. -/
theorem lineEvents_append (name : String) (l1 l2 : List LogAction) :
    lineEvents name (l1 ++ l2) = lineEvents name l1 ++ lineEvents name l2 := by
  induction l1 with
  | nil => rfl
  | cons a rest ih =>
      cases a with
      | sup a => simpa [lineEvents] using ih
      | line text stream now => simp [lineEvents, ih]

/-- The steps of the monitor, of the waiter and of the log readers keep
`LogInv` while the child exits with code 0; a line adds its event. -/
theorem LogInv_step (cfg : ServiceConfig) (early logs : List Event) (s : LogSys) (a : LogAction)
    (s1 : LogSys) (hinv : LogInv cfg early logs s)
    (hok : a.unattended = true ∧ a.exitsClean = true) (hst : s.step a = some s1) :
    LogInv cfg early (logs ++ lineEvents cfg.Name [a]) s1 := by
  obtain ⟨hclean, hev, hname⟩ := hinv
  cases a with
  | sup a =>
      simp only [LogSys.step] at hst
      cases hs : s.sup.step a with
      | none => simp [hs] at hst
      | some t =>
          simp only [hs, Option.some.injEq] at hst
          subst hst
          obtain ⟨new, hnew, hstep⟩ := SupSys.step_events s.sup a t [startedEvent cfg] hok.1 hs
          have hc1 := CleanInv_step cfg _ a _ hclean hok hstep
          have hnil : new = [] := by
            have h := hc1.events
            simp only at h
            exact List.append_right_eq_self.mp h
          subst hnil
          refine ⟨?_, ?_, hname⟩
          · simpa using hc1
          · simp [lineEvents, hnew, hev]
  | line text stream now =>
      simp only [LogSys.step] at hst
      split at hst
      · simp only [Option.some.injEq] at hst
        subst hst
        refine ⟨?_, ?_, ?_⟩
        · simpa [SupSys.emit] using hclean
        · simp [SupSys.emit, hev, lineEvents, logEvent, Collector.entry, hname]
        · exact (collectLine_serviceName s.collector text stream now).1.trans hname
      · contradiction

/-- `LogInv` along a run of such steps. -/
theorem LogInv_run (cfg : ServiceConfig) (early : List Event) (acts : List LogAction) :
    ∀ (logs : List Event) (s s1 : LogSys), LogInv cfg early logs s →
      (∀ a ∈ acts, a.unattended = true ∧ a.exitsClean = true) → s.run acts = some s1 →
      LogInv cfg early (logs ++ lineEvents cfg.Name acts) s1 := by
  induction acts with
  | nil =>
      intro logs s s1 hinv _ hrun
      simp only [LogSys.run, Option.some.injEq] at hrun
      subst hrun
      simpa [lineEvents] using hinv
  | cons a rest ih =>
      intro logs s s1 hinv hok hrun
      simp only [LogSys.run] at hrun
      cases hst : s.step a with
      | none => simp [hst] at hrun
      | some s2 =>
          simp only [hst] at hrun
          have h2 := LogInv_step cfg early logs s a s2 hinv (hok a (List.mem_cons_self _ _)) hst
          have h3 := ih _ s2 s1 h2 (fun b hb => hok b (List.mem_cons_of_mem _ hb)) hrun
          rw [List.append_assoc, ← lineEvents_append] at h3
          exact h3

/-- A run of line readings only appends the events of the lines; it needs a
spawned child and changes nothing else of the service. -/
theorem lines_run (early : List LogAction) :
    ∀ (s s1 : LogSys), (∀ a ∈ early, a.isLine = true) → s.run early = some s1 →
      s1.sup = { s.sup with events := s.sup.events ++ lineEvents s.collector.serviceName early } ∧
      s1.collector.serviceName = s.collector.serviceName := by
  induction early with
  | nil =>
      intro s s1 _ hrun
      simp only [LogSys.run, Option.some.injEq] at hrun
      subst hrun
      simp [lineEvents]
  | cons a rest ih =>
      intro s s1 hl hrun
      have ha := hl a (List.mem_cons_self _ _)
      cases a with
      | sup a => simp [LogAction.isLine] at ha
      | line text stream now =>
          simp only [LogSys.run, LogSys.step] at hrun
          by_cases hc : s.sup.ps.proc.cmd.isSome = true
          · simp only [hc, if_true] at hrun
            have h := ih _ s1 (fun b hb => hl b (List.mem_cons_of_mem _ hb)) hrun
            have hn := (collectLine_serviceName s.collector text stream now).1
            simp only [hn] at h
            refine ⟨?_, h.2⟩
            rw [h.1]
            simp [SupSys.emit, lineEvents, logEvent, Collector.entry]
          · simp [hc] at hrun

/-- A run of actions of the service alone, seen in the system with the log
readers. -/
theorem LogSys.run_sup (acts : List SupAction) :
    ∀ (s : LogSys) (t : SupSys), s.sup.run acts = some t →
      s.run (acts.map .sup) = some { s with sup := t } := by
  induction acts with
  | nil =>
      intro s t h
      simp only [SupSys.run, Option.some.injEq] at h
      subst h
      rfl
  | cons a rest ih =>
      intro s t h
      simp only [SupSys.run] at h
      cases hst : s.sup.step a with
      | none => simp [hst] at h
      | some s2 =>
          simp only [hst] at h
          simp only [List.map_cons, LogSys.run, LogSys.step, hst]
          exact ih { s with sup := s2 } t h

/-- A run of two lists of actions is the run of the first followed by the run
of the second. -/
theorem LogSys.run_concat (l1 l2 : List LogAction) :
    ∀ s : LogSys, s.run (l1 ++ l2) = (s.run l1).bind (fun s1 => s1.run l2) := by
  induction l1 with
  | nil => intro s; rfl
  | cons a rest ih =>
      intro s
      simp only [List.cons_append, LogSys.run]
      cases s.step a with
      | none => rfl
      | some s1 => exact ih s1

/-- The events of lines are `service.log` events. -/
theorem lineEvents_type (name : String) (l : List LogAction) :
    ∀ e ∈ lineEvents name l, e.type = .EventServiceLog := by
  induction l with
  | nil => intro e he; simp [lineEvents] at he
  | cons a rest ih =>
      intro e he
      cases a with
      | sup a => exact ih e (by simpa [lineEvents] using he)
      | line text stream now =>
          simp only [lineEvents, List.mem_cons] at he
          rcases he with h | h
          · subst h; rfl
          · exact ih e h

/-- C12 (amended): a fresh service (with `auto_restart` off, or on) is started
and its child prints any lines and exits by itself with code 0. The log
readers act from the spawn on (the lines `early` are read before `StartService`
has emitted its event), the waiter and the monitor from the return of
`StartService` on, and nothing else acts. Then in every interleaving the events
emitted are: one `service.log` for every line read before the event of
`StartService`, then `service.started`, then one `service.log` for every line
read since, in the order of the lines, and nothing else; in particular no
`service.stopped` is emitted. The restart count is 0, and once the waiter has
run the state is `Stopped` with exit code 0. The waiter and the monitor do run
to their end: the second part is such a run, with three lines. -/
theorem C12_clean_exit (cfg : ServiceConfig) (logDir : String) (pid : Int) (now : Nat)
    (early acts : List LogAction) (s : LogSys)
    (hearly : ∀ a ∈ early, a.isLine = true)
    (hacts : ∀ a ∈ acts, a.unattended = true ∧ a.exitsClean = true)
    (hrun : (LogSys.init cfg logDir).run
      ([.sup .extStartLock, .sup (.extSpawn (.started pid) now)] ++ early ++
        [.sup .extFinishStart] ++ acts) = some s) :
    (s.sup.events =
        lineEvents cfg.Name early ++ startedEvent cfg :: lineEvents cfg.Name acts ∧
      (∀ e ∈ s.sup.events, e.type ≠ .EventServiceStopped) ∧
      s.sup.ps.proc.restartCount = 0 ∧
      (s.sup.ps.waiting = [] →
        s.sup.ps.proc.state = .StateStopped ∧ s.sup.ps.proc.exitCode = some 0)) ∧
    ∀ t, ((LogSys.init cfg logDir).run (printAndExitActs pid now t)).map
      (fun s => (s.sup.events, s.sup.monitors.map (fun m => m.pc), s.sup.ps.waiting,
        s.sup.ps.proc.state, s.sup.ps.proc.exitCode, s.sup.ps.proc.restartCount,
        s.collector.lines)) =
      some ([{ type := .EventServiceLog, Service := cfg.Name, Message := "early" },
          startedEvent cfg,
          { type := .EventServiceLog, Service := cfg.Name, Message := "hello" },
          { type := .EventServiceLog, Service := cfg.Name, Message := "bye" }],
        [.done false], [], .StateStopped, some 0, 0,
        [{ Service := cfg.Name, Line := "early", Stream := "stdout", Timestamp := now },
         { Service := cfg.Name, Line := "hello", Stream := "stdout", Timestamp := t },
         { Service := cfg.Name, Line := "bye", Stream := "stderr", Timestamp := t }]) := by
  constructor
  · obtain ⟨s0, hs0, hinv0⟩ := CleanInv_start cfg pid now
    -- the state between the spawn and the event of `StartService`
    obtain ⟨m, hm, hfin⟩ : ∃ m, (SupSys.init cfg).run
          [.extStartLock, .extSpawn (.started pid) now] = some m ∧
        ∀ L, ({ m with events := L } : SupSys).step .extFinishStart =
          some { s0 with events := L ++ [startedEvent cfg] } := by
      refine ⟨_, rfl, ?_⟩
      intro L
      simp only [startServiceOk] at hs0
      have h0 : s0 = _ := (Option.some.inj hs0).symm
      rw [h0]
      rfl
    have hstart := LogSys.run_sup [.extStartLock, .extSpawn (.started pid) now]
      (LogSys.init cfg logDir) m hm
    simp only [List.map_cons, List.map_nil] at hstart
    rw [List.append_assoc, List.append_assoc, LogSys.run_concat, hstart] at hrun
    simp only [Option.bind_eq_bind, Option.some_bind] at hrun
    rw [LogSys.run_concat] at hrun
    cases he : ({ LogSys.init cfg logDir with sup := m } : LogSys).run early with
    | none => simp [he] at hrun
    | some s2 =>
        simp only [he, Option.some_bind] at hrun
        obtain ⟨hsup2, hname2⟩ := lines_run early _ s2 hearly he
        have hmev : m.events = [] := by
          have := Option.some.inj hm
          rw [← this]
          rfl
        simp only [hmev, List.nil_append] at hsup2
        have hname0 : (LogSys.init cfg logDir).collector.serviceName = cfg.Name := rfl
        simp only [hname0] at hsup2 hname2
        simp only [List.singleton_append, LogSys.run, LogSys.step] at hrun
        rw [hsup2, hfin] at hrun
        simp only at hrun
        have hinv : LogInv cfg (lineEvents cfg.Name early) []
            { s2 with sup := { s0 with events := lineEvents cfg.Name early ++ [startedEvent cfg] } } := by
          refine ⟨?_, rfl, hname2⟩
          have h : ({ s0 with events := [startedEvent cfg] } : SupSys) = s0 := by
            rw [← hinv0.events]
          simpa [h] using hinv0
        have h := LogInv_run cfg _ acts [] _ s hinv hacts hrun
        obtain ⟨hclean, hev, _⟩ := h
        simp only [List.nil_append] at hev
        refine ⟨hev, ?_, hclean.count, ?_⟩
        · intro e he
          rw [hev] at he
          rcases List.mem_append.mp he with h | h
          · rw [lineEvents_type cfg.Name early e h]
            decide
          · rcases List.mem_cons.mp h with h | h
            · subst h
              simp [startedEvent]
            · rw [lineEvents_type cfg.Name acts e h]
              decide
        · intro hw
          rcases hclean.child with ⟨_, h2, _, _⟩ | ⟨h1, h2, _, _⟩
          · simp only at h2
            rw [h2] at hw
            simp at hw
          · exact ⟨h1, h2⟩
  · intro t
    rfl

/-- C12 (amended) on the service `demoCfg`, whose `auto_restart` is off: the
child prints one line before `StartService` has emitted its event and one
after, and the waiter has run, the monitor not yet woken. The events are the
`service.log` of the first line, `service.started`, and the `service.log` of
the second line. -/
theorem C12_clean_exit_witness :
    demoCfg.AutoRestart = false ∧
    ∃ s, (LogSys.init demoCfg "logs").run
        ([.sup .extStartLock, .sup (.extSpawn (.started 4242) 10)] ++
          [.line "early" "stdout" 10] ++ [.sup .extFinishStart] ++
          [.line "hello" "stdout" 11, .sup (.waitReap 2 none 11)]) = some s ∧
      s.sup.events =
        [{ type := .EventServiceLog, Service := "svc", Message := "early" },
         startedEvent demoCfg,
         { type := .EventServiceLog, Service := "svc", Message := "hello" }] ∧
      s.sup.ps.proc.restartCount = 0 ∧ s.sup.ps.proc.state = .StateStopped :=
  ⟨by decide,
    ((LogSys.init demoCfg "logs").run
      ([.sup .extStartLock, .sup (.extSpawn (.started 4242) 10)] ++
        [.line "early" "stdout" 10] ++ [.sup .extFinishStart] ++
        [.line "hello" "stdout" 11, .sup (.waitReap 2 none 11)])).getD
      (LogSys.init demoCfg "logs"), by decide,
    (C12_clean_exit demoCfg "logs" 4242 10 [.line "early" "stdout" 10]
      [.line "hello" "stdout" 11, .sup (.waitReap 2 none 11)] _ (by decide) (by decide)
      (by decide)).1.1,
    (C12_clean_exit demoCfg "logs" 4242 10 [.line "early" "stdout" 10]
      [.line "hello" "stdout" 11, .sup (.waitReap 2 none 11)] _ (by decide) (by decide)
      (by decide)).1.2.2.1,
    ((C12_clean_exit demoCfg "logs" 4242 10 [.line "early" "stdout" 10]
      [.line "hello" "stdout" 11, .sup (.waitReap 2 none 11)] _ (by decide) (by decide)
      (by decide)).1.2.2.2 (by decide)).1⟩

end Goser
